import Mathlib

/-!
bsnmpclient: the query-driving core of `apps/main.c`.

A shallow embedding of the value codec, the OID token parsers of the three
tools, the admission hooks, the Get, Set and Walk drivers and the function
`main` (from the return of the option parser on) of `src/apps/main.c`, with
the data model of `src/include/bsnmp/snmp.h`.

Conventions of the embedding.

* A C string pointer is the list of characters stored from the pointer on.
  Reading at the end of the list reads the terminating NUL, `p + 1` is
  `List.drop 1`, and a NUL inside a list also ends the string for the C
  library routines (it is neither a digit nor white space). Memory behind the
  end of the list reads as NUL as well.
* Machine integers are `Nat`/`Int` with the conversions written out
  (`to_uint32`, `to_int32`, `to_uint8`).
* `errno` is saved and restored by every routine that uses it, so only the
  value tested right after the library call is modelled.
* The members of the union `snmp_values` are separate fields; only the member
  selected by the syntax tag is meaningful.
* Routines of the bsnmp libraries that `main.c` calls are either fields of
  `Collab` (their behaviour is a parameter) or definitions marked as modelled
  from the spec.
* The agent is the list of the outcomes of the successive `snmp_dialog` calls;
  what the drivers print is collected in a list of `Emitted` events.
-/

namespace Bsnmp

/-! ## Build parameters and C library routines -/

/-- Parameters of the build that the sources leave to the platform or to headers that
are not part of `main.c`: the width of `long`, whether the C library reports `EINVAL`
when `strtol`/`strtoul` find no digits (POSIX allows both), and the macros
`ASN_MAXOIDLEN` and `MAXSTR`. ISO C guarantees at least 32 bits for `long`. The last
three fields are further constants of `asn1.h` and `bsnmptools.h`: the longest octet
string, the access level from which an object is writable, and the code of the quiet
output mode. -/
structure Build where
  long_bits : Nat
  long_ge : 32 ≤ long_bits
  einval : Bool
  ASN_MAXOIDLEN : Nat
  MAXSTR : Nat
  ASN_MAXOCTETSTRING : Nat
  SNMP_ACCESS_SET : Nat
  OUTPUT_QUIET : Nat

/-- The header constants the Set token parser of `main.c` reads (`asn1.h`,
`bsnmptools.h`): the size of the buffer for a numeric OID text, the longest syntax
name with its colon, the longest value text, and the code of the verbose output
mode. -/
structure Limits where
  ASN_OIDSTRLEN : Nat
  MAX_CMD_SYNTAX_LEN : Nat
  MAX_OCTSTRING_LEN : Nat
  OUTPUT_VERBOSE : Nat

/-- The bsnmp values of these constants. -/
def bsnmp_limits : Limits := ⟨1408, 12, 65535, 1⟩

/-- LP64 build (the non-Windows branch of `main.c`) with a C library that does not set
`errno` when no digits are found, and the bsnmp values of the header constants (128,
1000, 65535, 2 and 3). -/
def lp64 : Build := ⟨64, by decide, false, 128, 1000, 65535, 2, 3⟩

/-- LP64 build with a C library that reports `EINVAL` when no digits are found. -/
def lp64_einval : Build := ⟨64, by decide, true, 128, 1000, 65535, 2, 3⟩

/-- LLP64 build (the `_WIN32` branch of `main.c`): `long` has 32 bits. -/
def llp64 : Build := ⟨32, by decide, false, 128, 1000, 65535, 2, 3⟩

def ERANGE : Nat := 34
def EINVAL : Nat := 22

/-- The NUL character that ends a C string. -/
def NUL : Char := Char.ofNat 0

/-- Value of `*p`: the first stored character, NUL at the end. -/
def peek (p : List Char) : Char := p.headD NUL

def isdigit (c : Char) : Bool := decide (48 ≤ c.toNat ∧ c.toNat ≤ 57)

def isalpha (c : Char) : Bool :=
  decide ((65 ≤ c.toNat ∧ c.toNat ≤ 90) ∨ (97 ≤ c.toNat ∧ c.toNat ≤ 122))

/-- White space of the C locale: space, `\t`, `\n`, `\v`, `\f`, `\r`. -/
def isspace (c : Char) : Bool := decide (c.toNat = 32 ∨ (9 ≤ c.toNat ∧ c.toNat ≤ 13))

def to_uint8 (n : Nat) : Nat := n % 2 ^ 8
def to_uint32 (n : Nat) : Nat := n % 2 ^ 32

/-- Conversion of an integer to `int32_t` (two's complement wrap). -/
def to_int32 (i : Int) : Int := (i + 2 ^ 31) % 2 ^ 32 - 2 ^ 31

def ULONG_MAX (B : Build) : Nat := 2 ^ B.long_bits - 1
def LONG_MAX (B : Build) : Int := 2 ^ (B.long_bits - 1) - 1
def LONG_MIN (B : Build) : Int := -(2 ^ (B.long_bits - 1))
def ULLONG_MAX : Nat := 2 ^ 64 - 1

/-- The digit loop shared by the `strto*` family: consumes the leading run of decimal
digits, returns the accumulated value and the first unconsumed position. -/
def digit_run (acc : Nat) : List Char → Nat × List Char
  | [] => (acc, [])
  | c :: cs => if isdigit c then digit_run (acc * 10 + (c.toNat - 48)) cs else (acc, c :: cs)

/-- Outcome of a `strto*` call: the returned number, `*endptr`, and `errno`. -/
structure strto_result where
  value : Int
  endptr : List Char
  errno : Nat
deriving DecidableEq, Repr

/-- Subject sequence of the `strto*` family in base 10: optional white space, an
optional sign, then the digits. Returns `none` when there is no digit (no
conversion), else the sign, the magnitude and the end position. -/
def strto_scan (nptr : List Char) : Option (Bool × Nat × List Char) :=
  let s := nptr.dropWhile isspace
  let neg := peek s = '-'
  let s1 := if peek s = '-' ∨ peek s = '+' then s.drop 1 else s
  if isdigit (peek s1) then
    let r := digit_run 0 s1
    some (neg, r.1, r.2)
  else none

/-- ISO C `strtoul(nptr, &endptr, 10)`: the result of an unsigned `bits`-bit
conversion. A minus sign negates in the unsigned type; a magnitude above the
maximum gives the maximum and `ERANGE`; without digits the result is 0 and
`endptr = nptr`. -/
def strtou (bits : Nat) (einval : Bool) (nptr : List Char) : strto_result :=
  match strto_scan nptr with
  | none => ⟨0, nptr, if einval then EINVAL else 0⟩
  | some (neg, n, rest) =>
    if 2 ^ bits - 1 < n then ⟨((2 ^ bits - 1 : Nat) : Int), rest, ERANGE⟩
    else ⟨(((if neg then 2 ^ bits - n else n) % 2 ^ bits : Nat) : Int), rest, 0⟩

def strtoul (B : Build) (nptr : List Char) : strto_result :=
  strtou B.long_bits B.einval nptr

/-- `strtoull`: `unsigned long long` has 64 bits on every supported build. -/
def strtoull (B : Build) (nptr : List Char) : strto_result :=
  strtou 64 B.einval nptr

/-- ISO C `strtol(nptr, &endptr, 10)`: out-of-range values are clamped to
`LONG_MIN`/`LONG_MAX` with `ERANGE`. -/
def strtol (B : Build) (nptr : List Char) : strto_result :=
  match strto_scan nptr with
  | none => ⟨0, nptr, if B.einval then EINVAL else 0⟩
  | some (neg, n, rest) =>
    let x : Int := if neg then -(n : Int) else (n : Int)
    if LONG_MAX B < x then ⟨LONG_MAX B, rest, ERANGE⟩
    else if x < LONG_MIN B then ⟨LONG_MIN B, rest, ERANGE⟩
    else ⟨x, rest, 0⟩

/-! ## Data model (`snmp.h`, and the declarations `main.c` uses from `asn1.h` and
`bsnmptools.h`) -/

/-- Modelled from the spec: `asn_oid_t` of `asn1.h`, an ordered sequence of 32-bit
sub-identifiers; `len` is the length of the list. -/
abbrev asn_oid := List Nat

/-- Modelled from the spec: `ASN_MAXID` of `asn1.h`, the protocol maximum
sub-identifier value (sub-identifiers have 32 bits). -/
def ASN_MAXID : Nat := 0xffffffff

def SNMP_MAX_BINDINGS : Nat := 100

inductive snmp_syntax
  | SNMP_SYNTAX_NULL
  | SNMP_SYNTAX_INTEGER
  | SNMP_SYNTAX_OCTETSTRING
  | SNMP_SYNTAX_OID
  | SNMP_SYNTAX_IPADDRESS
  | SNMP_SYNTAX_COUNTER
  | SNMP_SYNTAX_GAUGE
  | SNMP_SYNTAX_TIMETICKS
  | SNMP_SYNTAX_COUNTER64
  | SNMP_SYNTAX_NOSUCHOBJECT
  | SNMP_SYNTAX_NOSUCHINSTANCE
  | SNMP_SYNTAX_ENDOFMIBVIEW
deriving DecidableEq, Repr

open snmp_syntax

/-- Numeric value of the enumerator. -/
def syntax_code : snmp_syntax → Nat
  | SNMP_SYNTAX_NULL => 0
  | SNMP_SYNTAX_INTEGER => 1
  | SNMP_SYNTAX_OCTETSTRING => 2
  | SNMP_SYNTAX_OID => 3
  | SNMP_SYNTAX_IPADDRESS => 4
  | SNMP_SYNTAX_COUNTER => 5
  | SNMP_SYNTAX_GAUGE => 6
  | SNMP_SYNTAX_TIMETICKS => 7
  | SNMP_SYNTAX_COUNTER64 => 8
  | SNMP_SYNTAX_NOSUCHOBJECT => 9
  | SNMP_SYNTAX_NOSUCHINSTANCE => 10
  | SNMP_SYNTAX_ENDOFMIBVIEW => 11

/-- The union `snmp_values`, one field per member. -/
structure snmp_values where
  integer : Int
  octetstring : List Nat
  oid : asn_oid
  ipaddress : List Nat
  uint32 : Nat
  counter64 : Nat
deriving DecidableEq, Repr

/-- The struct `snmp_value`: the variable's name, the tag and the payload. `main.c`
calls the name `oid`; the tag is the member `syntax` of the C struct. -/
structure snmp_value where
  oid : asn_oid
  syntax_ : snmp_syntax
  v : snmp_values
deriving DecidableEq, Repr

/-- The all-zero payload (`memset(.., 0, ..)`). -/
def zero_values : snmp_values := ⟨0, [], [], [0, 0, 0, 0], 0, 0⟩

/-- The all-zero value. -/
def zero_value : snmp_value := ⟨[], SNMP_SYNTAX_NULL, zero_values⟩

def SNMP_V1 : Nat := 1
def SNMP_V2c : Nat := 2
def SNMP_V3 : Nat := 3

def SNMP_PDU_GET : Nat := 0
def SNMP_PDU_GETNEXT : Nat := 1
def SNMP_PDU_RESPONSE : Nat := 2
def SNMP_PDU_SET : Nat := 3
def SNMP_PDU_GETBULK : Nat := 5

def SNMP_CODE_OK : Nat := 0

/-- The fields of `snmp_pdu_t` the drivers read or write: `bindings` holds the slots
of the array, `nbindings` the count. The community, the SNMPv3 header and the encoding
pointers are only touched by the library. -/
structure snmp_pdu where
  version : Nat
  pdu_type : Nat
  request_id : Int
  error_status : Int
  error_index : Int
  nbindings : Nat
  bindings : List snmp_value
deriving DecidableEq, Repr

/-- Value of `pdu->bindings[i]`; a slot never written holds zeroes. -/
def binding (pdu : snmp_pdu) (i : Nat) : snmp_value := pdu.bindings.getD i zero_value

/-- Modelled from the spec: the schema descriptor `struct snmp_oid2str` of
`bsnmptools.h` (access level, enumeration table and textual convention of an object;
§3 Pending Object). -/
structure snmp_oid2str where
  string : List Char
  access : Nat
  snmp_enum : List (List Char × Int)
  tc : Nat
deriving DecidableEq, Repr

/-- Modelled from the spec: `struct snmp_object` of `bsnmptools.h` (§3 Pending
Object): the error marker, the optional schema descriptor and the OID with its
value. -/
structure snmp_object where
  error : Int
  info : Option snmp_oid2str
  val : snmp_value
deriving DecidableEq, Repr

/-- Modelled from the spec: `asn_append_oid` of the ASN.1 library appends the
sub-identifiers of `src` to `dst`. -/
def asn_append_oid (dst src : asn_oid) : asn_oid := dst ++ src

/-- Modelled from the spec: `asn_is_suboid(o1, o2)` of the ASN.1 library, subtree
containment (§3): `o1` is a prefix of `o2`. -/
def asn_is_suboid (o1 o2 : asn_oid) : Bool := decide (o1 <+: o2)

/-- Modelled from the spec: `snmp_suboid_append` of `bsnmptools.c` appends one
sub-identifier and fails on an OID that already has the maximum length (§3:
OIDs are length-bounded). -/
def snmp_suboid_append (B : Build) (var : asn_oid) (suboid : Nat) : Int × asn_oid :=
  if B.ASN_MAXOIDLEN ≤ var.length then (-1, var) else (1, var ++ [suboid])

/-- Modelled from the spec: `enum_number_lookup` of `bsnmptools.c`, the enumeration
lookup (§6): the integer paired with the name in the table, a negative number when
the name is not found. -/
def enum_number_lookup (table : List (List Char × Int)) (name : List Char) : Int :=
  match table.find? (fun p => p.1 = name) with
  | some p => p.2
  | none => -1

/-- The collaborators of `main.c` that live outside it (§6): the textual-convention
octet-string codec, the PDU consistency check (first and second argument in call
order), the return code of the response printer, schema name resolution (return code
and updated object), the dotted sub-OID parser of the tools library (`none` is the NULL
result, else the unconsumed rest and the updated OID), its index parser (the
returned pointer, `none` for NULL, and the object as left behind) and its parser of a
whole dotted-numeric OID token (return code and the OID as left behind). -/
structure Collab where
  snmp_tc2oct : Nat → snmp_value → List Char → Int × snmp_value
  snmp_pdu_check : snmp_pdu → snmp_pdu → Nat
  snmp_output_resp : snmp_pdu → Int
  snmp_lookup_oidall : snmp_object → List Char → Int × snmp_object
  snmp_parse_suboid : List Char → asn_oid → Option (List Char × asn_oid)
  snmp_parse_index : List Char → snmp_object → Option (List Char) × snmp_object
  snmp_parse_numoid : List Char → asn_oid → Int × asn_oid

/-- Two more collaborators, used by the Set token parser only: the reader of a syntax
name at the head of a text, and the resolution of an enumerated OID name (return code
and updated object). -/
structure SetCollab where
  parse_syntax : List Char → snmp_syntax
  snmp_lookup_enumoid : snmp_object → List Char → Int × snmp_object

def SNMP_STRING : Nat := 0

/-! ## Value codec (`main.c`, bsnmpset private functions) -/

/-- The `do ... while (*endptr == '.')` loop of `parse_oid_numeric`; `fuel` bounds the
number of iterations (every iteration that continues consumes a dot). -/
def parse_oid_numeric_loop (B : Build) : Nat → snmp_value → List Char → Int × snmp_value
  | 0, value, _ => (-1, value)
  | fuel + 1, value, val =>
    let r := strtoul B val
    if r.errno ≠ 0 then (-1, value)
    else
      let suboid := to_uint32 r.value.toNat
      if ASN_MAXID < suboid then (-1, value)
      else
        let a := snmp_suboid_append B value.v.oid suboid
        if a.1 < 0 then (-1, value)
        else
          let value1 := { value with v := { value.v with oid := a.2 } }
          if peek r.endptr = '.' then parse_oid_numeric_loop B fuel value1 (r.endptr.drop 1)
          else (0, { value1 with syntax_ := SNMP_SYNTAX_OID })

def parse_oid_numeric (B : Build) (value : snmp_value) (val : List Char) : Int × snmp_value :=
  parse_oid_numeric_loop B (val.length + 1) value val

/-- The `for (i = 0; i < 4; i++)` loop of `parse_ip` from index `i` on, with the
statements after the loop; `n` counts the iterations left (`n = 4 - i`). -/
def parse_ip_loop (B : Build) : Nat → Nat → snmp_value → List Char → Int × snmp_value
  | 0, _, value, _ => (0, { value with syntax_ := SNMP_SYNTAX_IPADDRESS })
  | n + 1, i, value, str =>
    let r := strtoul B str
    let v := to_uint32 r.value.toNat
    if 0xff < v then (-1, value)
    else if peek r.endptr ≠ '.' ∧ peek r.endptr ≠ NUL ∧ i ≠ 3 then
      (0, { value with syntax_ := SNMP_SYNTAX_IPADDRESS })
    else
      parse_ip_loop B n (i + 1)
        { value with v := { value.v with ipaddress := value.v.ipaddress.set i (to_uint8 v) } }
        (r.endptr.drop 1)

def parse_ip (B : Build) (value : snmp_value) (val : List Char) : Int × snmp_value :=
  parse_ip_loop B 4 0 value val

def parse_int (B : Build) (value : snmp_value) (val : List Char) : Int × snmp_value :=
  let r := strtol B val
  let v := to_int32 r.value
  if r.errno ≠ 0 then (-1, value)
  else (0, { value with syntax_ := SNMP_SYNTAX_INTEGER, v := { value.v with integer := v } })

def parse_int_string (B : Build) (object : snmp_object) (val : List Char) : Int × snmp_object :=
  if isdigit (peek val) then
    let r := parse_int B object.val val
    (r.1, { object with val := r.2 })
  else
    match object.info with
    | none => (-1, object)
    | some info =>
      let v := enum_number_lookup info.snmp_enum val
      (1, { object with val := { object.val with v := { object.val.v with integer := v } } })

def parse_uint (B : Build) (value : snmp_value) (val : List Char) : Int × snmp_value :=
  let r := strtoul B val
  let v := to_uint32 r.value.toNat
  if r.errno ≠ 0 then (-1, value)
  else (0, { value with v := { value.v with uint32 := v } })

def parse_ticks (B : Build) (value : snmp_value) (val : List Char) : Int × snmp_value :=
  let r := parse_uint B value val
  if r.1 < 0 then (-1, r.2) else (0, { r.2 with syntax_ := SNMP_SYNTAX_TIMETICKS })

def parse_gauge (B : Build) (value : snmp_value) (val : List Char) : Int × snmp_value :=
  let r := parse_uint B value val
  if r.1 < 0 then (-1, r.2) else (0, { r.2 with syntax_ := SNMP_SYNTAX_GAUGE })

def parse_counter (B : Build) (value : snmp_value) (val : List Char) : Int × snmp_value :=
  let r := parse_uint B value val
  if r.1 < 0 then (-1, r.2) else (0, { r.2 with syntax_ := SNMP_SYNTAX_COUNTER })

def parse_uint64 (B : Build) (value : snmp_value) (val : List Char) : Int × snmp_value :=
  let r := strtoull B val
  let v := r.value.toNat % 2 ^ 64
  if r.errno ≠ 0 then (-1, value)
  else (0, { value with syntax_ := SNMP_SYNTAX_COUNTER64, v := { value.v with counter64 := v } })

def parse_syntax_val (B : Build) (C : Collab) (value : snmp_value) ( s : snmp_syntax)
    (val : List Char) : Int × snmp_value :=
  match s with
  | SNMP_SYNTAX_INTEGER => parse_int B value val
  | SNMP_SYNTAX_IPADDRESS => parse_ip B value val
  | SNMP_SYNTAX_COUNTER => parse_counter B value val
  | SNMP_SYNTAX_GAUGE => parse_gauge B value val
  | SNMP_SYNTAX_TIMETICKS => parse_ticks B value val
  | SNMP_SYNTAX_COUNTER64 => parse_uint64 B value val
  | SNMP_SYNTAX_OCTETSTRING => C.snmp_tc2oct SNMP_STRING value val
  | SNMP_SYNTAX_OID => parse_oid_numeric B value val
  | _ => (-1, value)

/-! ## Tool context, OID token parser and drivers -/

/-- Modelled from the spec: the part of `struct snmp_toolinfo` of `bsnmptools.h` that
`main.c` reads through `ISSET_NUMERIC`, `ISSET_ERRIGNORE`, `ISSET_RETRY`, `GET_OUTPUT`,
`GET_PDUTYPE`, `GET_MAXREP`, `GET_NONREP`, `client.version` and the object list
(§9: the configuration passed to every driver, and §3 Operation Queue). -/
structure snmp_toolinfo where
  numeric : Bool
  errignore : Bool
  retry : Bool
  output : Nat
  pdu_type : Nat
  maxrep : Nat
  nonrep : Nat
  version : Nat
  snmp_objectlist : List snmp_object
deriving DecidableEq, Repr

/-- Characters the scan of `snmptools_parse_stroid` accepts at position `i` of the
symbolic run. -/
def name_char (i : Nat) (c : Char) : Bool := isalpha c || c = '_' || (i != 0 && isdigit c)

/-- The `while` loop of `snmptools_parse_stroid`: the final value of `i`. -/
def name_run (i : Nat) : List Char → Nat
  | [] => i
  | c :: cs => if name_char i c then name_run (i + 1) cs else i

/-- Result of `strlcpy(string, argv, i + 1)`: the first `i` characters of the C
string `argv`. -/
def strlcpy (argv : List Char) (i : Nat) : List Char := (argv.takeWhile (· ≠ NUL)).take i

/-- The returned pointer (`none` for NULL) and the object as left behind. -/
def snmptools_parse_stroid (B : Build) (C : Collab) (ctx : snmp_toolinfo) (obj : snmp_object)
    (argv : List Char) : Option (List Char) × snmp_object :=
  let str := if peek argv = '.' then argv.drop 1 else argv
  let i := name_run 0 str
  if i ≤ 0 ∨ B.MAXSTR ≤ i then (none, obj)
  else
    match C.snmp_parse_suboid (argv.drop i) [] with
    | none => (none, obj)
    | some (str1, in_oid) =>
      let l := C.snmp_lookup_oidall obj (strlcpy argv i)
      if l.1 < 0 then (none, l.2)
      else if 0 < in_oid.length then
        (some str1, { l.2 with val := { l.2.val with oid := asn_append_oid l.2.val.oid in_oid } })
      else if peek str1 = '[' then
        C.snmp_parse_index (str1.drop 1) l.2
      else if 0 < syntax_code l.2.val.syntax_ ∧ ctx.pdu_type = SNMP_PDU_GET then
        let a := snmp_suboid_append B l.2.val.oid 0
        if a.1 < 0 then (none, l.2)
        else (some str1, { l.2 with val := { l.2.val with oid := a.2 } })
      else (some str1, l.2)

def snmpget_fix_getbulk (pdu : snmp_pdu) (max_rep non_rep : Nat) : snmp_pdu :=
  let pdu1 :=
    if pdu.nbindings < non_rep then { pdu with error_status := to_int32 pdu.nbindings }
    else { pdu with error_status := to_int32 non_rep }
  if 0 < max_rep then { pdu1 with error_index := to_int32 max_rep }
  else { pdu1 with error_index := 1 }

/-- Modelled from the spec: `snmp_pdu_create` of the client library clears the PDU
and sets the operation kind and the client's version (§3 PDU); all binding slots are
zero. -/
def snmp_pdu_create (ctx : snmp_toolinfo) (op : Nat) : snmp_pdu :=
  ⟨ctx.version, op, 0, 0, 0, 0, List.replicate SNMP_MAX_BINDINGS zero_value⟩

def snmpwalk_nextpdu_create (ctx : snmp_toolinfo) (op : Nat) (var : asn_oid) : snmp_pdu :=
  let pdu := snmp_pdu_create ctx op
  { pdu with
    bindings := pdu.bindings.set 0 { binding pdu 0 with oid := asn_append_oid (binding pdu 0).oid var }
    nbindings := 1 }

/-- What a driver hands to the presentation layer: a call of `snmp_output_resp` or of
`snmp_output_err_resp`, with the PDU passed. -/
inductive Emitted
  | resp (pdu : snmp_pdu)
  | err_resp (pdu : snmp_pdu)
deriving DecidableEq, Repr

/-- State of `snmptool_walk` when the GetNext loop of one root is left: the request
PDU, the counter `outputs`, everything emitted so far and the answers the agent has
not been asked for yet. -/
structure walk_state where
  req : snmp_pdu
  outputs : Int
  emitted : List Emitted
  agent : List (Int × snmp_pdu)
deriving DecidableEq, Repr

/-- The inner loop `while (snmp_dialog(..., &req, &resp) >= 0)` of `snmptool_walk` for
the remembered `root`. The agent is the list of the outcomes of the successive
`snmp_dialog` calls (return code and response PDU); when the list is used up the
dialog fails. -/
def snmptool_walk_loop (C : Collab) (ctx : snmp_toolinfo) (root : asn_oid) :
    List (Int × snmp_pdu) → snmp_pdu → Int → List Emitted → walk_state
  | [], req, outputs, out => ⟨req, outputs, out, []⟩
  | (rc, resp) :: rest, req, outputs, out =>
    if rc < 0 then ⟨req, outputs, out, rest⟩
    else if C.snmp_pdu_check resp req ≠ SNMP_CODE_OK then
      ⟨req, -1, out ++ [Emitted.err_resp resp], rest⟩
    else if ¬ asn_is_suboid root (binding resp 0).oid then ⟨req, outputs, out, rest⟩
    else if C.snmp_output_resp resp ≠ 0 then ⟨req, -1, out ++ [Emitted.resp resp], rest⟩
    else
      snmptool_walk_loop C ctx root rest
        (snmpwalk_nextpdu_create ctx SNMP_PDU_GETNEXT (binding resp 0).oid)
        (to_int32 (outputs + 1)) (out ++ [Emitted.resp resp])

/-- State of the GetNext loop of `snmptool_walk` run against an agent for a number of
iterations: whether the loop was left, the request PDU, the counter `outputs`,
everything emitted, the responses received in order, the number of calls of
`snmp_dialog` and the state of the agent. -/
structure walk_run (σ : Type) where
  left : Bool
  req : snmp_pdu
  outputs : Int
  emitted : List Emitted
  received : List snmp_pdu
  exchanges : Nat
  state : σ

/-- The inner loop `while (snmp_dialog(..., &req, &resp) >= 0)` of `snmptool_walk` for
the remembered `root`, run against an agent that answers every request it is sent, as
often as it is asked: `agent s req` is the outcome of `snmp_dialog` for the request
`req` (return code and response PDU) and the next state of the agent. The body is the
one of `snmptool_walk_loop`; the loop is run for at most the given number of
iterations, and `left` tells whether it was left within them. -/
def snmptool_walk_run {σ : Type} (C : Collab) (ctx : snmp_toolinfo)
    (root : asn_oid)
    (agent : σ → snmp_pdu → (Int × snmp_pdu) × σ) :
    Nat → σ → snmp_pdu → Int → List Emitted → List snmp_pdu → Nat → walk_run σ
  | 0, s, req, outputs, out, rcv, k => ⟨false, req, outputs, out, rcv, k, s⟩
  | fuel + 1, s, req, outputs, out, rcv, k =>
    if (agent s req).1.1 < 0 then ⟨true, req, outputs, out, rcv, k + 1, (agent s req).2⟩
    else if C.snmp_pdu_check (agent s req).1.2 req ≠ SNMP_CODE_OK then
      ⟨true, req, -1, out ++ [Emitted.err_resp (agent s req).1.2], rcv ++ [(agent s req).1.2],
        k + 1, (agent s req).2⟩
    else if ¬ asn_is_suboid root (binding (agent s req).1.2 0).oid then
      ⟨true, req, outputs, out, rcv ++ [(agent s req).1.2], k + 1, (agent s req).2⟩
    else if C.snmp_output_resp (agent s req).1.2 ≠ 0 then
      ⟨true, req, -1, out ++ [Emitted.resp (agent s req).1.2], rcv ++ [(agent s req).1.2],
        k + 1, (agent s req).2⟩
    else
      snmptool_walk_run C ctx root agent fuel (agent s req).2
        (snmpwalk_nextpdu_create ctx SNMP_PDU_GETNEXT (binding (agent s req).1.2 0).oid)
        (to_int32 (outputs + 1)) (out ++ [Emitted.resp (agent s req).1.2])
        (rcv ++ [(agent s req).1.2]) (k + 1)

/-- The agent that answers from a list of outcomes whatever the request; when the list
is used up the dialog fails. -/
def script_agent (s : List (Int × snmp_pdu)) (_req : snmp_pdu) :
    (Int × snmp_pdu) × List (Int × snmp_pdu) :=
  match s with
  | [] => ((-1, ⟨0, 0, 0, 0, 0, 0, []⟩), [])
  | p :: rest => (p, rest)

/-! ## OID token entry point, admission hooks and assembly -/

/-- The return code and the object as left behind; `argv` is `none` for a NULL
pointer. -/
def snmptools_parse_oid (B : Build) (C : Collab) (ctx : snmp_toolinfo) (obj : snmp_object)
    (argv : Option (List Char)) : Int × snmp_object :=
  match argv with
  | none => (-1, obj)
  | some str =>
    if ctx.numeric then
      let r := C.snmp_parse_numoid str obj.val.oid
      let obj1 := { obj with val := { obj.val with oid := r.2 } }
      if r.1 < 0 then (-1, obj1) else (1, obj1)
    else
      let p := snmptools_parse_stroid B C ctx obj str
      match p.1 with
      | some _ => (1, p.2)
      | none =>
        let r := C.snmp_parse_numoid str p.2.val.oid
        let obj1 := { p.2 with val := { p.2.val with oid := r.2 } }
        if r.1 < 0 then (-1, obj1) else (1, obj1)

/-- Store `v` in `bindings[i]`. The list is the memory from `bindings[0]` on: a write
behind the stored slots lands behind the array and lengthens the list. -/
def slot_write (slots : List snmp_value) (i : Nat) (v : snmp_value) : List snmp_value :=
  if i < slots.length then slots.set i v
  else slots ++ List.replicate (i - slots.length) zero_value ++ [v]

/-- The return code and the PDU as left behind. -/
def snmptool_add_vbind (pdu : snmp_pdu) (obj : snmp_object) : Int × snmp_pdu :=
  if 0 < obj.error then (0, pdu)
  else
    let slot := binding pdu pdu.nbindings
    let n := to_uint32 (pdu.nbindings + 1)
    (to_int32 n,
      { pdu with
        bindings := slot_write pdu.bindings pdu.nbindings
          { slot with oid := asn_append_oid slot.oid obj.val.oid }
        nbindings := n })

def snmpget_verify_vbind (_ctx : snmp_toolinfo) (pdu : snmp_pdu) (obj : snmp_object) : Int :=
  if pdu.version = SNMP_V1 ∧ obj.val.syntax_ = SNMP_SYNTAX_COUNTER64 then -1 else 1

def add_ip_syntax (dst src : snmp_value) : Int × snmp_value :=
  (1, { dst with
        syntax_ := SNMP_SYNTAX_IPADDRESS
        v := { dst.v with
          ipaddress := (((dst.v.ipaddress.set 0 (src.v.ipaddress.getD 0 0)).set 1
            (src.v.ipaddress.getD 1 0)).set 2 (src.v.ipaddress.getD 2 0)).set 3
            (src.v.ipaddress.getD 3 0) } })

/-- The octet string is the list of its bytes (`len` is its length); `malloc` is
taken to succeed. -/
def add_octstring_syntax (B : Build) (dst src : snmp_value) : Int × snmp_value :=
  if B.ASN_MAXOCTETSTRING < src.v.octetstring.length then (-1, dst)
  else (0, { dst with syntax_ := SNMP_SYNTAX_OCTETSTRING
                      v := { dst.v with octetstring := src.v.octetstring } })

def add_oid_syntax (dst src : snmp_value) : Int × snmp_value :=
  (0, { dst with syntax_ := SNMP_SYNTAX_OID
                 v := { dst.v with oid := asn_append_oid dst.v.oid src.v.oid } })

def snmpset_add_value (B : Build) (dst src : snmp_value) : Int × snmp_value :=
  match src.syntax_ with
  | SNMP_SYNTAX_INTEGER =>
    (0, { dst with syntax_ := SNMP_SYNTAX_INTEGER, v := { dst.v with integer := src.v.integer } })
  | SNMP_SYNTAX_TIMETICKS =>
    (0, { dst with syntax_ := SNMP_SYNTAX_TIMETICKS, v := { dst.v with uint32 := src.v.uint32 } })
  | SNMP_SYNTAX_GAUGE =>
    (0, { dst with syntax_ := SNMP_SYNTAX_GAUGE, v := { dst.v with uint32 := src.v.uint32 } })
  | SNMP_SYNTAX_COUNTER =>
    (0, { dst with syntax_ := SNMP_SYNTAX_COUNTER, v := { dst.v with uint32 := src.v.uint32 } })
  | SNMP_SYNTAX_COUNTER64 =>
    (0, { dst with syntax_ := SNMP_SYNTAX_COUNTER64
                   v := { dst.v with counter64 := src.v.counter64 } })
  | SNMP_SYNTAX_IPADDRESS => (0, ( add_ip_syntax dst src).2)
  | SNMP_SYNTAX_OCTETSTRING => (0, ( add_octstring_syntax B dst src).2)
  | SNMP_SYNTAX_OID => (0, ( add_oid_syntax dst src).2)
  | _ => (-1, dst)

/-- The return code; `none` when the descriptor is read through a NULL `obj->info`. -/
def snmpset_verify_vbind (B : Build) (ctx : snmp_toolinfo) (pdu : snmp_pdu) (obj : snmp_object) :
    Option Int :=
  if pdu.version = SNMP_V1 ∧ obj.val.syntax_ = SNMP_SYNTAX_COUNTER64 then some (-1)
  else if ctx.numeric ∨ ctx.errignore then some 1
  else
    match obj.info with
    | none => none
    | some info => if info.access < B.SNMP_ACCESS_SET then some (-1) else some 1

/-- The return code and the PDU as left behind. -/
def snmpset_add_vbind (B : Build) (pdu : snmp_pdu) (obj : snmp_object) : Int × snmp_pdu :=
  if SNMP_MAX_BINDINGS < pdu.nbindings then (-1, pdu)
  else if 0 < obj.error then (0, pdu)
  else
    let a := snmpset_add_value B (binding pdu pdu.nbindings) obj.val
    if a.1 < 0 then (-1, pdu)
    else
      let n := to_uint32 (pdu.nbindings + 1)
      (to_int32 n,
        { pdu with
          bindings := slot_write pdu.bindings pdu.nbindings
            { a.2 with oid := asn_append_oid a.2.oid obj.val.oid }
          nbindings := n })

/-- Modelled from the spec: the verdict of the optional validator of
`snmp_pdu_add_bindings` (§4.3) on one object. The validator is only run on an object
whose error marker is unset; `some true` is a veto, `none` a validator that did not
return. -/
def validator_verdict (ctx : snmp_toolinfo)
    (vfunc : Option (snmp_toolinfo → snmp_pdu → snmp_object → Option Int))
    (pdu : snmp_pdu) (obj : snmp_object) : Option Bool :=
  if obj.error ≠ 0 then some false
  else
    match vfunc with
    | none => some false
    | some f =>
      match f ctx pdu obj with
      | none => none
      | some r => some (decide (r < 0))

/-- Modelled from the spec: the iteration of `snmp_pdu_add_bindings` of `bsnmptools.c`
over the Operation Queue (§4.3) with `n` bindings placed so far: a veto or a negative
`admit` fails the whole assembly, a positive `admit` counts one binding, and the
iteration stops once `max` bindings are placed or the queue is exhausted. -/
def add_bindings_loop (ctx : snmp_toolinfo)
    (vfunc : Option (snmp_toolinfo → snmp_pdu → snmp_object → Option Int))
    (afunc : snmp_pdu → snmp_object → Int × snmp_pdu) (max : Int) :
    List snmp_object → snmp_pdu → Int → Option (Int × snmp_pdu)
  | [], pdu, n => some (n, pdu)
  | obj :: rest, pdu, n =>
    match validator_verdict ctx vfunc pdu obj with
    | none => none
    | some true => some (-1, pdu)
    | some false =>
      if (afunc pdu obj).1 < 0 then some (-1, (afunc pdu obj).2)
      else if 0 < (afunc pdu obj).1 then
        if max ≤ n + 1 then some (n + 1, (afunc pdu obj).2)
        else add_bindings_loop ctx vfunc afunc max rest (afunc pdu obj).2 (n + 1)
      else add_bindings_loop ctx vfunc afunc max rest (afunc pdu obj).2 n

/-- Modelled from the spec: `snmp_pdu_add_bindings` of `bsnmptools.c`, the Binding
Assembler (§4.3): the number of bindings placed (0 if nothing was eligible, negative on
a failure) and the PDU as left behind; `none` when a validator did not return. -/
def snmp_pdu_add_bindings (ctx : snmp_toolinfo)
    (vfunc : Option (snmp_toolinfo → snmp_pdu → snmp_object → Option Int))
    (afunc : snmp_pdu → snmp_object → Int × snmp_pdu) (pdu : snmp_pdu) (max : Int) :
    Option (Int × snmp_pdu) :=
  add_bindings_loop ctx vfunc afunc max ctx.snmp_objectlist pdu 0

/-- Modelled from the spec: the search of `snmp_object_seterror` (§4.7): the first
pending object with unset error marker whose OID equals `oid` gets the marker
`status`; `none` when no such object exists. -/
def seterror_list (oid : asn_oid) (status : Int) : List snmp_object → Option (List snmp_object)
  | [] => none
  | obj :: rest =>
    if obj.error = 0 ∧ obj.val.oid = oid then some ({ obj with error := status } :: rest)
    else (seterror_list oid status rest).map (fun l => obj :: l)

/-- Number of pending objects whose error marker is unset. -/
def unmarked_count (l : List snmp_object) : Nat := l.countP (fun o => decide (o.error = 0))

/-- Modelled from the spec: `snmp_object_seterror` of `bsnmptools.c`,
Retry-by-Elimination (§4.7): marks the pending object that matches the binding with
the reason code and returns the number of objects still unmarked, or a negative
result when no live object matches. -/
def snmp_object_seterror (ctx : snmp_toolinfo) (err_value : snmp_value) (error_status : Int) :
    Int × snmp_toolinfo :=
  match seterror_list err_value.oid error_status ctx.snmp_objectlist with
  | none => (-1, ctx)
  | some l => ((unmarked_count l : Nat), { ctx with snmp_objectlist := l })

/-- Modelled from the spec: `snmp_object_remove` of `bsnmptools.c` (§4.5 step 7):
removes the first pending object with the given OID from the queue; negative when
there is none. -/
def snmp_object_remove (ctx : snmp_toolinfo) (oid : asn_oid) : Int × snmp_toolinfo :=
  if ctx.snmp_objectlist.any (fun o => decide (o.val.oid = oid)) then
    (1, { ctx with
          snmp_objectlist := ctx.snmp_objectlist.eraseP (fun o => decide (o.val.oid = oid)) })
  else (-1, ctx)

/-- Value of `pdu->bindings[i]` for a signed index. C defines nothing for an index
outside the array; the model reads zeroes there. -/
def binding_at (pdu : snmp_pdu) (i : Int) : snmp_value :=
  if i < 0 then zero_value else binding pdu i.toNat

/-! ## The Get, Set and Walk drivers -/

/-- What a run of a driver has done: the context with the Operation Queue as left
behind, the request PDUs passed to `snmp_dialog` in order, everything handed to the
printers, the arguments of the calls of `snmp_object_seterror` (the binding and the
status), and the answers the agent has not been asked for. -/
structure run_state where
  ctx : snmp_toolinfo
  sent : List snmp_pdu
  emitted : List Emitted
  retried : List (snmp_value × Int)
  agent : List (Int × snmp_pdu)
deriving DecidableEq, Repr

/-- The validator `snmpget_verify_vbind` as the assembler takes it. -/
def get_validator (ctx : snmp_toolinfo) (pdu : snmp_pdu) (obj : snmp_object) : Option Int :=
  some (snmpget_verify_vbind ctx pdu obj)

/-- The assembly at the head of the `while` loop of `snmptool_get`. -/
def get_assemble (ctx : snmp_toolinfo) (req : snmp_pdu) : Option (Int × snmp_pdu) :=
  snmp_pdu_add_bindings ctx (some get_validator) snmptool_add_vbind req SNMP_MAX_BINDINGS

/-- The request as passed to `snmp_dialog` by `snmptool_get`: the assembled PDU, with
the GetBulk fields fixed when the configured PDU type is GetBulk. -/
def get_request (ctx : snmp_toolinfo) (pdu : snmp_pdu) : snmp_pdu :=
  if ctx.pdu_type = SNMP_PDU_GETBULK then snmpget_fix_getbulk pdu ctx.maxrep ctx.nonrep else pdu

/-- The `while` loop of `snmptool_get` from the state `st` with the request PDU `req`,
against the agent's remaining answers; `none` when the run does not come to an end
(a validator that did not return). -/
def snmptool_get_loop (C : Collab) :
    List (Int × snmp_pdu) → snmp_pdu → run_state → Option run_state
  | script, req, st =>
    match get_assemble st.ctx req with
    | none => none
    | some a =>
      if a.1 ≤ 0 then some { st with agent := script }
      else
        match script with
        | [] => some { st with sent := st.sent ++ [get_request st.ctx a.2], agent := [] }
        | (rc, resp) :: rest =>
          if rc = -1 then
            some { st with sent := st.sent ++ [get_request st.ctx a.2], agent := rest }
          else if C.snmp_pdu_check resp (get_request st.ctx a.2) = SNMP_CODE_OK then
            some { st with sent := st.sent ++ [get_request st.ctx a.2]
                           emitted := st.emitted ++ [Emitted.resp resp]
                           agent := rest }
          else if st.ctx.pdu_type = SNMP_PDU_GETBULK ∨ st.ctx.retry = false then
            some { st with sent := st.sent ++ [get_request st.ctx a.2]
                           emitted := st.emitted ++ [Emitted.err_resp resp]
                           agent := rest }
          else if (snmp_object_seterror st.ctx (binding_at resp (to_int32 (resp.error_index - 1)))
              resp.error_status).1 ≤ 0 then
            some { ctx := (snmp_object_seterror st.ctx
                      (binding_at resp (to_int32 (resp.error_index - 1))) resp.error_status).2
                   sent := st.sent ++ [get_request st.ctx a.2]
                   emitted := st.emitted ++ [Emitted.err_resp resp]
                   retried := st.retried ++
                     [(binding_at resp (to_int32 (resp.error_index - 1)), resp.error_status)]
                   agent := rest }
          else
            snmptool_get_loop C rest
              (snmp_pdu_create st.ctx st.ctx.pdu_type)
              { ctx := (snmp_object_seterror st.ctx
                    (binding_at resp (to_int32 (resp.error_index - 1))) resp.error_status).2
                sent := st.sent ++ [get_request st.ctx a.2]
                emitted := st.emitted ++ [Emitted.err_resp resp]
                retried := st.retried ++
                  [(binding_at resp (to_int32 (resp.error_index - 1)), resp.error_status)]
                agent := rest }

/-- The state in which a driver starts. -/
def start_state (ctx : snmp_toolinfo) (agent : List (Int × snmp_pdu)) : run_state :=
  ⟨ctx, [], [], [], agent⟩

/-- The returned status and what the run has done. -/
def snmptool_get (C : Collab) (ctx : snmp_toolinfo) (agent : List (Int × snmp_pdu)) :
    Option (Int × run_state) :=
  (snmptool_get_loop C agent (snmp_pdu_create ctx SNMP_PDU_GET) (start_state ctx agent)).map
    (fun st => ((0 : Int), st))

/-- The assembly at the head of the `while` loop of `snmptool_set`. -/
def set_assemble (B : Build) (ctx : snmp_toolinfo) (req : snmp_pdu) : Option (Int × snmp_pdu) :=
  snmp_pdu_add_bindings ctx (some (snmpset_verify_vbind B)) (snmpset_add_vbind B) req
    SNMP_MAX_BINDINGS

/-- The `while` loop of `snmptool_set`. -/
def snmptool_set_loop (B : Build) (C : Collab) :
    List (Int × snmp_pdu) → snmp_pdu → run_state → Option run_state
  | script, req, st =>
    match set_assemble B st.ctx req with
    | none => none
    | some a =>
      if a.1 ≤ 0 then some { st with agent := script }
      else
        match script with
        | [] => some { st with sent := st.sent ++ [a.2], agent := [] }
        | (rc, resp) :: rest =>
          if rc ≠ 0 then some { st with sent := st.sent ++ [a.2], agent := rest }
          else if C.snmp_pdu_check a.2 resp = SNMP_CODE_OK then
            some { st with sent := st.sent ++ [a.2]
                           emitted := if st.ctx.output ≠ B.OUTPUT_QUIET then
                               st.emitted ++ [Emitted.resp resp] else st.emitted
                           agent := rest }
          else if st.ctx.retry = false then
            some { st with sent := st.sent ++ [a.2]
                           emitted := st.emitted ++ [Emitted.err_resp resp]
                           agent := rest }
          else if (snmp_object_seterror st.ctx (binding_at resp (to_int32 (resp.error_index - 1)))
              resp.error_status).1 ≤ 0 then
            some { ctx := (snmp_object_seterror st.ctx
                      (binding_at resp (to_int32 (resp.error_index - 1))) resp.error_status).2
                   sent := st.sent ++ [a.2]
                   emitted := st.emitted ++ [Emitted.err_resp resp]
                   retried := st.retried ++
                     [(binding_at resp (to_int32 (resp.error_index - 1)), resp.error_status)]
                   agent := rest }
          else
            snmptool_set_loop B C rest
              (snmp_pdu_create st.ctx SNMP_PDU_SET)
              { ctx := (snmp_object_seterror st.ctx
                    (binding_at resp (to_int32 (resp.error_index - 1))) resp.error_status).2
                sent := st.sent ++ [a.2]
                emitted := st.emitted ++ [Emitted.err_resp resp]
                retried := st.retried ++
                  [(binding_at resp (to_int32 (resp.error_index - 1)), resp.error_status)]
                agent := rest }

/-- The returned status and what the run has done. -/
def snmptool_set (B : Build) (C : Collab) (ctx : snmp_toolinfo) (agent : List (Int × snmp_pdu)) :
    Option (Int × run_state) :=
  (snmptool_set_loop B C agent (snmp_pdu_create ctx SNMP_PDU_SET) (start_state ctx agent)).map
    (fun st => ((0 : Int), st))

/-- The fallback of `snmptool_walk` for a root whose GetNext loop ended with
`outputs == 0`: one plain Get on the root. -/
def walk_fallback (C : Collab) (st : run_state) (root : asn_oid) : run_state :=
  match st.agent with
  | [] => { st with sent := st.sent ++ [snmpwalk_nextpdu_create st.ctx SNMP_PDU_GET root] }
  | (rc, resp) :: rest =>
    if rc = SNMP_CODE_OK then
      if C.snmp_pdu_check resp (snmpwalk_nextpdu_create st.ctx SNMP_PDU_GET root) = SNMP_CODE_OK
      then
        { st with sent := st.sent ++ [snmpwalk_nextpdu_create st.ctx SNMP_PDU_GET root]
                  emitted := st.emitted ++ [Emitted.err_resp resp]
                  agent := rest }
      else
        { st with sent := st.sent ++ [snmpwalk_nextpdu_create st.ctx SNMP_PDU_GET root]
                  emitted := st.emitted ++ [Emitted.resp resp]
                  agent := rest }
    else
      { st with sent := st.sent ++ [snmpwalk_nextpdu_create st.ctx SNMP_PDU_GET root]
                agent := rest }

/-- The outer `while` loop of `snmptool_walk` with the statements after it: the
returned status and what the run has done. Every round removes its root from the
queue, so `fuel` above the length of the queue is never used up; `none` stands for a
run that does not come to an end. Only the emissions of the GetNext loop are kept from
it (the requests it sends are not recorded). -/
def snmptool_walk_rounds (C : Collab) : Nat → snmp_pdu → run_state → Option (Int × run_state)
  | 0, _, _ => none
  | fuel + 1, req, st =>
    match snmp_pdu_add_bindings st.ctx none snmptool_add_vbind req 1 with
    | none => none
    | some a =>
      if a.1 ≤ 0 then some (if a.1 = 0 then 0 else 1, st)
      else
        let root := asn_append_oid [] (binding a.2 0).oid
        let w := snmptool_walk_loop C st.ctx root st.agent a.2 0 st.emitted
        let st1 := { st with emitted := w.emitted, agent := w.agent }
        let st2 := if w.outputs = 0 then walk_fallback C st1 root else st1
        if (snmp_object_remove st2.ctx root).1 < 0 then some (1, st2)
        else
          snmptool_walk_rounds C fuel (snmp_pdu_create st2.ctx SNMP_PDU_GETNEXT)
            { st2 with ctx := (snmp_object_remove st2.ctx root).2 }

def snmptool_walk (C : Collab) (ctx : snmp_toolinfo) (agent : List (Int × snmp_pdu)) :
    Option (Int × run_state) :=
  snmptool_walk_rounds C (ctx.snmp_objectlist.length + 1)
    (snmp_pdu_create ctx SNMP_PDU_GETNEXT) (start_state ctx agent)

/-- The arguments `snmptool_get` and `snmptool_set` pass to `snmp_object_seterror`
after the error response `resp`: the binding `resp.bindings[resp.error_index - 1]` and
`resp.error_status`. -/
def seterror_args (resp : snmp_pdu) : snmp_value × Int :=
  (binding_at resp (to_int32 (resp.error_index - 1)), resp.error_status)

/-! ## Set token parser (`main.c`, bsnmpset private functions) -/

/-- The scan `for (cnt = 0; cnt < limit; cnt++) if (ptr[cnt] == c) break;`: the final
value of `cnt`. -/
def scan_for (c : Char) : Nat → List Char → Nat
  | 0, _ => 0
  | limit + 1, ptr => if peek ptr = c then 0 else scan_for c limit (ptr.drop 1) + 1

/-- The return code and the value as left behind. -/
def parse_pair_numoid_val (B : Build) (L : Limits) (C : Collab) (S : SetCollab)
    (str : List Char) (snmp_val : snmp_value) : Int × snmp_value :=
  let cnt := scan_for '=' L.ASN_OIDSTRLEN str
  if L.ASN_OIDSTRLEN ≤ cnt then (-1, snmp_val)
  else
    let oid_str := strlcpy str cnt
    let ptr := str.drop (cnt + 1)
    let cnt1 := scan_for ':' L.MAX_CMD_SYNTAX_LEN ptr
    if L.MAX_CMD_SYNTAX_LEN ≤ cnt1 then (-1, snmp_val)
    else if syntax_code ( S.parse_syntax ptr) ≤ syntax_code SNMP_SYNTAX_NULL then (-1, snmp_val)
    else
      let ptr1 := ptr.drop (cnt1 + 1)
      let cnt2 := scan_for NUL L.MAX_OCTSTRING_LEN ptr1
      if peek (ptr1.drop cnt2) ≠ NUL then (-1, snmp_val)
      else
        let r := C.snmp_parse_numoid oid_str snmp_val.oid
        if r.1 < 0 then (-1, { snmp_val with oid := r.2 })
        else
          let p := parse_syntax_val B C { snmp_val with oid := r.2 } ( S.parse_syntax ptr) ptr1
          if p.1 < 0 then (-1, p.2) else (1, p.2)

/-- The return code and the value as left behind. -/
def parse_oid_string (B : Build) (S : SetCollab) (value : snmp_value) (string : List Char) :
    Int × snmp_value :=
  if isdigit (peek string) then parse_oid_numeric B value string
  else
    let l := S.snmp_lookup_enumoid ⟨0, none, zero_value⟩ string
    if l.1 < 0 then (-1, value)
    else (1, { value with v := { value.v with oid := asn_append_oid value.v.oid l.2.val.oid } })

/-- The loop `for (len = 0; *(str + len) != ':'; len++)` of `parse_syntax_strval`:
the index of the first colon, `none` when the string ends first. -/
def colon_index : List Char → Option Nat
  | [] => none
  | c :: cs =>
    if c = ':' then some 0 else if c = NUL then none else (colon_index cs).map (· + 1)

/-- The switch of `parse_syntax_strval` on the syntax of the object, with the value
text `val`; `none` when the descriptor is read through a NULL `object->info`. -/
def parse_strval_switch (B : Build) (C : Collab) (S : SetCollab) (object : snmp_object)
    (val : List Char) : Option (Int × snmp_object) :=
  match object.val.syntax_ with
  | SNMP_SYNTAX_INTEGER => some (parse_int_string B object val)
  | SNMP_SYNTAX_IPADDRESS =>
    some ((parse_ip B object.val val).1, { object with val := (parse_ip B object.val val).2 })
  | SNMP_SYNTAX_COUNTER =>
    some ((parse_counter B object.val val).1,
      { object with val := (parse_counter B object.val val).2 })
  | SNMP_SYNTAX_GAUGE =>
    some ((parse_gauge B object.val val).1, { object with val := (parse_gauge B object.val val).2 })
  | SNMP_SYNTAX_TIMETICKS =>
    some ((parse_ticks B object.val val).1, { object with val := (parse_ticks B object.val val).2 })
  | SNMP_SYNTAX_COUNTER64 =>
    some ((parse_uint64 B object.val val).1,
      { object with val := (parse_uint64 B object.val val).2 })
  | SNMP_SYNTAX_OCTETSTRING =>
    match object.info with
    | none => none
    | some info =>
      some ((C.snmp_tc2oct info.tc object.val val).1,
        { object with val := (C.snmp_tc2oct info.tc object.val val).2 })
  | SNMP_SYNTAX_OID =>
    some ((parse_oid_string B S object.val val).1,
      { object with val := (parse_oid_string B S object.val val).2 })
  | _ => some (-1, object)

/-- The return code and the object as left behind; `none` when the descriptor is read
through a NULL `object->info`. -/
def parse_syntax_strval (B : Build) (L : Limits) (C : Collab) (S : SetCollab)
    (ctx : snmp_toolinfo) (str : List Char) (object : snmp_object) :
    Option (Int × snmp_object) :=
  if ctx.output = L.OUTPUT_VERBOSE then
    match colon_index str with
    | none => some (-1, object)
    | some len =>
      if syntax_code ( S.parse_syntax str) ≤ syntax_code SNMP_SYNTAX_NULL then some (-1, object)
      else if S.parse_syntax str ≠ object.val.syntax_ then
        if ctx.errignore = false then some (-1, object)
        else
          parse_strval_switch B C S
            { object with val := { object.val with syntax_ := S.parse_syntax str } }
            (str.drop (len + 1))
      else parse_strval_switch B C S object (str.drop (len + 1))
  else parse_strval_switch B C S object str

/-- The return code and the object as left behind. -/
def parse_pair_stroid_val (B : Build) (L : Limits) (C : Collab) (S : SetCollab)
    (ctx : snmp_toolinfo) (obj : snmp_object) (argv : List Char) : Option (Int × snmp_object) :=
  match snmptools_parse_stroid B C ctx obj argv with
  | (none, obj1) => some (-1, obj1)
  | (some ptr, obj1) =>
    if peek ptr ≠ '=' then some (-1, obj1)
    else
      match parse_syntax_strval B L C S ctx (ptr.drop 1) obj1 with
      | none => none
      | some r => if r.1 < 0 then some (-1, r.2) else some (1, r.2)

/-- The return code and the object as left behind; `argv` is `none` for a NULL
pointer. -/
def snmpset_parse_oid (B : Build) (L : Limits) (C : Collab) (S : SetCollab)
    (ctx : snmp_toolinfo) (obj : snmp_object) (argv : Option (List Char)) :
    Option (Int × snmp_object) :=
  match argv with
  | none => some (-1, obj)
  | some str =>
    if ctx.numeric then
      let r := parse_pair_numoid_val B L C S str obj.val
      if r.1 < 0 then some (-1, { obj with val := r.2 }) else some (1, { obj with val := r.2 })
    else
      match parse_pair_stroid_val B L C S ctx obj str with
      | none => none
      | some r => if r.1 < 0 then some (-1, r.2) else some (1, r.2)

/-! ## The default walk root and `main` -/

def snmp_mibII_OID : asn_oid := [1, 3, 6, 1, 2, 1]

/-- The return code and the object as left behind. -/
def snmpwalk_add_default (_ctx : snmp_toolinfo) (obj : snmp_object)
    (_string : Option (List Char)) : Int × snmp_object :=
  (1, { obj with val := { obj.val with oid := asn_append_oid obj.val.oid snmp_mibII_OID } })

/-- Modelled from the spec: `snmp_object_add` of `bsnmptools.c` (§3 Pending Object,
Operation Queue): a new, zeroed pending object is filled in by the parse function from
the token and, when that succeeds, put at the head of the queue; a failing parse
function leaves the queue as it is. The return code and the context as left behind;
`none` when the parse function did not return. -/
def snmp_object_add (ctx : snmp_toolinfo)
    (func : snmp_toolinfo → snmp_object → Option (List Char) → Option (Int × snmp_object))
    (string : Option (List Char)) : Option (Int × snmp_toolinfo) :=
  match func ctx ⟨0, none, zero_value⟩ string with
  | none => none
  | some r =>
    if r.1 < 0 then some (-1, ctx)
    else some (1, { ctx with snmp_objectlist := r.2 :: ctx.snmp_objectlist })

/-- The three tools of `main.c`. -/
inductive program_e
  | BSNMPGET
  | BSNMPWALK
  | BSNMPSET
deriving DecidableEq, Repr

/-- What a run of `main` has done when it calls `exit`: the exit status, the OID
tokens handed to the parse function so far (in the order of the calls), whether
`snmp_open` was called, and the run of the driver if it was started. -/
structure main_result where
  status : Int
  parsed : List (List Char)
  opened : Bool
  run : Option run_state
deriving DecidableEq, Repr

/-- The parse function `main` passes to `snmp_object_add` for the tokens of the
command line. -/
def main_parse_func (B : Build) (L : Limits) (C : Collab) (S : SetCollab) (program : program_e) :
    snmp_toolinfo → snmp_object → Option (List Char) → Option (Int × snmp_object) :=
  if program = program_e.BSNMPSET then snmpset_parse_oid B L C S
  else fun ctx obj argv => some (snmptools_parse_oid B C ctx obj argv)

/-- The loop `for (last_oid = argc - 1; oid_cnt > 0; last_oid--, oid_cnt--)` of `main`
over the tokens still to parse (last token of the command line first): the return code
of the failing `snmp_object_add` (or 1), the context and the tokens handed over. -/
def main_parse_tokens (B : Build) (L : Limits) (C : Collab) (S : SetCollab) (program : program_e) :
    List (List Char) → snmp_toolinfo → List (List Char) →
      Option (Int × snmp_toolinfo × List (List Char))
  | [], ctx, parsed => some (1, ctx, parsed)
  | tok :: rest, ctx, parsed =>
    match snmp_object_add ctx (main_parse_func B L C S program) (some tok) with
    | none => none
    | some r =>
      if r.1 < 0 then some (-1, r.2, parsed ++ [tok])
      else main_parse_tokens B L C S program rest r.2 (parsed ++ [tok])

/-- The seeding of the queue by `main` when the command line has no OID token
(`oid_cnt == 0`): the return code (negative where `main` exits) and the context. -/
def main_seed (program : program_e) (ctx : snmp_toolinfo) (oid_cnt : Nat) :
    Option (Int × snmp_toolinfo) :=
  if oid_cnt = 0 then
    match program with
    | program_e.BSNMPGET => some (-1, ctx)
    | program_e.BSNMPWALK =>
      snmp_object_add ctx (fun c o s => some (snmpwalk_add_default c o s)) none
    | program_e.BSNMPSET => some (-1, ctx)
  else some (1, ctx)

/-- The driver `main` runs for the program. -/
def main_driver (B : Build) (C : Collab) (program : program_e) (ctx : snmp_toolinfo)
    (agent : List (Int × snmp_pdu)) : Option (Int × run_state) :=
  match program with
  | program_e.BSNMPGET => snmptool_get C ctx agent
  | program_e.BSNMPWALK => snmptool_walk C ctx agent
  | program_e.BSNMPSET => snmptool_set B C ctx agent

/-- The end of `main`, once the tokens `parsed` are in the queue of `ctx`: the session
is opened, the engine discovered under version 3, the driver run and its status
passed to `exit`. -/
def main_session (B : Build) (C : Collab) (program : program_e) (ctx : snmp_toolinfo)
    (parsed : List (List Char)) (open_rc discover_rc : Int) (agent : List (Int × snmp_pdu)) :
    Option main_result :=
  if open_rc ≠ 0 then some ⟨1, parsed, true, none⟩
  else if ctx.version = SNMP_V3 ∧ discover_rc ≠ 0 then some ⟨1, parsed, true, none⟩
  else
    match main_driver B C program ctx agent with
    | none => none
    | some r => some ⟨r.1, parsed, true, some r.2⟩

/-- The function `main` from the point where `snmptool_parse_options` has returned
without error: `ctx` is the context the options have configured, `read_community` and
`sec_name` are the strings of the client structure the sanity checks look at, `tokens`
are the OID arguments in command-line order, `open_rc` and `discover_rc` are what
`snmp_open` and `snmp_discover_engine` return, and `agent` is the agent the driver
talks to. The import of the schema files (`snmp_import_all`) shows in the name
resolution of the collaborators only. `none` stands for a run that does not come to
an end. -/
def main (B : Build) (L : Limits) (C : Collab) (S : SetCollab) (program : program_e)
    (ctx : snmp_toolinfo) (read_community sec_name : List Char) (tokens : List (List Char))
    (open_rc discover_rc : Int) (agent : List (Int × snmp_pdu)) : Option main_result :=
  match main_seed program ctx tokens.length with
  | none => none
  | some seeded =>
    if seeded.1 < 0 then some ⟨1, [], false, none⟩
    else if seeded.2.version ≠ SNMP_V3 ∧ peek read_community = NUL then
      some ⟨1, [], false, none⟩
    else if seeded.2.version = SNMP_V3 ∧ peek sec_name = NUL then some ⟨1, [], false, none⟩
    else if program = program_e.BSNMPGET ∧ seeded.2.version = SNMP_V1 ∧
        seeded.2.pdu_type = SNMP_PDU_GETBULK then some ⟨1, [], false, none⟩
    else
      match main_parse_tokens B L C S program tokens.reverse seeded.2 [] with
      | none => none
      | some p =>
        if p.1 < 0 then some ⟨1, p.2.2, false, none⟩
        else main_session B C program p.2.1 p.2.2 open_rc discover_rc agent

/-! ## Canonical text of values -/

/-- Canonical decimal text of a natural number. -/
def decimal (n : Nat) : List Char := Nat.toDigits 10 n

/-- Canonical text of a signed integer: a minus sign and the magnitude when negative. -/
def int_text (i : Int) : List Char :=
  if i < 0 then '-' :: decimal i.natAbs else decimal i.toNat

/-- Canonical text of an IPv4 address: the dotted quad. -/
def ip_text (a b c d : Nat) : List Char :=
  decimal a ++ '.' :: (decimal b ++ '.' :: (decimal c ++ '.' :: decimal d))

/-- Canonical text of an OID: the sub-identifiers in decimal, separated by dots. -/
def oid_text : List Nat → List Char
  | [] => []
  | [a] => decimal a
  | a :: b :: rest => decimal a ++ '.' :: oid_text (b :: rest)

/-- A typed value of one of the syntaxes the value codec parses itself (§3 Typed
Value; OctetString goes to the external codec, the exception markers have no text). -/
inductive typed_value
  | integer (i : Int)
  | ipaddress (a b c d : Nat)
  | counter (n : Nat)
  | gauge (n : Nat)
  | timeticks (n : Nat)
  | counter64 (n : Nat)
  | oid (subs : asn_oid)
deriving DecidableEq, Repr

/-- The syntax tag of a typed value. -/
def typed_value.tag : typed_value → snmp_syntax
  | .integer _ => SNMP_SYNTAX_INTEGER
  | .ipaddress _ _ _ _ => SNMP_SYNTAX_IPADDRESS
  | .counter _ => SNMP_SYNTAX_COUNTER
  | .gauge _ => SNMP_SYNTAX_GAUGE
  | .timeticks _ => SNMP_SYNTAX_TIMETICKS
  | .counter64 _ => SNMP_SYNTAX_COUNTER64
  | .oid _ => SNMP_SYNTAX_OID

/-- The payload fits its shape (§3): signed 32-bit integer, four octets, unsigned
32-bit, unsigned 64-bit, a non-empty length-bounded OID of 32-bit sub-identifiers. -/
def typed_value.fits (B : Build) : typed_value → Prop
  | .integer i => -(2 : Int) ^ 31 ≤ i ∧ i < 2 ^ 31
  | .ipaddress a b c d => a ≤ 255 ∧ b ≤ 255 ∧ c ≤ 255 ∧ d ≤ 255
  | .counter n => n < 2 ^ 32
  | .gauge n => n < 2 ^ 32
  | .timeticks n => n < 2 ^ 32
  | .counter64 n => n < 2 ^ 64
  | .oid subs => subs ≠ [] ∧ (∀ x ∈ subs, x < 2 ^ 32) ∧ subs.length ≤ B.ASN_MAXOIDLEN

/-- The canonical text of a typed value: signed or unsigned decimal, dotted quad,
dotted sub-identifiers. -/
def typed_value.text : typed_value → List Char
  | .integer i => int_text i
  | .ipaddress a b c d => ip_text a b c d
  | .counter n => decimal n
  | .gauge n => decimal n
  | .timeticks n => decimal n
  | .counter64 n => decimal n
  | .oid subs => oid_text subs

/-- The `snmp_value` that holds a typed value: the tag and the payload in the member
the tag selects, everything else zero. -/
def typed_value.stored : typed_value → snmp_value
  | .integer i =>
    { zero_value with syntax_ := SNMP_SYNTAX_INTEGER, v := { zero_values with integer := i } }
  | .ipaddress a b c d =>
    { zero_value with syntax_ := SNMP_SYNTAX_IPADDRESS,
                      v := { zero_values with ipaddress := [a, b, c, d] } }
  | .counter n =>
    { zero_value with syntax_ := SNMP_SYNTAX_COUNTER, v := { zero_values with uint32 := n } }
  | .gauge n =>
    { zero_value with syntax_ := SNMP_SYNTAX_GAUGE, v := { zero_values with uint32 := n } }
  | .timeticks n =>
    { zero_value with syntax_ := SNMP_SYNTAX_TIMETICKS, v := { zero_values with uint32 := n } }
  | .counter64 n =>
    { zero_value with syntax_ := SNMP_SYNTAX_COUNTER64,
                      v := { zero_values with counter64 := n } }
  | .oid subs =>
    { zero_value with syntax_ := SNMP_SYNTAX_OID, v := { zero_values with oid := subs } }

/-! ## Walk: responses and their requests -/

/-- OID of the first binding of a PDU, `bindings[0].oid`. -/
def first_oid (pdu : snmp_pdu) : asn_oid := (binding pdu 0).oid

/-- The agent that answers every dialog with return code 0 and the next response of
the list. -/
def answers (rs : List snmp_pdu) : List (Int × snmp_pdu) := rs.map (fun r => ((0 : Int), r))

/-- Every response of the list passes the consistency check as the walk loop calls it,
`snmp_pdu_check(&resp, &req)`, against the request it answers: the first answers
`req`, each later one the GetNext request built from its predecessor. -/
def walk_clean (C : Collab) (ctx : snmp_toolinfo) : snmp_pdu → List snmp_pdu → Bool
  | _, [] => true
  | req, r :: rs =>
    decide (C.snmp_pdu_check r req = SNMP_CODE_OK) &&
      walk_clean C ctx (snmpwalk_nextpdu_create ctx SNMP_PDU_GETNEXT (first_oid r)) rs

/-- The response has the root as a prefix of its first-binding OID. -/
def in_subtree (root : asn_oid) (r : snmp_pdu) : Bool := asn_is_suboid root (first_oid r)

/-- Lexicographic order on OIDs: `a` comes strictly before `b`. -/
def oid_lt : asn_oid → asn_oid → Bool
  | _, [] => false
  | [], _ :: _ => true
  | a :: as, b :: bs => decide (a < b) || (decide (a = b) && oid_lt as bs)

/-- The first-binding OIDs of successive responses are strictly increasing. -/
def increasing : List snmp_pdu → Bool
  | [] => true
  | [_] => true
  | r :: s :: rest => oid_lt (first_oid r) (first_oid s) && increasing (s :: rest)

/-- The eight syntaxes that carry a payload (all but NULL and the three exception
markers). -/
def carries_payload (s : snmp_syntax) : Bool :=
  match s with
  | SNMP_SYNTAX_INTEGER => true
  | SNMP_SYNTAX_OCTETSTRING => true
  | SNMP_SYNTAX_OID => true
  | SNMP_SYNTAX_IPADDRESS => true
  | SNMP_SYNTAX_COUNTER => true
  | SNMP_SYNTAX_GAUGE => true
  | SNMP_SYNTAX_TIMETICKS => true
  | SNMP_SYNTAX_COUNTER64 => true
  | _ => false

/-- The payload the syntax tag selects: the member of the union that belongs to the
tag, every other member zero. -/
def payload_of (s : snmp_syntax) (v : snmp_values) : snmp_values :=
  match s with
  | SNMP_SYNTAX_INTEGER => { zero_values with integer := v.integer }
  | SNMP_SYNTAX_OCTETSTRING => { zero_values with octetstring := v.octetstring }
  | SNMP_SYNTAX_OID => { zero_values with oid := v.oid }
  | SNMP_SYNTAX_IPADDRESS => { zero_values with ipaddress := v.ipaddress }
  | SNMP_SYNTAX_COUNTER => { zero_values with uint32 := v.uint32 }
  | SNMP_SYNTAX_GAUGE => { zero_values with uint32 := v.uint32 }
  | SNMP_SYNTAX_TIMETICKS => { zero_values with uint32 := v.uint32 }
  | SNMP_SYNTAX_COUNTER64 => { zero_values with counter64 := v.counter64 }
  | _ => zero_values

/-- Number of pending objects the admission hooks `snmptool_add_vbind` and
`snmpset_add_vbind` still place into a PDU: those whose error marker is not above 0. -/
def admitted_count (l : List snmp_object) : Nat := l.countP (fun o => decide (¬ 0 < o.error))

/-- The end of one round of the outer loop of `snmptool_walk`, from the state `st` in
which the GetNext loop and the fallback have left the run: the root is removed from
the queue and the next round is started. -/
def walk_round_end (C : Collab) (fuel : Nat) (root : asn_oid) (st : run_state) :
    Option (Int × run_state) :=
  if (snmp_object_remove st.ctx root).1 < 0 then some (1, st)
  else
    snmptool_walk_rounds C fuel (snmp_pdu_create st.ctx SNMP_PDU_GETNEXT)
      { st with ctx := (snmp_object_remove st.ctx root).2 }

/-- The OID is one the protocol can carry: at most `ASN_MAXOIDLEN` sub-identifiers,
each of 32 bits. -/
def oid_bounded (B : Build) (o : asn_oid) : Bool :=
  decide (o.length ≤ B.ASN_MAXOIDLEN) && o.all (fun x => decide (x ≤ ASN_MAXID))

/-- Position of an OID among the OIDs of at most `n` sub-identifiers in
lexicographic order: the number with the digits `sub-identifier + 1` in base
`ASN_MAXID + 2`, filled up with zero digits. -/
def oid_rank : Nat → asn_oid → Nat
  | 0, _ => 0
  | _ + 1, [] => 0
  | n + 1, x :: xs => (x + 1) * (ASN_MAXID + 2) ^ n + oid_rank n xs

/-- The text is a symbolic name as the scan of `snmptools_parse_stroid` reads one
(§4.2 step 2): a letter or underscore, then letters, digits and underscores. -/
def symbolic_name : List Char → Bool
  | [] => false
  | c :: cs => name_char 0 c && cs.all (name_char 1)

/-! ## Concrete collaborators and inputs for evaluation -/

/-- A sub-OID parser in the manner of the tools library, for evaluating the token
parser at concrete inputs: an optional leading dot, then dot-separated decimal
sub-identifiers appended to the OID; returns the first unconsumed position. -/
def dotted_suboid_loop (B : Build) : Nat → List Char → asn_oid → Option (List Char × asn_oid)
  | 0, _, _ => none
  | fuel + 1, str, oid =>
    let r := strtoul B str
    let a := snmp_suboid_append B oid (to_uint32 r.value.toNat)
    if a.1 < 0 then none
    else if peek r.endptr = '.' then dotted_suboid_loop B fuel (r.endptr.drop 1) a.2
    else some (r.endptr, a.2)

/-- Entry of the sub-OID parser used for evaluation. -/
def dotted_suboid (B : Build) (str : List Char) (oid : asn_oid) : Option (List Char × asn_oid) :=
  let str1 := if peek str = '.' then str.drop 1 else str
  if isdigit (peek str1) then dotted_suboid_loop B (str1.length + 1) str1 oid
  else some (str1, oid)

/-- The descriptor of `sysDescr` used for evaluation. -/
def sysDescr_info : snmp_oid2str := ⟨"sysDescr".toList, 1, [], 0⟩

/-- A schema that knows the single name `sysDescr` (1.3.6.1.2.1.1.1), for
evaluation. -/
def sysDescr_lookup (obj : snmp_object) (name : List Char) : Int × snmp_object :=
  if name = "sysDescr".toList then
    (1, { obj with
            info := some sysDescr_info
            val := { obj.val with oid := asn_append_oid obj.val.oid [1, 3, 6, 1, 2, 1, 1, 1]
                                  syntax_ := SNMP_SYNTAX_OCTETSTRING } })
  else (-1, obj)

/-- Collaborators for evaluation: every response passes the check, the printer
returns `out_rc`, the schema knows `sysDescr`, numeric OID tokens are read like OID
values. -/
def eval_collab (B : Build) (out_rc : Int) : Collab where
  snmp_tc2oct := fun _ value _ => (-1, value)
  snmp_pdu_check := fun _ _ => SNMP_CODE_OK
  snmp_output_resp := fun _ => out_rc
  snmp_lookup_oidall := sysDescr_lookup
  snmp_parse_suboid := dotted_suboid B
  snmp_parse_index := fun _ obj => (none, obj)
  snmp_parse_numoid := fun str oid =>
    ((parse_oid_numeric B { zero_value with v := { zero_values with oid := oid } } str).1,
      (parse_oid_numeric B { zero_value with v := { zero_values with oid := oid } } str).2.v.oid)

/-- A version 2 context with the given PDU type and no options set. -/
def eval_ctx (pdu_type : Nat) : snmp_toolinfo := ⟨false, false, false, 0, pdu_type, 1, 0, SNMP_V2c, []⟩

/-- A response PDU with one binding of the given name. -/
def response_of (oid : asn_oid) : snmp_pdu :=
  ⟨SNMP_V2c, SNMP_PDU_RESPONSE, 0, 0, 0, 1, [⟨oid, SNMP_SYNTAX_INTEGER, zero_values⟩]⟩

/-- An empty pending object. -/
def empty_object : snmp_object := ⟨0, none, zero_value⟩

/-- Collaborators for evaluation whose consistency check accepts a pair of PDUs when
neither carries an error status. -/
def strict_collab (B : Build) : Collab :=
  { eval_collab B 0 with
    snmp_pdu_check := fun p q =>
      if p.error_status = 0 ∧ q.error_status = 0 then SNMP_CODE_OK else 1 }

/-- A pending object with the given OID, no descriptor, no value and no error
marker. -/
def object_of (oid : asn_oid) : snmp_object := ⟨0, none, { zero_value with oid := oid }⟩

/-- A version 2 context with the given PDU type, retry-on-error as given and the given
Operation Queue. -/
def queue_ctx (pdu_type : Nat) (retry : Bool) (queue : List snmp_object) : snmp_toolinfo :=
  ⟨false, false, retry, 0, pdu_type, 1, 0, SNMP_V2c, queue⟩

/-- An error response: one binding of the given name, with the given error status and
error index. -/
def error_response (oid : asn_oid) (status index : Int) : snmp_pdu :=
  ⟨SNMP_V2c, SNMP_PDU_RESPONSE, 0, status, index, 1, [⟨oid, SNMP_SYNTAX_NULL, zero_values⟩]⟩

/-- A version 1 context with PDU type Get and retry-on-error whose queue holds one
unmarked Counter64 object, for evaluation. -/
def v1_counter64_ctx : snmp_toolinfo :=
  ⟨false, false, true, 0, SNMP_PDU_GET, 1, 0, SNMP_V1,
    [⟨0, none, { zero_value with oid := [1, 3], syntax_ := SNMP_SYNTAX_COUNTER64 }⟩]⟩

/-- Collaborators for evaluation whose consistency check accepts a pair of PDUs when
neither carries an error status and both have the same number of bindings. -/
def count_collab (B : Build) : Collab :=
  { eval_collab B 0 with
    snmp_pdu_check := fun p q =>
      if p.error_status = 0 ∧ q.error_status = 0 ∧ p.nbindings = q.nbindings then SNMP_CODE_OK
      else 1 }

/-- Collaborators for evaluation whose consistency check takes its arguments in the
roles the header `snmp.h` declares, `snmp_pdu_check(_req, _resp)`: the pair is accepted
when the PDU in the second place carries no error status. -/
def declared_collab (B : Build) : Collab :=
  { eval_collab B 0 with
    snmp_pdu_check := fun _req resp => if resp.error_status = 0 then SNMP_CODE_OK else 1 }

/-- Collaborators for evaluation whose name resolution accepts every name and leaves
the name it was asked for in the descriptor of the object. -/
def probe_collab (B : Build) : Collab :=
  { eval_collab B 0 with
    snmp_lookup_oidall := fun obj name => (1, { obj with info := some ⟨name, 0, [], 0⟩ }) }

/-- Set collaborators for evaluation: no syntax name and no enumerated OID name is
known. -/
def eval_set_collab : SetCollab :=
  ⟨fun _ => SNMP_SYNTAX_NULL, fun obj _ => (-1, obj)⟩

/-- A pending object with the given OID and an Integer32 value, for evaluating Set. -/
def integer_object (oid : asn_oid) (i : Int) : snmp_object :=
  ⟨0, none, ⟨oid, SNMP_SYNTAX_INTEGER, { zero_values with integer := i }⟩⟩

/-- A version 2 Set context in numeric mode with the given output mode and queue. -/
def set_ctx (output : Nat) (retry : Bool) (queue : List snmp_object) : snmp_toolinfo :=
  ⟨true, false, retry, output, SNMP_PDU_SET, 1, 0, SNMP_V2c, queue⟩

/-- A response with error status 0 and error index 1 that carries two bindings. -/
def two_binding_response (a b : asn_oid) : snmp_pdu :=
  ⟨SNMP_V2c, SNMP_PDU_RESPONSE, 0, 0, 1, 2,
    [⟨a, SNMP_SYNTAX_NULL, zero_values⟩, ⟨b, SNMP_SYNTAX_NULL, zero_values⟩]⟩

/-- The token `.a.1.1. ... .1` with `n` sub-identifiers after the name. -/
def dotted_token (n : Nat) : List Char := '.' :: 'a' :: (List.replicate n ['.', '1']).flatten

/-- An OctetString value of `n` zero octets, for evaluation. -/
def octets_value (n : Nat) : snmp_value :=
  { zero_value with syntax_ := SNMP_SYNTAX_OCTETSTRING
                    v := { zero_values with octetstring := List.replicate n 0 } }

/-- An Integer32 object whose descriptor has the enumeration table `up = 1,
down = 2`, for evaluation. -/
def enum_object : snmp_object :=
  ⟨0, some ⟨"ifAdminStatus".toList, 3, [("up".toList, 1), ("down".toList, 2)], 0⟩,
    { zero_value with syntax_ := SNMP_SYNTAX_INTEGER }⟩

/-- A GetNext agent over a table of OIDs, for evaluation: it answers a request with the
first OID of the table that comes after the requested one, and with the error status
noSuchName when there is none. -/
def mib_agent (mib : List asn_oid) (_s : Unit) (req : snmp_pdu) : (Int × snmp_pdu) × Unit :=
  match mib.find? (fun o => oid_lt (first_oid req) o) with
  | some o => ((0, response_of o), ())
  | none => ((0, error_response (first_oid req) 2 1), ())

/-- Collaborators for evaluation whose textual-convention codec stores the characters
of the value text as octets. -/
def octets_collab (B : Build) : Collab :=
  { eval_collab B 0 with
    snmp_tc2oct := fun _ value str =>
      (0, { value with syntax_ := SNMP_SYNTAX_OCTETSTRING
                       v := { value.v with octetstring := str.map (fun c => c.toNat % 256) } }) }

/-! ## Lemmas on the C library model -/

theorem digitChar_isdigit (d : Nat) (h : d < 10) :
    isdigit (Nat.digitChar d) = true ∧ (Nat.digitChar d).toNat - 48 = d := by
  interval_cases d <;> decide

theorem digit_run_append (D : List Char) (hD : ∀ c ∈ D, isdigit c = true) (rest : List Char)
    (hr : isdigit (peek rest) = false) (acc : Nat) :
    digit_run acc (D ++ rest) = (D.foldl (fun a c => a * 10 + (c.toNat - 48)) acc, rest) := by
  induction D generalizing acc with
  | nil =>
    cases rest with
    | nil => rfl
    | cons c cs =>
      have : isdigit c = false := by simpa [peek] using hr
      simp [digit_run, this]
  | cons c cs ih =>
    have hc : isdigit c = true := hD c (by simp)
    simp only [List.cons_append, digit_run, hc, if_true, List.foldl_cons]
    exact ih (fun x hx => hD x (by simp [hx])) _

theorem toDigitsCore_spec (fuel : Nat) : ∀ (n : Nat) (ds : List Char), n < fuel →
    ∃ D : List Char, Nat.toDigitsCore 10 fuel n ds = D ++ ds ∧ D ≠ [] ∧
      (∀ c ∈ D, isdigit c = true) ∧
      ∀ acc, D.foldl (fun a c => a * 10 + (c.toNat - 48)) acc = acc * 10 ^ D.length + n := by
  induction fuel with
  | zero => intro n ds h; omega
  | succ f ih =>
    intro n ds h
    have hd := digitChar_isdigit (n % 10) (Nat.mod_lt _ (by decide))
    unfold Nat.toDigitsCore
    by_cases h0 : n / 10 = 0
    · refine ⟨[Nat.digitChar (n % 10)], by simp [h0], by simp, by simpa using hd.1, ?_⟩
      intro acc
      simp only [List.foldl_cons, List.foldl_nil, hd.2, List.length_singleton, pow_one]
      omega
    · obtain ⟨D, hD, _, hdig, hval⟩ := ih (n / 10) (Nat.digitChar (n % 10) :: ds) (by omega)
      refine ⟨D ++ [Nat.digitChar (n % 10)], by simp [h0, hD], by simp, ?_, ?_⟩
      · intro c hc
        rcases List.mem_append.1 hc with h1 | h1
        · exact hdig c h1
        · simp at h1; rw [h1]; exact hd.1
      · intro acc
        simp only [List.foldl_append, List.foldl_cons, List.foldl_nil, hval, hd.2,
          List.length_append, List.length_singleton, pow_succ]
        have := Nat.div_add_mod n 10
        nlinarith [this]

theorem decimal_spec (n : Nat) :
    decimal n ≠ [] ∧ (∀ c ∈ decimal n, isdigit c = true) ∧
      ∀ acc, (decimal n).foldl (fun a c => a * 10 + (c.toNat - 48)) acc
        = acc * 10 ^ (decimal n).length + n := by
  obtain ⟨D, hD, hne, hdig, hval⟩ := toDigitsCore_spec (n + 1) n [] (by omega)
  have : decimal n = D := by simp [decimal, Nat.toDigits, hD]
  rw [this]; exact ⟨hne, hdig, hval⟩

theorem strto_scan_decimal (n : Nat) (rest : List Char) (hr : isdigit (peek rest) = false) :
    strto_scan (decimal n ++ rest) = some (false, n, rest) := by
  obtain ⟨hne, hdig, hval⟩ := decimal_spec n
  obtain ⟨c, cs, hcs⟩ := List.exists_cons_of_ne_nil hne
  have hc : isdigit c = true := hdig c (by simp [hcs])
  have hsp : isspace c = false := by
    simp only [isdigit, isspace, decide_eq_true_eq, decide_eq_false_iff_not] at hc ⊢; omega
  have hm : c ≠ '-' := by rintro rfl; revert hc; decide
  have hp : c ≠ '+' := by rintro rfl; revert hc; decide
  have hrun := digit_run_append (decimal n) hdig rest hr 0
  rw [hval 0] at hrun
  simp only [Nat.zero_mul, Nat.zero_add] at hrun
  rw [hcs] at hrun ⊢
  simp [strto_scan, List.dropWhile, hsp, peek, hm, hp, hc] at hrun ⊢
  simp [hrun]

theorem peek_nil_not_digit : isdigit (peek []) = false := by decide

theorem strtou_decimal (bits : Nat) (e : Bool) (n : Nat) (hn : n < 2 ^ bits) (rest : List Char)
    (hr : isdigit (peek rest) = false) :
    strtou bits e (decimal n ++ rest) = ⟨(n : Int), rest, 0⟩ := by
  have h1 : ¬ (2 ^ bits - 1 < n) := by omega
  simp [strtou, strto_scan_decimal n rest hr, h1, Nat.mod_eq_of_lt hn]

theorem two_pow_31_le (B : Build) : (2 : Nat) ^ 31 ≤ 2 ^ (B.long_bits - 1) :=
  Nat.pow_le_pow_right (by decide) (by have := B.long_ge; omega)

theorem two_pow_32_le (B : Build) : (2 : Nat) ^ 32 ≤ 2 ^ B.long_bits :=
  Nat.pow_le_pow_right (by decide) B.long_ge

theorem strtoul_decimal (B : Build) (n : Nat) (hn : n < 2 ^ 32) (rest : List Char)
    (hr : isdigit (peek rest) = false) :
    strtoul B (decimal n ++ rest) = ⟨(n : Int), rest, 0⟩ :=
  strtou_decimal _ _ n (lt_of_lt_of_le hn (two_pow_32_le B)) rest hr

theorem strto_scan_minus (m : Nat) (rest : List Char) (hr : isdigit (peek rest) = false) :
    strto_scan ('-' :: (decimal m ++ rest)) = some (true, m, rest) := by
  have h := strto_scan_decimal m rest hr
  obtain ⟨hne, hdig, _⟩ := decimal_spec m
  obtain ⟨c, cs, hcs⟩ := List.exists_cons_of_ne_nil hne
  have hc : isdigit c = true := hdig c (by simp [hcs])
  have hsp : isspace c = false := by
    simp only [isdigit, isspace, decide_eq_true_eq, decide_eq_false_iff_not] at hc ⊢; omega
  have hm : c ≠ '-' := by rintro rfl; revert hc; decide
  have hp : c ≠ '+' := by rintro rfl; revert hc; decide
  have hsm : isspace '-' = false := by decide
  rw [hcs] at h ⊢
  simp [strto_scan, List.dropWhile, hsp, peek, hm, hp, hc, hsm] at h ⊢
  exact h

theorem strtol_int_text (B : Build) (i : Int) (hlo : -(2 : Int) ^ 31 ≤ i) (hhi : i < 2 ^ 31) :
    strtol B (int_text i) = ⟨i, [], 0⟩ := by
  have hB : ((2 : Nat) ^ 31 : Int) ≤ ((2 ^ (B.long_bits - 1) : Nat) : Int) := by
    exact_mod_cast two_pow_31_le B
  push_cast at hB
  by_cases hneg : i < 0
  · have h := strto_scan_minus i.natAbs [] peek_nil_not_digit
    simp only [List.append_nil] at h
    have habs : ((i.natAbs : Nat) : Int) = -i := by omega
    simp only [strtol, int_text, hneg, if_true, h, LONG_MAX, LONG_MIN, habs]
    have h1 : ¬ ((2 : Int) ^ (B.long_bits - 1) - 1 < i) := by omega
    have h2 : ¬ (i < -(2 : Int) ^ (B.long_bits - 1)) := by omega
    simp [h1, h2]
  · have h := strto_scan_decimal i.toNat [] peek_nil_not_digit
    simp only [List.append_nil] at h
    have habs : ((i.toNat : Nat) : Int) = i := by omega
    simp only [strtol, int_text, hneg, if_false, h, LONG_MAX, LONG_MIN, habs]
    have h1 : ¬ ((2 : Int) ^ (B.long_bits - 1) - 1 < i) := by omega
    have h2 : ¬ (i < -(2 : Int) ^ (B.long_bits - 1)) := by omega
    simp [h1, h2]

theorem to_int32_id (i : Int) (hlo : -(2 : Int) ^ 31 ≤ i) (hhi : i < 2 ^ 31) : to_int32 i = i := by
  unfold to_int32; omega

theorem to_uint32_id (n : Nat) (h : n < 2 ^ 32) : to_uint32 n = n := Nat.mod_eq_of_lt h

theorem to_int32_nat (n : Nat) (h : n < 2 ^ 31) : to_int32 (n : Int) = (n : Int) := by
  unfold to_int32; omega

theorem parse_int_int_text (B : Build) (value : snmp_value) (i : Int)
    (hlo : -(2 : Int) ^ 31 ≤ i) (hhi : i < 2 ^ 31) :
    parse_int B value (int_text i)
      = (0, { value with syntax_ := SNMP_SYNTAX_INTEGER, v := { value.v with integer := i } }) := by
  simp [parse_int, strtol_int_text B i hlo hhi, to_int32_id i hlo hhi]

theorem parse_uint_decimal (B : Build) (value : snmp_value) (n : Nat) (hn : n < 2 ^ 32) :
    parse_uint B value (decimal n) = (0, { value with v := { value.v with uint32 := n } }) := by
  have h := strtoul_decimal B n hn [] peek_nil_not_digit
  simp only [List.append_nil] at h
  simp [parse_uint, h, to_uint32_id n hn]

theorem parse_uint64_decimal (B : Build) (value : snmp_value) (n : Nat) (hn : n < 2 ^ 64) :
    parse_uint64 B value (decimal n)
      = (0, { value with syntax_ := SNMP_SYNTAX_COUNTER64,
                         v := { value.v with counter64 := n } }) := by
  have h := strtou_decimal 64 B.einval n hn [] peek_nil_not_digit
  simp only [List.append_nil] at h
  have hm : n % 2 ^ 64 = n := Nat.mod_eq_of_lt hn
  simp only [parse_uint64, strtoull, h, Int.toNat_ofNat, hm]
  simp

theorem peek_dot_not_digit (l : List Char) : isdigit (peek ('.' :: l)) = false := by
  simp [peek]; decide

theorem parse_ip_ip_text (B : Build) (value : snmp_value) (a b c d : Nat)
    (ha : a ≤ 255) (hb : b ≤ 255) (hc : c ≤ 255) (hd : d ≤ 255) :
    parse_ip B value (ip_text a b c d)
      = (0, { value with
                syntax_ := SNMP_SYNTAX_IPADDRESS
                v := { value.v with
                  ipaddress := (((value.v.ipaddress.set 0 a).set 1 b).set 2 c).set 3 d } }) := by
  have h1 := strtoul_decimal B a (by omega) _ (peek_dot_not_digit (decimal b ++ '.' :: (decimal c ++ '.' :: decimal d)))
  have h2 := strtoul_decimal B b (by omega) _ (peek_dot_not_digit (decimal c ++ '.' :: decimal d))
  have h3 := strtoul_decimal B c (by omega) _ (peek_dot_not_digit (decimal d))
  have h4 := strtoul_decimal B d (by omega) [] peek_nil_not_digit
  simp only [List.append_nil] at h4
  have ea : to_uint32 a = a := to_uint32_id a (by omega)
  have eb : to_uint32 b = b := to_uint32_id b (by omega)
  have ec : to_uint32 c = c := to_uint32_id c (by omega)
  have ed : to_uint32 d = d := to_uint32_id d (by omega)
  have fa : to_uint8 a = a := Nat.mod_eq_of_lt (by omega)
  have fb : to_uint8 b = b := Nat.mod_eq_of_lt (by omega)
  have fc : to_uint8 c = c := Nat.mod_eq_of_lt (by omega)
  have fd : to_uint8 d = d := Nat.mod_eq_of_lt (by omega)
  have na : ¬ (255 < a) := by omega
  have nb : ¬ (255 < b) := by omega
  have nc : ¬ (255 < c) := by omega
  have nd : ¬ (255 < d) := by omega
  simp [parse_ip, parse_ip_loop, ip_text, h1, h2, h3, h4, ea, eb, ec, ed, fa, fb, fc, fd,
    na, nb, nc, nd, peek]

theorem decimal_length_pos (n : Nat) : 0 < (decimal n).length :=
  List.length_pos.2 (decimal_spec n).1

theorem oid_text_length (S : List Nat) : S.length ≤ (oid_text S).length + 1 := by
  induction S with
  | nil => simp
  | cons a t ih =>
    cases t with
    | nil => simp [oid_text]
    | cons b r =>
      have := decimal_length_pos a
      simp only [oid_text, List.length_cons, List.length_append] at ih ⊢
      omega

theorem parse_oid_numeric_loop_oid_text (B : Build) (S : List Nat) :
    ∀ (fuel : Nat) (value : snmp_value), S ≠ [] → S.length ≤ fuel → (∀ x ∈ S, x < 2 ^ 32) →
      value.v.oid.length + S.length ≤ B.ASN_MAXOIDLEN →
      parse_oid_numeric_loop B fuel value (oid_text S)
        = (0, { value with syntax_ := SNMP_SYNTAX_OID,
                           v := { value.v with oid := value.v.oid ++ S } }) := by
  induction S with
  | nil => intro _ _ h; exact absurd rfl h
  | cons a t ih =>
    intro fuel value _ hfuel hsub hlen
    have ha : a < 2 ^ 32 := hsub a (by simp)
    have hmax : ¬ (ASN_MAXID < a) := by unfold ASN_MAXID; omega
    obtain ⟨f, rfl⟩ : ∃ f, fuel = f + 1 := ⟨fuel - 1, by simp at hfuel; omega⟩
    have hroom : ¬ (B.ASN_MAXOIDLEN ≤ value.v.oid.length) := by simp at hlen; omega
    cases t with
    | nil =>
      have h := strtoul_decimal B a ha [] peek_nil_not_digit
      simp only [List.append_nil] at h
      have hp : peek ([] : List Char) ≠ '.' := by decide
      simp [oid_text, parse_oid_numeric_loop, h, to_uint32_id a ha, hmax, snmp_suboid_append,
        hroom, hp]
    | cons b r =>
      have h := strtoul_decimal B a ha _ (peek_dot_not_digit (oid_text (b :: r)))
      have hrec := ih f
        { value with v := { value.v with oid := value.v.oid ++ [a] } } (by simp)
        (by simp at hfuel ⊢; omega) (fun x hx => hsub x (by simp [hx]))
        (by simp at hlen ⊢; omega)
      simp only [oid_text, parse_oid_numeric_loop, h, Int.toNat_ofNat, to_uint32_id a ha, hmax,
        snmp_suboid_append, hroom, if_false, peek, List.headD_cons, List.drop_one, List.tail_cons,
        if_true]
      simp at hrec ⊢
      exact hrec

theorem parse_oid_numeric_oid_text (B : Build) (S : List Nat) (value : snmp_value) (hS : S ≠ [])
    (hsub : ∀ x ∈ S, x < 2 ^ 32) (hlen : value.v.oid.length + S.length ≤ B.ASN_MAXOIDLEN) :
    parse_oid_numeric B value (oid_text S)
      = (0, { value with syntax_ := SNMP_SYNTAX_OID,
                         v := { value.v with oid := value.v.oid ++ S } }) :=
  parse_oid_numeric_loop_oid_text B S _ value hS (oid_text_length S) hsub hlen

/-! ## The fuel of `parse_oid_numeric` is never used up -/

theorem digit_run_length (l : List Char) : ∀ acc, (digit_run acc l).2.length ≤ l.length := by
  induction l with
  | nil => intro acc; simp [digit_run]
  | cons c cs ih =>
    intro acc
    unfold digit_run
    split
    · exact Nat.le_succ_of_le (ih _)
    · simp

theorem strto_scan_length (nptr rest : List Char) (neg : Bool) (n : Nat)
    (h : strto_scan nptr = some (neg, n, rest)) : rest.length ≤ nptr.length := by
  have hdw : (nptr.dropWhile isspace).length ≤ nptr.length :=
    (List.dropWhile_sublist _).length_le
  unfold strto_scan at h
  simp only at h
  generalize hs : (if peek (List.dropWhile isspace nptr) = '-' ∨
      peek (List.dropWhile isspace nptr) = '+' then List.drop 1 (List.dropWhile isspace nptr)
    else List.dropWhile isspace nptr) = s1 at h
  have hs1 : s1.length ≤ nptr.length := by
    rw [← hs]
    split
    · simp only [List.length_drop]; omega
    · exact hdw
  split at h
  · simp only [Option.some.injEq, Prod.mk.injEq] at h
    rw [← h.2.2]
    exact le_trans (digit_run_length _ 0) hs1
  · simp at h

theorem strtou_endptr_length (bits : Nat) (e : Bool) (nptr : List Char) :
    (strtou bits e nptr).endptr.length ≤ nptr.length := by
  unfold strtou
  cases hscan : strto_scan nptr with
  | none => exact le_refl _
  | some t =>
    obtain ⟨neg, n, rest⟩ := t
    have hrest := strto_scan_length nptr rest neg n hscan
    simp only
    split <;> exact hrest

theorem parse_oid_numeric_loop_fuel (B : Build) :
    ∀ (f1 f2 : Nat) (value : snmp_value) (val : List Char), val.length < f1 → val.length < f2 →
      parse_oid_numeric_loop B f1 value val = parse_oid_numeric_loop B f2 value val := by
  intro f1
  induction f1 with
  | zero => intro f2 value val h; omega
  | succ a ih =>
    intro f2 value val h1 h2
    obtain ⟨b, rfl⟩ : ∃ b, f2 = b + 1 := ⟨f2 - 1, by omega⟩
    have hlen := strtou_endptr_length B.long_bits B.einval val
    unfold parse_oid_numeric_loop
    simp only
    split
    · rfl
    · split
      · rfl
      · split
        · rfl
        · split
          · rename_i hdot
            have hne : (strtoul B val).endptr ≠ [] := by
              intro hnil
              rw [hnil] at hdot
              revert hdot
              decide
            have hpos : 0 < (strtoul B val).endptr.length := List.length_pos.2 hne
            have hl : (strtoul B val).endptr.length ≤ val.length := hlen
            apply ih
            · simp only [List.length_drop]; omega
            · simp only [List.length_drop]; omega
          · rfl

/-- With any fuel above the length of the token the loop of `parse_oid_numeric` gives
the result of `parse_oid_numeric`: the bound on the iterations is never reached. -/
theorem parse_oid_numeric_fuel (B : Build) (fuel : Nat) (value : snmp_value) (val : List Char)
    (h : val.length < fuel) :
    parse_oid_numeric_loop B fuel value val = parse_oid_numeric B value val :=
  parse_oid_numeric_loop_fuel B fuel (val.length + 1) value val h (Nat.lt_succ_self _)

/-! ## C1: walk boundary -/

/-- C1 (counterexample): the walk boundary claim fails when the response printer
reports a failure. Root 1, clean responses 1.1, 1.2, 2 with strictly increasing
OIDs, `snmp_output_resp` returning -1: the loop stops at the first response, so 1.2,
which precedes the first out-of-subtree response, is never emitted. -/
theorem walk_boundary_fails_when_output_fails :
    walk_clean (eval_collab lp64 (-1)) (eval_ctx SNMP_PDU_GETNEXT)
        (snmpwalk_nextpdu_create (eval_ctx SNMP_PDU_GETNEXT) SNMP_PDU_GETNEXT [1])
        [response_of [1, 1], response_of [1, 2], response_of [2]] = true ∧
      increasing [response_of [1, 1], response_of [1, 2], response_of [2]] = true ∧
      (snmptool_walk_loop (eval_collab lp64 (-1)) (eval_ctx SNMP_PDU_GETNEXT) [1]
          (answers [response_of [1, 1], response_of [1, 2], response_of [2]])
          (snmpwalk_nextpdu_create (eval_ctx SNMP_PDU_GETNEXT) SNMP_PDU_GETNEXT [1]) 0 []).emitted
        ≠ ([response_of [1, 1], response_of [1, 2], response_of [2]].takeWhile
            (in_subtree [1])).map Emitted.resp := by
  refine ⟨by decide, by decide, by decide⟩

/-- C1 (amended): for every root, every request and every list of responses that
pass the consistency check, as long as `snmp_output_resp` returns 0 for the responses
inside the subtree, the GetNext loop of `snmptool_walk` emits, in returned order,
exactly the responses that precede the first response whose first-binding OID does not
have the root as a prefix, and it leaves the loop at that response without emitting
it: the agent's answers that follow it are never asked for. -/
theorem walk_boundary (C : Collab) (ctx : snmp_toolinfo) (root : asn_oid) (rs : List snmp_pdu) :
    ∀ (req : snmp_pdu) (outputs : Int) (out : List Emitted),
      walk_clean C ctx req rs = true →
      (∀ r ∈ rs.takeWhile (in_subtree root), C.snmp_output_resp r = 0) →
      (snmptool_walk_loop C ctx root (answers rs) req outputs out).emitted
          = out ++ (rs.takeWhile (in_subtree root)).map Emitted.resp ∧
        (snmptool_walk_loop C ctx root (answers rs) req outputs out).agent
          = answers ((rs.dropWhile (in_subtree root)).drop 1) := by
  induction rs with
  | nil => intro req outputs out _ _; simp [answers, snmptool_walk_loop]
  | cons r rs ih =>
    intro req outputs out hclean hout
    simp only [walk_clean, Bool.and_eq_true, decide_eq_true_eq] at hclean
    by_cases hsub : in_subtree root r = true
    · have hsub' : asn_is_suboid root (binding r 0).oid = true := hsub
      have ho : C.snmp_output_resp r = 0 := hout r (by simp [List.takeWhile, hsub])
      have hrec := ih (snmpwalk_nextpdu_create ctx SNMP_PDU_GETNEXT (first_oid r))
        (to_int32 (outputs + 1)) (out ++ [Emitted.resp r]) hclean.2
        (fun x hx => hout x (by simp [List.takeWhile, hsub, hx]))
      simp only [answers, List.map_cons, snmptool_walk_loop, hclean.1, hsub', ho,
        List.takeWhile, hsub, List.dropWhile] at hrec ⊢
      simpa [first_oid] using hrec
    · have hsub' : asn_is_suboid root (binding r 0).oid = false := by
        simpa [in_subtree, first_oid] using hsub
      simp only [Bool.not_eq_true] at hsub
      simp [answers, snmptool_walk_loop, hclean.1, hsub', List.takeWhile, hsub, List.dropWhile]

/-- C1 (witness): root 1 and the responses 1.1, 1.2, 2 with a printer that
succeeds. -/
theorem walk_boundary_witness :
    (snmptool_walk_loop (eval_collab lp64 0) (eval_ctx SNMP_PDU_GETNEXT) [1]
        (answers [response_of [1, 1], response_of [1, 2], response_of [2], response_of [3]])
        (snmpwalk_nextpdu_create (eval_ctx SNMP_PDU_GETNEXT) SNMP_PDU_GETNEXT [1]) 0 []).emitted
      = [Emitted.resp (response_of [1, 1]), Emitted.resp (response_of [1, 2])] ∧
    (snmptool_walk_loop (eval_collab lp64 0) (eval_ctx SNMP_PDU_GETNEXT) [1]
        (answers [response_of [1, 1], response_of [1, 2], response_of [2], response_of [3]])
        (snmpwalk_nextpdu_create (eval_ctx SNMP_PDU_GETNEXT) SNMP_PDU_GETNEXT [1]) 0 []).agent
      = answers [response_of [3]] :=
  walk_boundary (eval_collab lp64 0) (eval_ctx SNMP_PDU_GETNEXT) [1]
    [response_of [1, 1], response_of [1, 2], response_of [2], response_of [3]]
    (snmpwalk_nextpdu_create (eval_ctx SNMP_PDU_GETNEXT) SNMP_PDU_GETNEXT [1]) 0 []
    (by decide) (by decide)

/-! ## C2: GetBulk field reuse -/

/-- C2: for every request PDU with `n = pdu.nbindings` bindings and all configured
non-repeaters `N` and max-repetitions `M` (option parsing admits values up to
`SNMP_MAX_BINDINGS`; the statement holds for everything that fits `int32_t`),
`snmpget_fix_getbulk` sets error-status to `min n N`, error-index to `M` when `M > 0`
and to 1 when `M = 0`, and changes no other field of the PDU. -/
theorem snmpget_fix_getbulk_fields (pdu : snmp_pdu) (M N : Nat) (hM : M < 2 ^ 31)
    (hN : N < 2 ^ 31) :
    snmpget_fix_getbulk pdu M N
      = { pdu with error_status := ((min pdu.nbindings N : Nat) : Int)
                   error_index := if 0 < M then (M : Int) else 1 } := by
  have e1 : ∀ k : Nat, k < 2 ^ 31 → to_int32 (k : Int) = (k : Int) := by
    intro k hk; unfold to_int32; omega
  unfold snmpget_fix_getbulk
  by_cases h : pdu.nbindings < N
  · have hmin : min pdu.nbindings N = pdu.nbindings := by omega
    by_cases hm : 0 < M
    · simp [h, hm, hmin, e1 M hM, e1 pdu.nbindings (by omega)]
    · simp [h, hm, hmin, e1 pdu.nbindings (by omega)]
  · have hmin : min pdu.nbindings N = N := by omega
    by_cases hm : 0 < M
    · simp [h, hm, hmin, e1 M hM, e1 N hN]
    · simp [h, hm, hmin, e1 N hN]

/-- C2 (witness): non-repeaters 2 with five bindings gives error-status 2, and
max-repetitions 0 gives error-index 1. -/
theorem snmpget_fix_getbulk_fields_witness :
    (snmpget_fix_getbulk
        { snmp_pdu_create (eval_ctx SNMP_PDU_GETBULK) SNMP_PDU_GETBULK with nbindings := 5 } 0 2)
      = { snmp_pdu_create (eval_ctx SNMP_PDU_GETBULK) SNMP_PDU_GETBULK with
            nbindings := 5, error_status := 2, error_index := 1 } :=
  snmpget_fix_getbulk_fields
    { snmp_pdu_create (eval_ctx SNMP_PDU_GETBULK) SNMP_PDU_GETBULK with nbindings := 5 } 0 2
    (by decide) (by decide)

/-! ## C3: value codec round trip -/

theorem parse_counter_decimal (B : Build) (value : snmp_value) (n : Nat) (hn : n < 2 ^ 32) :
    parse_counter B value (decimal n)
      = (0, { value with syntax_ := SNMP_SYNTAX_COUNTER, v := { value.v with uint32 := n } }) := by
  simp [parse_counter, parse_uint_decimal B value n hn]

theorem parse_gauge_decimal (B : Build) (value : snmp_value) (n : Nat) (hn : n < 2 ^ 32) :
    parse_gauge B value (decimal n)
      = (0, { value with syntax_ := SNMP_SYNTAX_GAUGE, v := { value.v with uint32 := n } }) := by
  simp [parse_gauge, parse_uint_decimal B value n hn]

theorem parse_ticks_decimal (B : Build) (value : snmp_value) (n : Nat) (hn : n < 2 ^ 32) :
    parse_ticks B value (decimal n)
      = (0, { value with syntax_ := SNMP_SYNTAX_TIMETICKS, v := { value.v with uint32 := n } }) := by
  simp [parse_ticks, parse_uint_decimal B value n hn]

/-- C3: for every typed value `tv` of syntax Integer32, IpAddress, Counter32, Gauge32,
TimeTicks, Counter64 or ObjectIdentifier whose payload fits its shape (the OID
non-empty), `parse_syntax_val` applied to a zeroed value, the syntax of `tv` and the
canonical text of `tv` returns 0 and yields the value that holds the tag and the
payload of `tv`. This holds on every build and whatever the external octet-string
codec does. -/
theorem value_codec_round_trip (B : Build) (C : Collab) (tv : typed_value) (h : tv.fits B) :
    parse_syntax_val B C zero_value tv.tag tv.text = (0, tv.stored) := by
  cases tv with
  | integer i =>
    simpa [parse_syntax_val, typed_value.tag, typed_value.text, typed_value.stored]
      using parse_int_int_text B zero_value i h.1 h.2
  | ipaddress a b c d =>
    obtain ⟨ha, hb, hc, hd⟩ := h
    simpa [parse_syntax_val, typed_value.tag, typed_value.text, typed_value.stored, zero_value,
      zero_values] using parse_ip_ip_text B zero_value a b c d ha hb hc hd
  | counter n =>
    simpa [parse_syntax_val, typed_value.tag, typed_value.text, typed_value.stored]
      using parse_counter_decimal B zero_value n h
  | gauge n =>
    simpa [parse_syntax_val, typed_value.tag, typed_value.text, typed_value.stored]
      using parse_gauge_decimal B zero_value n h
  | timeticks n =>
    simpa [parse_syntax_val, typed_value.tag, typed_value.text, typed_value.stored]
      using parse_ticks_decimal B zero_value n h
  | counter64 n =>
    simpa [parse_syntax_val, typed_value.tag, typed_value.text, typed_value.stored]
      using parse_uint64_decimal B zero_value n h
  | oid subs =>
    obtain ⟨hne, hsub, hlen⟩ := h
    simpa [parse_syntax_val, typed_value.tag, typed_value.text, typed_value.stored, zero_value,
      zero_values] using parse_oid_numeric_oid_text B subs zero_value hne hsub
        (by simpa [zero_value, zero_values] using hlen)

/-- C3 (witness): the OID 1.3.6.1.2.1 on the LP64 build. -/
theorem value_codec_round_trip_witness :
    oid_text [1, 3, 6, 1, 2, 1] = "1.3.6.1.2.1".toList ∧
    parse_syntax_val lp64 (eval_collab lp64 0) zero_value SNMP_SYNTAX_OID
        (oid_text [1, 3, 6, 1, 2, 1])
      = (0, { zero_value with syntax_ := SNMP_SYNTAX_OID
                              v := { zero_values with oid := [1, 3, 6, 1, 2, 1] } }) :=
  ⟨by decide,
    value_codec_round_trip lp64 (eval_collab lp64 0) (typed_value.oid [1, 3, 6, 1, 2, 1])
      ⟨by decide, by decide, by decide⟩⟩

/-! ## C5: IpAddress acceptance -/

theorem set_four (l : List Nat) (hl : l.length = 4) (a b c d : Nat) :
    (((l.set 0 a).set 1 b).set 2 c).set 3 d = [a, b, c, d] := by
  match l, hl with
  | [_, _, _, _], _ => rfl

/-- C5: for all `a b c d` in 0..255 and every value (whose address member has its four
bytes), `parse_ip` on the text `a.b.c.d` returns 0, sets the syntax tag to IpAddress
and the four address bytes to `a, b, c, d` in that order, and changes nothing else. -/
theorem parse_ip_accepts_dotted_quad (B : Build) (value : snmp_value) (a b c d : Nat)
    (ha : a ≤ 255) (hb : b ≤ 255) (hc : c ≤ 255) (hd : d ≤ 255)
    (hlen : value.v.ipaddress.length = 4) :
    parse_ip B value (ip_text a b c d)
      = (0, { value with syntax_ := SNMP_SYNTAX_IPADDRESS
                         v := { value.v with ipaddress := [a, b, c, d] } }) := by
  rw [parse_ip_ip_text B value a b c d ha hb hc hd, set_four _ hlen]

/-- C5 (witness): the text 192.168.0.255. -/
theorem parse_ip_accepts_dotted_quad_witness :
    ip_text 192 168 0 255 = "192.168.0.255".toList ∧
    parse_ip lp64 zero_value (ip_text 192 168 0 255)
      = (0, { zero_value with syntax_ := SNMP_SYNTAX_IPADDRESS
                              v := { zero_values with ipaddress := [192, 168, 0, 255] } }) :=
  ⟨by decide,
    parse_ip_accepts_dotted_quad lp64 zero_value 192 168 0 255 (by decide) (by decide)
      (by decide) (by decide) (by decide)⟩

/-! ## Evaluation on every build -/

theorem strtoul_of_scan (B : Build) (s rest : List Char) (n : Nat)
    (h : strto_scan s = some (false, n, rest)) (hn : n < 2 ^ 32) :
    strtoul B s = ⟨(n : Int), rest, 0⟩ := by
  have hlt : n < 2 ^ B.long_bits := lt_of_lt_of_le hn (two_pow_32_le B)
  have h1 : ¬ (2 ^ B.long_bits - 1 < n) := by omega
  simp [strtoul, strtou, h, h1, Nat.mod_eq_of_lt hlt]

theorem strtol_of_scan (B : Build) (s rest : List Char) (n : Nat)
    (h : strto_scan s = some (false, n, rest)) (hn : n < 2 ^ 31) :
    strtol B s = ⟨(n : Int), rest, 0⟩ := by
  have hB : ((2 : Nat) ^ 31 : Int) ≤ ((2 ^ (B.long_bits - 1) : Nat) : Int) := by
    exact_mod_cast two_pow_31_le B
  push_cast at hB
  have h1 : ¬ ((2 : Int) ^ (B.long_bits - 1) - 1 < (n : Int)) := by omega
  have h2 : ¬ ((n : Int) < -(2 : Int) ^ (B.long_bits - 1)) := by omega
  simp [strtol, h, LONG_MAX, LONG_MIN, h1, h2]

/-! ## C4: IpAddress rejection -/

/-- C4 (the code at the failing inputs): on every build `parse_ip` returns 0 (success)
with the IpAddress tag for the token `1x` (the `break` on the bad separator falls
through to the success return, and no address byte is stored), for `1.2.3.4x`
(trailing text after the fourth octet) and for `1.2.3.4.5` (five components). -/
theorem parse_ip_accepts_malformed (B : Build) :
    parse_ip B zero_value "1x".toList
        = (0, { zero_value with syntax_ := SNMP_SYNTAX_IPADDRESS }) ∧
      parse_ip B zero_value "1.2.3.4x".toList
        = (0, { zero_value with syntax_ := SNMP_SYNTAX_IPADDRESS
                                v := { zero_values with ipaddress := [1, 2, 3, 4] } }) ∧
      parse_ip B zero_value "1.2.3.4.5".toList
        = (0, { zero_value with syntax_ := SNMP_SYNTAX_IPADDRESS
                                v := { zero_values with ipaddress := [1, 2, 3, 4] } }) := by
  have s1 := strtoul_of_scan B "1x".toList "x".toList 1 (by decide) (by decide)
  have a1 := strtoul_of_scan B "1.2.3.4x".toList ".2.3.4x".toList 1 (by decide) (by decide)
  have a2 := strtoul_of_scan B "2.3.4x".toList ".3.4x".toList 2 (by decide) (by decide)
  have a3 := strtoul_of_scan B "3.4x".toList ".4x".toList 3 (by decide) (by decide)
  have a4 := strtoul_of_scan B "4x".toList "x".toList 4 (by decide) (by decide)
  have b1 := strtoul_of_scan B "1.2.3.4.5".toList ".2.3.4.5".toList 1 (by decide) (by decide)
  have b2 := strtoul_of_scan B "2.3.4.5".toList ".3.4.5".toList 2 (by decide) (by decide)
  have b3 := strtoul_of_scan B "3.4.5".toList ".4.5".toList 3 (by decide) (by decide)
  have b4 := strtoul_of_scan B "4.5".toList ".5".toList 4 (by decide) (by decide)
  refine ⟨?_, ?_, ?_⟩
  · simp only [parse_ip, parse_ip_loop, s1]
    simp only [String.toList]
    simp [peek, to_uint32, NUL]
  · simp only [parse_ip, parse_ip_loop, a1]
    simp only [String.toList] at a2 a3 a4 ⊢
    simp [a2, a3, a4, peek, to_uint32, to_uint8, zero_value, zero_values, NUL]
  · simp only [parse_ip, parse_ip_loop, b1]
    simp only [String.toList] at b2 b3 b4 ⊢
    simp [b2, b3, b4, peek, to_uint32, to_uint8, zero_value, zero_values, NUL]

/-! ## C6: Integer32 rejection -/

/-- C6 (the code at the failing inputs): on every build `parse_int` returns 0 for the
token `12abc` and stores 12, the text after the digits being ignored; on the LP64
build the token `2147483648`, above the signed 32-bit range, is accepted and stored
truncated as -2147483648, and a token without digits is accepted as 0 when the C
library does not report `EINVAL`. -/
theorem parse_int_accepts_garbage (B : Build) :
    parse_int B zero_value "12abc".toList
        = (0, { zero_value with syntax_ := SNMP_SYNTAX_INTEGER
                                v := { zero_values with integer := 12 } }) ∧
      parse_int lp64 zero_value "2147483648".toList
        = (0, { zero_value with syntax_ := SNMP_SYNTAX_INTEGER
                                v := { zero_values with integer := -2147483648 } }) ∧
      parse_int lp64 zero_value "abc".toList
        = (0, { zero_value with syntax_ := SNMP_SYNTAX_INTEGER }) := by
  have s1 := strtol_of_scan B "12abc".toList "abc".toList 12 (by decide) (by decide)
  refine ⟨?_, by decide, by decide⟩
  simp only [parse_int, s1]
  simp [to_int32, zero_value, zero_values]

/-! ## C7: enumerated Integer32 -/

/-- C7 (the code at the failing input): for an object whose descriptor has the
enumeration table `up = 1, down = 2`, `parse_int_string` on the unknown name `foo`
returns 1 (success) and stores the lookup's failure code -1 as the integer payload. -/
theorem parse_int_string_accepts_unknown_name (B : Build) :
    parse_int_string B
        ⟨0, some ⟨"ifAdminStatus".toList, 3, [("up".toList, 1), ("down".toList, 2)], 0⟩,
          { zero_value with syntax_ := SNMP_SYNTAX_INTEGER }⟩ "foo".toList
      = (1, ⟨0, some ⟨"ifAdminStatus".toList, 3, [("up".toList, 1), ("down".toList, 2)], 0⟩,
              { zero_value with syntax_ := SNMP_SYNTAX_INTEGER
                                v := { zero_values with integer := -1 } }⟩) := by
  rfl

/-! ## C8: unsigned parses -/

/-- C8 (the code at the failing input): on the LP64 build `parse_counter`,
`parse_gauge` and `parse_ticks` return 0 for the token `4294967296` (2^32) and store
the wrapped-around payload 0; `4294967297` is stored as 1. -/
theorem parse_uint_wraps_around :
    parse_counter lp64 zero_value "4294967296".toList
        = (0, { zero_value with syntax_ := SNMP_SYNTAX_COUNTER }) ∧
      parse_gauge lp64 zero_value "4294967296".toList
        = (0, { zero_value with syntax_ := SNMP_SYNTAX_GAUGE }) ∧
      parse_ticks lp64 zero_value "4294967296".toList
        = (0, { zero_value with syntax_ := SNMP_SYNTAX_TIMETICKS }) ∧
      parse_counter lp64 zero_value "4294967297".toList
        = (0, { zero_value with syntax_ := SNMP_SYNTAX_COUNTER
                                v := { zero_values with uint32 := 1 } }) := by
  decide

/-! ## C9: ObjectIdentifier value -/

/-- C9 (the code at the failing inputs): on the LP64 and LLP64 builds, whether or not
the C library reports `EINVAL`, `parse_oid_numeric` returns 0 for the token `1.3x`
with the OID 1.3, the trailing text only being warned about; on the LP64 build whose
C library does not report `EINVAL` the token `1..3` gives 1.0.3 and the empty token
gives the OID 0, and the sub-identifier 4294967296, above the maximum, is stored
as 0. -/
theorem parse_oid_numeric_accepts_malformed :
    parse_oid_numeric lp64 zero_value "1.3x".toList
        = (0, { zero_value with syntax_ := SNMP_SYNTAX_OID
                                v := { zero_values with oid := [1, 3] } }) ∧
      parse_oid_numeric lp64_einval zero_value "1.3x".toList
        = (0, { zero_value with syntax_ := SNMP_SYNTAX_OID
                                v := { zero_values with oid := [1, 3] } }) ∧
      parse_oid_numeric llp64 zero_value "1.3x".toList
        = (0, { zero_value with syntax_ := SNMP_SYNTAX_OID
                                v := { zero_values with oid := [1, 3] } }) ∧
      parse_oid_numeric lp64 zero_value "1..3".toList
        = (0, { zero_value with syntax_ := SNMP_SYNTAX_OID
                                v := { zero_values with oid := [1, 0, 3] } }) ∧
      parse_oid_numeric lp64 zero_value []
        = (0, { zero_value with syntax_ := SNMP_SYNTAX_OID
                                v := { zero_values with oid := [0] } }) ∧
      parse_oid_numeric lp64 zero_value "1.4294967296".toList
        = (0, { zero_value with syntax_ := SNMP_SYNTAX_OID
                                v := { zero_values with oid := [1, 0] } }) := by
  decide

/-! ## C10: OID path, suffix form -/

theorem name_char_succ (i : Nat) (c : Char) : name_char (i + 1) c = name_char 1 c := by
  simp [name_char]

theorem name_run_cons (i : Nat) (c : Char) (l : List Char) :
    name_run i (c :: l) = if name_char i c then name_run (i + 1) l else i := rfl

theorem name_run_all (cs tail : List Char) (hcs : cs.all (name_char 1) = true)
    (htail : name_char 1 (peek tail) = false) :
    ∀ i, name_run (i + 1) (cs ++ tail) = i + 1 + cs.length := by
  induction cs with
  | nil =>
    intro i
    cases tail with
    | nil => simp [name_run]
    | cons c t =>
      have : name_char (i + 1) c = false := by
        rw [name_char_succ]; simpa [peek] using htail
      simp [name_run, this]
  | cons c cs ih =>
    intro i
    simp only [List.all_cons, Bool.and_eq_true] at hcs
    have hc : name_char (i + 1) c = true := by rw [name_char_succ]; exact hcs.1
    rw [List.cons_append, name_run_cons, hc, if_pos rfl, ih hcs.2 (i + 1), List.length_cons]
    omega

theorem name_char_not_nul (i : Nat) (c : Char) (h : name_char i c = true) : c ≠ NUL := by
  rintro rfl
  revert h
  cases i <;> simp [name_char] <;> decide

theorem name_char_not_dot (i : Nat) (c : Char) (h : name_char i c = true) : c ≠ '.' := by
  rintro rfl
  revert h
  cases i <;> simp [name_char] <;> decide

theorem name_char_zero_one (c : Char) (h : name_char 0 c = true) : name_char 1 c = true := by
  simp [name_char] at h ⊢
  rcases h with h | h
  · exact Or.inl (Or.inl h)
  · exact Or.inl (Or.inr h)

theorem takeWhile_name (cs tail : List Char) (hcs : cs.all (name_char 1) = true) :
    ((cs ++ tail).takeWhile (· ≠ NUL)).take cs.length = cs := by
  induction cs with
  | nil => simp
  | cons c cs ih =>
    simp only [List.all_cons, Bool.and_eq_true] at hcs
    have hc : c ≠ NUL := name_char_not_nul 1 c hcs.1
    have hd : decide (c ≠ NUL) = true := by simpa using hc
    rw [List.cons_append, List.takeWhile_cons, if_pos hd, List.length_cons, List.take_succ_cons,
      ih hcs.2]

/-- The scan of `snmptools_parse_stroid` on a token that starts with a symbolic name:
the run ends where the name ends, the copied string is the name and the suffix parse
starts right behind it. -/
theorem stroid_scan (NAME TAIL : List Char) (hname : symbolic_name NAME = true)
    (hsep : name_char 1 (peek TAIL) = false) :
    peek (NAME ++ TAIL) ≠ '.' ∧ name_run 0 (NAME ++ TAIL) = NAME.length ∧
      strlcpy (NAME ++ TAIL) NAME.length = NAME ∧
      (NAME ++ TAIL).drop NAME.length = TAIL ∧ 0 < NAME.length := by
  cases NAME with
  | nil => simp [symbolic_name] at hname
  | cons c cs =>
    simp only [symbolic_name, Bool.and_eq_true] at hname
    obtain ⟨hc, hcs⟩ := hname
    have hall : (c :: cs).all (name_char 1) = true := by
      simp only [List.all_cons, Bool.and_eq_true]
      exact ⟨name_char_zero_one c hc, hcs⟩
    refine ⟨name_char_not_dot 0 c hc, ?_, takeWhile_name (c :: cs) TAIL hall,
      List.drop_left' rfl, by simp⟩
    rw [List.cons_append, name_run_cons, hc, if_pos rfl, name_run_all cs TAIL hcs hsep 0,
      List.length_cons]
    omega

/-- C11: for every token `NAME ++ REST` in which `NAME` is a symbolic name shorter than
`MAXSTR` that schema resolution resolves (leaving the object `obj1`, whose OID is the
base OID, with room for one more sub-identifier), the sub-OID parser finds no numeric
suffix in `REST` and stops at `REST1`, and `REST1` does not start with `[`:
`snmptools_parse_stroid` returns `REST1` and leaves the base OID followed by exactly
one 0 if the object's syntax is set (a scalar, `obj->val.syntax > 0`) and the
configured PDU type is Get, and the object with its base OID unchanged otherwise (any
other PDU type, or an aggregate). -/
theorem parse_stroid_scalar_convention (B : Build) (C : Collab) (ctx : snmp_toolinfo)
    (obj obj1 : snmp_object) (NAME REST REST1 : List Char) (rc : Int)
    (hname : symbolic_name NAME = true) (hlen : NAME.length < B.MAXSTR)
    (hsep : name_char 1 (peek REST) = false)
    (hsuf : C.snmp_parse_suboid REST [] = some (REST1, []))
    (hidx : peek REST1 ≠ '[')
    (hres : C.snmp_lookup_oidall obj NAME = (rc, obj1)) (hrc : 0 ≤ rc)
    (hroom : obj1.val.oid.length < B.ASN_MAXOIDLEN) :
    snmptools_parse_stroid B C ctx obj (NAME ++ REST)
      = (some REST1,
          if 0 < syntax_code obj1.val.syntax_ ∧ ctx.pdu_type = SNMP_PDU_GET then
            { obj1 with val := { obj1.val with oid := obj1.val.oid ++ [0] } }
          else obj1) := by
  obtain ⟨hdot, hrun, hcpy, hdrop, hpos⟩ := stroid_scan NAME REST hname hsep
  have hi : ¬ (NAME.length ≤ 0 ∨ B.MAXSTR ≤ NAME.length) := by omega
  have hrc' : ¬ (rc < 0) := by omega
  have hfull : ¬ (B.ASN_MAXOIDLEN ≤ obj1.val.oid.length) := by omega
  unfold snmptools_parse_stroid
  simp only [hdot, if_false, hrun, hi, hdrop, hsuf, hcpy, hres, hrc', List.length_nil,
    Nat.lt_irrefl, hidx, snmp_suboid_append, hfull]
  by_cases hs : 0 < syntax_code obj1.val.syntax_ ∧ ctx.pdu_type = SNMP_PDU_GET
  · simp [hs]
  · simp [hs]

/-- C11 (witness): with a schema that knows `sysDescr` as 1.3.6.1.2.1.1.1 with a
syntax, the token `sysDescr` gives 1.3.6.1.2.1.1.1.0 when the PDU type is Get and
1.3.6.1.2.1.1.1 when it is GetNext. -/
theorem parse_stroid_scalar_convention_witness :
    ((snmptools_parse_stroid lp64 (eval_collab lp64 0) (eval_ctx SNMP_PDU_GET) empty_object
        ("sysDescr".toList ++ [])).2.val.oid = [1, 3, 6, 1, 2, 1, 1, 1, 0]) ∧
      ((snmptools_parse_stroid lp64 (eval_collab lp64 0) (eval_ctx SNMP_PDU_GETNEXT) empty_object
        ("sysDescr".toList ++ [])).2.val.oid = [1, 3, 6, 1, 2, 1, 1, 1]) := by
  have h1 := parse_stroid_scalar_convention lp64 (eval_collab lp64 0) (eval_ctx SNMP_PDU_GET)
    empty_object (sysDescr_lookup empty_object "sysDescr".toList).2 "sysDescr".toList [] [] 1
    (by decide) (by decide) (by decide) (by decide) (by decide) (by decide) (by decide)
    (by decide)
  have h2 := parse_stroid_scalar_convention lp64 (eval_collab lp64 0) (eval_ctx SNMP_PDU_GETNEXT)
    empty_object (sysDescr_lookup empty_object "sysDescr".toList).2 "sysDescr".toList [] [] 1
    (by decide) (by decide) (by decide) (by decide) (by decide) (by decide) (by decide)
    (by decide)
  rw [h1, h2]
  exact ⟨by decide, by decide⟩

/-! ## C12: numeric OIDs are mode-independent -/

theorem isdigit_not_name_char (c : Char) (h : isdigit c = true) : name_char 0 c = false := by
  have h1 : isalpha c = false := by
    simp only [isdigit, isalpha, decide_eq_true_eq, decide_eq_false_iff_not] at h ⊢; omega
  have h2 : c ≠ '_' := by rintro rfl; revert h; decide
  simp [name_char, h1, h2]

/-- On a token that begins with a digit `snmptools_parse_stroid` returns NULL at the
test of the symbolic run and leaves the object alone. -/
theorem parse_stroid_digit (B : Build) (C : Collab) (ctx : snmp_toolinfo) (obj : snmp_object)
    (str : List Char) (h : isdigit (peek str) = true) :
    snmptools_parse_stroid B C ctx obj str = (none, obj) := by
  cases str with
  | nil => exact absurd h (by decide)
  | cons c cs =>
    have hc : isdigit c = true := h
    have hdot : c ≠ '.' := by rintro rfl; revert hc; decide
    have hrun : name_run 0 (c :: cs) = 0 := by
      rw [name_run_cons, isdigit_not_name_char c hc]; rfl
    unfold snmptools_parse_stroid
    simp [peek, hdot, hrun]

/-- C12: for every token that begins with a digit, `snmptools_parse_oid` gives the
same outcome with numeric-only mode set and unset, and in either mode it is the
outcome of the dotted-numeric parse `snmp_parse_numoid` of the whole token on the
object's OID: 1 on success, -1 on failure, with the OID as that parse left it. The
outcome does not involve symbolic name resolution. -/
theorem parse_oid_digit_token (B : Build) (C : Collab) (ctx : snmp_toolinfo) (obj : snmp_object)
    (str : List Char) (h : isdigit (peek str) = true) :
    snmptools_parse_oid B C { ctx with numeric := true } obj (some str)
        = snmptools_parse_oid B C { ctx with numeric := false } obj (some str) ∧
      snmptools_parse_oid B C ctx obj (some str)
        = (if (C.snmp_parse_numoid str obj.val.oid).1 < 0 then -1 else 1,
            { obj with val := { obj.val with oid := (C.snmp_parse_numoid str obj.val.oid).2 } }) := by
  have key : ∀ c : snmp_toolinfo, snmptools_parse_oid B C c obj (some str)
      = (if (C.snmp_parse_numoid str obj.val.oid).1 < 0 then -1 else 1,
          { obj with val := { obj.val with oid := (C.snmp_parse_numoid str obj.val.oid).2 } }) := by
    intro c
    unfold snmptools_parse_oid
    by_cases hn : c.numeric = true
    · by_cases hr : (C.snmp_parse_numoid str obj.val.oid).1 < 0 <;> simp [hn, hr]
    · by_cases hr : (C.snmp_parse_numoid str obj.val.oid).1 < 0 <;>
        simp [hn, parse_stroid_digit B C c obj str h, hr]
  exact ⟨by rw [key, key], key ctx⟩

/-- C12 (witness): the token `1.3.6.1.2.1.1.2.0` gives 1 and that OID whether or not
numeric-only mode is set. -/
theorem parse_oid_digit_token_witness :
    snmptools_parse_oid lp64 (eval_collab lp64 0)
        { eval_ctx SNMP_PDU_GET with numeric := true } empty_object
        (some "1.3.6.1.2.1.1.2.0".toList)
        = snmptools_parse_oid lp64 (eval_collab lp64 0)
            { eval_ctx SNMP_PDU_GET with numeric := false } empty_object
            (some "1.3.6.1.2.1.1.2.0".toList) ∧
      snmptools_parse_oid lp64 (eval_collab lp64 0) (eval_ctx SNMP_PDU_GET) empty_object
        (some "1.3.6.1.2.1.1.2.0".toList)
        = (1, object_of [1, 3, 6, 1, 2, 1, 1, 2, 0]) := by
  have h := parse_oid_digit_token lp64 (eval_collab lp64 0) (eval_ctx SNMP_PDU_GET) empty_object
    "1.3.6.1.2.1.1.2.0".toList (by decide)
  refine ⟨h.1, ?_⟩
  rw [h.2]
  decide

/-! ## C13: binding count and the protocol maximum -/

/-- Outside the assemblies: called on a PDU whose `SNMP_MAX_BINDINGS` = 100 slots are
all used, which `snmp_pdu_add_bindings` never hands to a hook
(`add_bindings_loop_guarded`), `snmpset_add_vbind` would not report a failure for an
unmarked Integer32 object: the guard `nbindings > SNMP_MAX_BINDINGS` lets the count 100
pass, the value and the OID go to the slot of index 100, the count becomes 101 and 101
is returned; `snmptool_add_vbind` has no guard. From the count 101 on
`snmpset_add_vbind` returns -1. -/
theorem add_vbind_overruns_full_pdu :
    (snmpset_add_vbind lp64
        { snmp_pdu_create (eval_ctx SNMP_PDU_SET) SNMP_PDU_SET with nbindings := 100 }
        ⟨0, none, ⟨[1, 3], SNMP_SYNTAX_INTEGER, { zero_values with integer := 7 }⟩⟩).1 = 101 ∧
      (snmpset_add_vbind lp64
        { snmp_pdu_create (eval_ctx SNMP_PDU_SET) SNMP_PDU_SET with nbindings := 100 }
        ⟨0, none, ⟨[1, 3], SNMP_SYNTAX_INTEGER, { zero_values with integer := 7 }⟩⟩).2.nbindings
          = 101 ∧
      binding (snmpset_add_vbind lp64
        { snmp_pdu_create (eval_ctx SNMP_PDU_SET) SNMP_PDU_SET with nbindings := 100 }
        ⟨0, none, ⟨[1, 3], SNMP_SYNTAX_INTEGER, { zero_values with integer := 7 }⟩⟩).2 100
          = ⟨[1, 3], SNMP_SYNTAX_INTEGER, { zero_values with integer := 7 }⟩ ∧
      (snmptool_add_vbind
        { snmp_pdu_create (eval_ctx SNMP_PDU_GET) SNMP_PDU_GET with nbindings := 100 }
        (object_of [1, 3])).1 = 101 ∧
      (snmptool_add_vbind
        { snmp_pdu_create (eval_ctx SNMP_PDU_GET) SNMP_PDU_GET with nbindings := 100 }
        (object_of [1, 3])).2.nbindings = 101 ∧
      (binding (snmptool_add_vbind
        { snmp_pdu_create (eval_ctx SNMP_PDU_GET) SNMP_PDU_GET with nbindings := 100 }
        (object_of [1, 3])).2 100).oid = [1, 3] ∧
      (snmpset_add_vbind lp64
        { snmp_pdu_create (eval_ctx SNMP_PDU_SET) SNMP_PDU_SET with nbindings := 101 }
        ⟨0, none, ⟨[1, 3], SNMP_SYNTAX_INTEGER, { zero_values with integer := 7 }⟩⟩).1 = -1 := by
  decide

/-! ## C14: Set access check -/

/-- In numeric-only mode `snmpset_parse_oid` fills in the value of the object only: the
descriptor is left as it was. -/
theorem set_parse_keeps_descriptor (B : Build) (L : Limits) (C : Collab) (S : SetCollab)
    (ctx : snmp_toolinfo) (obj : snmp_object) (argv : Option (List Char))
    (r : Int × snmp_object) (hn : ctx.numeric = true)
    (h : snmpset_parse_oid B L C S ctx obj argv = some r) : r.2.info = obj.info := by
  unfold snmpset_parse_oid at h
  cases argv with
  | none =>
    simp only [Option.some.injEq] at h
    subst h; rfl
  | some str =>
    simp only [hn, if_true] at h
    by_cases hr : (parse_pair_numoid_val B L C S str obj.val).1 < 0
    · rw [if_pos hr] at h
      simp only [Option.some.injEq] at h
      subst h; rfl
    · rw [if_neg hr] at h
      simp only [Option.some.injEq] at h
      subst h; rfl

/-- The context `snmp_object_add` leaves behind has the flags of the context it was
given, and every object of its queue was in the queue before or is the new object as
the parse function left it. -/
theorem object_add_flags (ctx : snmp_toolinfo)
    (func : snmp_toolinfo → snmp_object → Option (List Char) → Option (Int × snmp_object))
    (string : Option (List Char)) (r : Int × snmp_toolinfo)
    (h : snmp_object_add ctx func string = some r) :
    r.2.numeric = ctx.numeric ∧ r.2.errignore = ctx.errignore ∧
      ∀ o ∈ r.2.snmp_objectlist, o ∈ ctx.snmp_objectlist ∨
        ∃ p, func ctx ⟨0, none, zero_value⟩ string = some p ∧ o = p.2 := by
  unfold snmp_object_add at h
  cases hf : func ctx ⟨0, none, zero_value⟩ string with
  | none => rw [hf] at h; simp at h
  | some p =>
    rw [hf] at h
    simp only at h
    by_cases hp : p.1 < 0
    · rw [if_pos hp] at h
      simp only [Option.some.injEq] at h
      subst h
      exact ⟨rfl, rfl, fun o ho => Or.inl ho⟩
    · rw [if_neg hp] at h
      simp only [Option.some.injEq] at h
      subst h
      refine ⟨rfl, rfl, fun o ho => ?_⟩
      rcases List.mem_cons.mp ho with h1 | h1
      · exact Or.inr ⟨p, rfl, h1⟩
      · exact Or.inl h1

/-- The loop of `main` over the tokens of bsnmpset keeps the flags of the context, and
in numeric-only mode no object of the queue it builds has a descriptor. -/
theorem set_tokens_descriptor (B : Build) (L : Limits) (C : Collab) (S : SetCollab) :
    ∀ (tokens : List (List Char)) (ctx : snmp_toolinfo) (parsed : List (List Char))
      (r : Int × snmp_toolinfo × List (List Char)),
      (ctx.numeric = true → ∀ o ∈ ctx.snmp_objectlist, o.info = none) →
      main_parse_tokens B L C S program_e.BSNMPSET tokens ctx parsed = some r →
      r.2.1.numeric = ctx.numeric ∧ r.2.1.errignore = ctx.errignore ∧
        (r.2.1.numeric = true → ∀ o ∈ r.2.1.snmp_objectlist, o.info = none) := by
  intro tokens
  induction tokens with
  | nil =>
    intro ctx parsed r hq h
    simp only [main_parse_tokens, Option.some.injEq] at h
    subst h
    exact ⟨rfl, rfl, hq⟩
  | cons tok rest ih =>
    intro ctx parsed r hq h
    unfold main_parse_tokens at h
    cases ha : snmp_object_add ctx (main_parse_func B L C S program_e.BSNMPSET) (some tok) with
    | none => rw [ha] at h; simp at h
    | some a =>
      rw [ha] at h
      simp only at h
      have hf := object_add_flags ctx _ (some tok) a ha
      have hq1 : a.2.numeric = true → ∀ o ∈ a.2.snmp_objectlist, o.info = none := by
        intro hn o ho
        have hn0 : ctx.numeric = true := by rw [← hf.1]; exact hn
        rcases hf.2.2 o ho with h1 | ⟨p, hp, rfl⟩
        · exact hq hn0 o h1
        · have hp1 : snmpset_parse_oid B L C S ctx ⟨0, none, zero_value⟩ (some tok) = some p := by
            simpa [main_parse_func] using hp
          exact set_parse_keeps_descriptor B L C S ctx _ _ p hn0 hp1
      by_cases hneg : a.1 < 0
      · rw [if_pos hneg] at h
        simp only [Option.some.injEq] at h
        subst h
        exact ⟨hf.1, hf.2.1, hq1⟩
      · rw [if_neg hneg] at h
        have := ih a.2 _ r hq1 h
        exact ⟨this.1.trans hf.1, this.2.1.trans hf.2.1, this.2.2⟩

/-- C14: for every pending object of the queue that `main` builds for bsnmpset from
the tokens of the command line, starting from an empty queue: if the schema descriptor
of the object reports an access level below `SNMP_ACCESS_SET`, `snmpset_verify_vbind`
vetoes the object (returns -1) whenever the override flag is not set; and if the
descriptor reports `SNMP_ACCESS_SET` or more and the object is not a Counter64 under
version 1, the object is admitted (returns 1). The early return of numeric-only mode
in front of the access test does not matter here: in that mode `snmpset_parse_oid`
fills in the value only, so that no queued object has a descriptor
(`set_tokens_descriptor`). -/
theorem set_access_check_queued (B : Build) (L : Limits) (C : Collab) (S : SetCollab)
    (ctx0 : snmp_toolinfo) (tokens parsed : List (List Char))
    (r : Int × snmp_toolinfo × List (List Char)) (pdu : snmp_pdu) (obj : snmp_object)
    (info : snmp_oid2str)
    (hempty : ctx0.snmp_objectlist = [])
    (hparse : main_parse_tokens B L C S program_e.BSNMPSET tokens ctx0 parsed = some r)
    (hobj : obj ∈ r.2.1.snmp_objectlist) (hinfo : obj.info = some info) :
    (info.access < B.SNMP_ACCESS_SET → r.2.1.errignore = false →
        snmpset_verify_vbind B r.2.1 pdu obj = some (-1)) ∧
      (B.SNMP_ACCESS_SET ≤ info.access →
        ¬ (pdu.version = SNMP_V1 ∧ obj.val.syntax_ = SNMP_SYNTAX_COUNTER64) →
        snmpset_verify_vbind B r.2.1 pdu obj = some 1) := by
  have hinv := set_tokens_descriptor B L C S tokens ctx0 parsed r
    (fun _ o ho => by rw [hempty] at ho; simp at ho) hparse
  have hn : r.2.1.numeric = false := by
    cases hnum : r.2.1.numeric with
    | false => rfl
    | true =>
      have := hinv.2.2 hnum obj hobj
      rw [hinfo] at this
      simp at this
  constructor
  · intro hacc he
    unfold snmpset_verify_vbind
    by_cases hv : pdu.version = SNMP_V1 ∧ obj.val.syntax_ = SNMP_SYNTAX_COUNTER64
    · simp [hv]
    · simp [hv, he, hn, hinfo, hacc]
  · intro hacc hv
    unfold snmpset_verify_vbind
    have hna : ¬ (info.access < B.SNMP_ACCESS_SET) := by omega
    by_cases hf : r.2.1.numeric = true ∨ r.2.1.errignore = true
    · simp [hv, hf]
    · simp [hv, hf, hinfo, hna]

/-- C14 (witness): the token `sysDescr.0=ab` in symbolic mode, with a schema that knows
`sysDescr` as read-only, queues an object with that descriptor, and the object is
vetoed without the override flag. -/
theorem set_access_check_queued_witness :
    main_parse_tokens lp64 bsnmp_limits (octets_collab lp64) eval_set_collab
        program_e.BSNMPSET ["sysDescr.0=ab".toList] (eval_ctx SNMP_PDU_SET) []
      = some (1,
          { eval_ctx SNMP_PDU_SET with
            snmp_objectlist := [⟨0, some sysDescr_info,
              ⟨[1, 3, 6, 1, 2, 1, 1, 1, 0], SNMP_SYNTAX_OCTETSTRING,
                { zero_values with octetstring := [97, 98] }⟩⟩] },
          ["sysDescr.0=ab".toList]) ∧
      snmpset_verify_vbind lp64
          { eval_ctx SNMP_PDU_SET with
            snmp_objectlist := [⟨0, some sysDescr_info,
              ⟨[1, 3, 6, 1, 2, 1, 1, 1, 0], SNMP_SYNTAX_OCTETSTRING,
                { zero_values with octetstring := [97, 98] }⟩⟩] }
          (snmp_pdu_create (eval_ctx SNMP_PDU_SET) SNMP_PDU_SET)
          ⟨0, some sysDescr_info,
            ⟨[1, 3, 6, 1, 2, 1, 1, 1, 0], SNMP_SYNTAX_OCTETSTRING,
              { zero_values with octetstring := [97, 98] }⟩⟩
        = some (-1) :=
  ⟨by decide,
    (set_access_check_queued lp64 bsnmp_limits (octets_collab lp64) eval_set_collab
      (eval_ctx SNMP_PDU_SET) ["sysDescr.0=ab".toList] []
      (1,
        { eval_ctx SNMP_PDU_SET with
          snmp_objectlist := [⟨0, some sysDescr_info,
            ⟨[1, 3, 6, 1, 2, 1, 1, 1, 0], SNMP_SYNTAX_OCTETSTRING,
              { zero_values with octetstring := [97, 98] }⟩⟩] },
        ["sysDescr.0=ab".toList])
      (snmp_pdu_create (eval_ctx SNMP_PDU_SET) SNMP_PDU_SET)
      ⟨0, some sysDescr_info,
        ⟨[1, 3, 6, 1, 2, 1, 1, 1, 0], SNMP_SYNTAX_OCTETSTRING,
          { zero_values with octetstring := [97, 98] }⟩⟩
      sysDescr_info rfl (by decide) (by decide) rfl).1 (by decide) (by decide)⟩

/-! ## C15: version veto -/

/-- C15: `snmpget_verify_vbind` returns -1 exactly when the PDU version is 1 and the
object's syntax is Counter64 and returns 1 otherwise; under the same condition
`snmpset_verify_vbind` returns -1 whatever the context, so regardless of the
numeric-mode and override flags. -/
theorem version_veto (B : Build) (ctx : snmp_toolinfo) (pdu : snmp_pdu) (obj : snmp_object) :
    (snmpget_verify_vbind ctx pdu obj
        = if pdu.version = SNMP_V1 ∧ obj.val.syntax_ = SNMP_SYNTAX_COUNTER64 then -1 else 1) ∧
      (snmpget_verify_vbind ctx pdu obj < 0
        ↔ pdu.version = SNMP_V1 ∧ obj.val.syntax_ = SNMP_SYNTAX_COUNTER64) ∧
      (pdu.version = SNMP_V1 ∧ obj.val.syntax_ = SNMP_SYNTAX_COUNTER64 →
        ∀ ctx1 : snmp_toolinfo, snmpset_verify_vbind B ctx1 pdu obj = some (-1)) := by
  refine ⟨rfl, ?_, ?_⟩
  · unfold snmpget_verify_vbind
    by_cases hv : pdu.version = SNMP_V1 ∧ obj.val.syntax_ = SNMP_SYNTAX_COUNTER64
    · simp [hv]
    · simp [hv]
  · intro hv ctx1
    unfold snmpset_verify_vbind
    simp [hv]

/-- C15 (witness): a Counter64 object under version 1 is vetoed by the Set validator
even with numeric-only mode and the override flag set. -/
theorem version_veto_witness :
    snmpset_verify_vbind lp64 ⟨true, true, false, 0, SNMP_PDU_SET, 1, 0, SNMP_V1, []⟩
        { snmp_pdu_create (eval_ctx SNMP_PDU_SET) SNMP_PDU_SET with version := SNMP_V1 }
        ⟨0, none, { zero_value with syntax_ := SNMP_SYNTAX_COUNTER64 }⟩ = some (-1) :=
  (version_veto lp64 (eval_ctx SNMP_PDU_SET)
    { snmp_pdu_create (eval_ctx SNMP_PDU_SET) SNMP_PDU_SET with version := SNMP_V1 }
    ⟨0, none, { zero_value with syntax_ := SNMP_SYNTAX_COUNTER64 }⟩).2.2 (by decide)
    ⟨true, true, false, 0, SNMP_PDU_SET, 1, 0, SNMP_V1, []⟩

/-! ## C16: no partial PDU is sent -/

/-- C16: in the loops of `snmptool_get` and `snmptool_set`, whenever the assembly
returns 0 or a negative value, the loop ends in the state it was in: no request is
passed to `snmp_dialog` (the list of sent requests is unchanged and the agent's answers
are all still unasked for), nothing is printed and Retry-by-Elimination is not
invoked. -/
theorem no_partial_pdu (B : Build) (C : Collab) (script : List (Int × snmp_pdu)) (req : snmp_pdu)
    (st : run_state) (a : Int × snmp_pdu) (ha : a.1 ≤ 0) :
    (get_assemble st.ctx req = some a →
        snmptool_get_loop C script req st = some { st with agent := script }) ∧
      (set_assemble B st.ctx req = some a →
        snmptool_set_loop B C script req st = some { st with agent := script }) := by
  constructor
  · intro h
    cases script <;> simp [snmptool_get_loop, h, ha]
  · intro h
    cases script <;> simp [snmptool_set_loop, h, ha]

/-- C16 (witness): under version 1 a queue holding a Counter64 object is vetoed (the
assembly returns -1) and `snmptool_get` leaves the agent's answer unasked for; with an
empty queue the assembly of `snmptool_set` returns 0 and nothing is sent either. -/
theorem no_partial_pdu_witness :
    snmptool_get_loop (eval_collab lp64 0) [(0, response_of [1, 3])]
        (snmp_pdu_create v1_counter64_ctx SNMP_PDU_GET) (start_state v1_counter64_ctx [])
      = some { start_state v1_counter64_ctx [] with agent := [(0, response_of [1, 3])] } ∧
      snmptool_set_loop lp64 (eval_collab lp64 0) [(0, response_of [1, 3])]
        (snmp_pdu_create (eval_ctx SNMP_PDU_SET) SNMP_PDU_SET)
        (start_state (eval_ctx SNMP_PDU_SET) [])
      = some { start_state (eval_ctx SNMP_PDU_SET) [] with agent := [(0, response_of [1, 3])] } :=
  ⟨(no_partial_pdu lp64 (eval_collab lp64 0) [(0, response_of [1, 3])]
      (snmp_pdu_create v1_counter64_ctx SNMP_PDU_GET) (start_state v1_counter64_ctx [])
      (-1, snmp_pdu_create v1_counter64_ctx SNMP_PDU_GET) (by decide)).1 (by decide),
    (no_partial_pdu lp64 (eval_collab lp64 0) [(0, response_of [1, 3])]
      (snmp_pdu_create (eval_ctx SNMP_PDU_SET) SNMP_PDU_SET)
      (start_state (eval_ctx SNMP_PDU_SET) [])
      (0, snmp_pdu_create (eval_ctx SNMP_PDU_SET) SNMP_PDU_SET) (by decide)).2 (by decide)⟩

/-! ## C17: clean Get -/

/-- Admission of an unmarked object by `snmptool_add_vbind` on a PDU with fewer than
`SNMP_MAX_BINDINGS` bindings: the count goes up by one and is returned. -/
theorem add_vbind_unmarked (pdu : snmp_pdu) (obj : snmp_object) (h : obj.error = 0)
    (hn : pdu.nbindings < SNMP_MAX_BINDINGS) :
    (snmptool_add_vbind pdu obj).1 = ((pdu.nbindings + 1 : Nat) : Int) ∧
      (snmptool_add_vbind pdu obj).2.nbindings = pdu.nbindings + 1 ∧
      (snmptool_add_vbind pdu obj).2.version = pdu.version := by
  have hn' : pdu.nbindings < 100 := hn
  have h0 : ¬ (0 < obj.error) := by omega
  have hu : to_uint32 (pdu.nbindings + 1) = pdu.nbindings + 1 :=
    to_uint32_id _ (by omega)
  have hi : to_int32 ((pdu.nbindings + 1 : Nat) : Int) = ((pdu.nbindings + 1 : Nat) : Int) :=
    to_int32_nat _ (by omega)
  refine ⟨?_, ?_, ?_⟩
  · simp only [snmptool_add_vbind, h0, if_false, hu]
    exact hi
  · simp only [snmptool_add_vbind, h0, if_false, hu]
  · simp only [snmptool_add_vbind, h0, if_false]

theorem get_assemble_loop_unmarked (ctx : snmp_toolinfo) (l : List snmp_object) :
    ∀ (pdu : snmp_pdu) (n : Nat),
      (∀ o ∈ l, o.error = 0 ∧ ¬ (pdu.version = SNMP_V1 ∧ o.val.syntax_ = SNMP_SYNTAX_COUNTER64)) →
      pdu.nbindings = n → n < SNMP_MAX_BINDINGS →
      ∃ (m : Int) (pdu1 : snmp_pdu),
        add_bindings_loop ctx (some get_validator) snmptool_add_vbind SNMP_MAX_BINDINGS l pdu n
            = some (m, pdu1) ∧
          (n : Int) ≤ m ∧ (l ≠ [] → (n : Int) < m) := by
  induction l with
  | nil => intro pdu n _ _ _; exact ⟨n, pdu, rfl, le_refl _, fun h => absurd rfl h⟩
  | cons obj rest ih =>
    intro pdu n hall hnb hlt
    obtain ⟨herr, hver⟩ := hall obj (by simp)
    have hverdict : validator_verdict ctx (some get_validator) pdu obj = some false := by
      simp [validator_verdict, herr, get_validator, snmpget_verify_vbind, hver]
    obtain ⟨h1, h2, h3⟩ := add_vbind_unmarked pdu obj herr (by omega)
    rw [hnb] at h1 h2
    have hneg : ¬ ((snmptool_add_vbind pdu obj).1 < 0) := by rw [h1]; omega
    have hpos : 0 < (snmptool_add_vbind pdu obj).1 := by rw [h1]; omega
    unfold add_bindings_loop
    simp only [hverdict, hneg, if_false, hpos, if_true]
    by_cases hmax : (SNMP_MAX_BINDINGS : Int) ≤ (n : Int) + 1
    · simp only [hmax, if_true]
      exact ⟨n + 1, _, rfl, by omega, fun _ => by omega⟩
    · simp only [hmax, if_false]
      have hlt' : n + 1 < SNMP_MAX_BINDINGS := by
        have : ¬ ((SNMP_MAX_BINDINGS : Nat) ≤ n + 1) := by
          intro hc; apply hmax; exact_mod_cast hc
        omega
      obtain ⟨m, pdu1, hm, hle, _⟩ := ih (snmptool_add_vbind pdu obj).2 (n + 1)
        (fun o ho => by
          rw [h3]
          exact hall o (by simp [ho]))
        h2 hlt'
      refine ⟨m, pdu1, ?_, by push_cast at hle; omega, fun _ => by push_cast at hle; omega⟩
      rw [← hm]
      norm_cast

/-- C17 (counterexample): under version 1 the non-empty queue holding one unmarked
Counter64 object is vetoed at assembly: although the agent would answer the first
dialog with a response that passes the check, `snmptool_get` sends no request and
emits nothing. -/
theorem clean_get_fails_on_vetoed_queue :
    v1_counter64_ctx.snmp_objectlist ≠ [] ∧
      (∀ o ∈ v1_counter64_ctx.snmp_objectlist, o.error = 0) ∧
      snmptool_get (eval_collab lp64 0) v1_counter64_ctx [(0, response_of [1, 3])]
        = some (0, { start_state v1_counter64_ctx [] with agent := [(0, response_of [1, 3])] }) := by
  decide

/-- C17 (amended): for every non-empty queue of unmarked objects none of which is a
Counter64 under version 1, the first assembly of `snmptool_get` places at least one
binding, and if the first dialog does not fail (its return code is not -1) and its
response passes the consistency check against the request, then `snmptool_get` sends
exactly that one request, emits the response exactly once as a normal response, never
invokes Retry-by-Elimination, leaves the agent's later answers unasked for and
returns 0. -/
theorem clean_get (C : Collab) (ctx : snmp_toolinfo) (rc : Int) (resp : snmp_pdu)
    (rest : List (Int × snmp_pdu)) (hq : ctx.snmp_objectlist ≠ [])
    (hun : ∀ o ∈ ctx.snmp_objectlist, o.error = 0)
    (hver : ∀ o ∈ ctx.snmp_objectlist,
      ¬ (ctx.version = SNMP_V1 ∧ o.val.syntax_ = SNMP_SYNTAX_COUNTER64))
    (hrc : rc ≠ -1) :
    ∃ (n : Int) (pdu : snmp_pdu),
      get_assemble ctx (snmp_pdu_create ctx SNMP_PDU_GET) = some (n, pdu) ∧ 0 < n ∧
        (C.snmp_pdu_check resp (get_request ctx pdu) = SNMP_CODE_OK →
          snmptool_get C ctx ((rc, resp) :: rest)
            = some (0, ⟨ctx, [get_request ctx pdu], [Emitted.resp resp], [], rest⟩)) := by
  obtain ⟨m, pdu1, hm, _, hlt⟩ := get_assemble_loop_unmarked ctx ctx.snmp_objectlist
    (snmp_pdu_create ctx SNMP_PDU_GET) 0 (fun o ho => ⟨hun o ho, hver o ho⟩) rfl (by decide)
  have hpos : 0 < m := by have := hlt hq; simpa using this
  have hasm : get_assemble ctx (snmp_pdu_create ctx SNMP_PDU_GET) = some (m, pdu1) := by
    unfold get_assemble snmp_pdu_add_bindings
    rw [← hm]
    norm_cast
  refine ⟨m, pdu1, hasm, hpos, ?_⟩
  intro hclean
  have hnle : ¬ (m ≤ 0) := by omega
  simp [snmptool_get, snmptool_get_loop, start_state, hasm, hnle, hrc, hclean]

/-- C17 (witness): the numeric OID 1.3.6.1.2.1.1.2.0 under version 2 with an agent
whose first answer is clean: one request with exactly one binding, that OID, is sent,
the response is emitted once, and 0 is returned. -/
theorem clean_get_witness :
    ∃ req : snmp_pdu,
      snmptool_get (eval_collab lp64 0)
          (queue_ctx SNMP_PDU_GET true [object_of [1, 3, 6, 1, 2, 1, 1, 2, 0]])
          [(0, response_of [1, 3, 6, 1, 2, 1, 1, 2, 0])]
        = some (0, ⟨queue_ctx SNMP_PDU_GET true [object_of [1, 3, 6, 1, 2, 1, 1, 2, 0]], [req],
            [Emitted.resp (response_of [1, 3, 6, 1, 2, 1, 1, 2, 0])], [], []⟩) ∧
        req.nbindings = 1 ∧ first_oid req = [1, 3, 6, 1, 2, 1, 1, 2, 0] := by
  obtain ⟨n, pdu, hasm, _, hrun⟩ := clean_get (eval_collab lp64 0)
    (queue_ctx SNMP_PDU_GET true [object_of [1, 3, 6, 1, 2, 1, 1, 2, 0]]) 0
    (response_of [1, 3, 6, 1, 2, 1, 1, 2, 0]) [] (by decide) (by decide) (by decide) (by decide)
  have hc : get_assemble (queue_ctx SNMP_PDU_GET true [object_of [1, 3, 6, 1, 2, 1, 1, 2, 0]])
      (snmp_pdu_create (queue_ctx SNMP_PDU_GET true [object_of [1, 3, 6, 1, 2, 1, 1, 2, 0]])
        SNMP_PDU_GET)
      = some (1, (snmptool_add_vbind
          (snmp_pdu_create (queue_ctx SNMP_PDU_GET true [object_of [1, 3, 6, 1, 2, 1, 1, 2, 0]])
            SNMP_PDU_GET) (object_of [1, 3, 6, 1, 2, 1, 1, 2, 0])).2) := by
    decide
  rw [hasm] at hc
  simp only [Option.some.injEq, Prod.mk.injEq] at hc
  refine ⟨get_request (queue_ctx SNMP_PDU_GET true [object_of [1, 3, 6, 1, 2, 1, 1, 2, 0]]) pdu,
    hrun rfl, ?_, ?_⟩
  · rw [hc.2]; decide
  · rw [hc.2]; decide

/-! ## C18: completion status of Get and Set -/

/-- C18 (the code at the failing inputs): `snmptool_get` and `snmptool_set` return 0
when the run ends with an unresolved error. For Get under version 2 with the queue
`1.3`: the agent does not answer (the one request sent gets no response); the agent
answers with an error response while retry is disabled (the error response is printed
and the run stops); and the assembly fails under version 1 on a Counter64 object. For
Set in numeric mode with an Integer32 object: the dialog fails, and the agent answers
with an error response while retry is disabled. -/
theorem get_set_return_zero_on_error :
    (snmptool_get (strict_collab lp64) (queue_ctx SNMP_PDU_GET false [object_of [1, 3]]) []).map
        (fun r => (r.1, r.2.sent.length, r.2.emitted)) = some (0, 1, []) ∧
      (snmptool_get (strict_collab lp64) (queue_ctx SNMP_PDU_GET false [object_of [1, 3]])
          [(0, error_response [1, 3] 2 1)]).map
        (fun r => (r.1, r.2.sent.length, r.2.emitted))
        = some (0, 1, [Emitted.err_resp (error_response [1, 3] 2 1)]) ∧
      (snmptool_get (strict_collab lp64) v1_counter64_ctx [(0, response_of [1, 3])]).map
        (fun r => (r.1, r.2.sent.length, r.2.emitted)) = some (0, 0, []) ∧
      (snmptool_set lp64 (strict_collab lp64)
          { queue_ctx SNMP_PDU_SET false
              [⟨0, none, ⟨[1, 3], SNMP_SYNTAX_INTEGER, { zero_values with integer := 7 }⟩⟩]
            with numeric := true }
          [(-1, response_of [1, 3])]).map
        (fun r => (r.1, r.2.sent.length, r.2.emitted)) = some (0, 1, []) ∧
      (snmptool_set lp64 (strict_collab lp64)
          { queue_ctx SNMP_PDU_SET false
              [⟨0, none, ⟨[1, 3], SNMP_SYNTAX_INTEGER, { zero_values with integer := 7 }⟩⟩]
            with numeric := true }
          [(0, error_response [1, 3] 17 1)]).map
        (fun r => (r.1, r.2.sent.length, r.2.emitted))
        = some (0, 1, [Emitted.err_resp (error_response [1, 3] 17 1)]) := by
  decide

/-! ## C19: completion status of Walk -/

/-- C19 (the code at the failing inputs): `snmptool_walk` returns 0 although its only
root 1.3 was abandoned. With an agent that never answers, the GetNext dialog and the
fallback Get both fail and nothing is emitted; with an agent whose first answer is an
error response, the error is printed and the root is abandoned. In both runs the root
is removed from the queue, the next assembly returns 0 and the status is 0. -/
theorem walk_returns_zero_on_abandoned_root :
    (snmptool_walk (strict_collab lp64) (queue_ctx SNMP_PDU_GETNEXT false [object_of [1, 3]])
        []).map (fun r => (r.1, r.2.emitted, r.2.ctx.snmp_objectlist)) = some (0, [], []) ∧
      (snmptool_walk (strict_collab lp64) (queue_ctx SNMP_PDU_GETNEXT false [object_of [1, 3]])
        [(0, error_response [1, 3] 5 1)]).map
          (fun r => (r.1, r.2.emitted, r.2.ctx.snmp_objectlist))
        = some (0, [Emitted.err_resp (error_response [1, 3] 5 1)], []) := by
  decide

/-! ## C20: the binding handed to Retry-by-Elimination -/

theorem get_loop_retried (C : Collab) (script : List (Int × snmp_pdu)) :
    ∀ (req : snmp_pdu) (st st1 : run_state), snmptool_get_loop C script req st = some st1 →
      ∃ k, st1.retried = st.retried ++ (script.take k).map (fun p => seterror_args p.2) := by
  induction script with
  | nil =>
    intro req st st1 h
    refine ⟨0, ?_⟩
    unfold snmptool_get_loop at h
    split at h
    · simp at h
    · split at h
      · simp at h; rw [← h]; simp
      · simp at h; rw [← h]; simp
  | cons p rest ih =>
    intro req st st1 h
    obtain ⟨rc, resp⟩ := p
    unfold snmptool_get_loop at h
    split at h
    · simp at h
    · split at h
      · simp at h; exact ⟨0, by rw [← h]; simp⟩
      · simp only at h
        split at h
        · simp at h; exact ⟨0, by rw [← h]; simp⟩
        · split at h
          · simp at h; exact ⟨0, by rw [← h]; simp⟩
          · split at h
            · simp at h; exact ⟨0, by rw [← h]; simp⟩
            · split at h
              · simp at h; exact ⟨1, by rw [← h]; simp [seterror_args]⟩
              · obtain ⟨k, hk⟩ := ih _ _ _ h
                exact ⟨k + 1, by rw [hk]; simp [seterror_args]⟩

theorem set_loop_retried (B : Build) (C : Collab) (script : List (Int × snmp_pdu)) :
    ∀ (req : snmp_pdu) (st st1 : run_state), snmptool_set_loop B C script req st = some st1 →
      ∃ k, st1.retried = st.retried ++ (script.take k).map (fun p => seterror_args p.2) := by
  induction script with
  | nil =>
    intro req st st1 h
    refine ⟨0, ?_⟩
    unfold snmptool_set_loop at h
    split at h
    · simp at h
    · split at h
      · simp at h; rw [← h]; simp
      · simp at h; rw [← h]; simp
  | cons p rest ih =>
    intro req st st1 h
    obtain ⟨rc, resp⟩ := p
    unfold snmptool_set_loop at h
    split at h
    · simp at h
    · split at h
      · simp at h; exact ⟨0, by rw [← h]; simp⟩
      · simp only at h
        split at h
        · simp at h; exact ⟨0, by rw [← h]; simp⟩
        · split at h
          · simp at h; exact ⟨0, by rw [← h]; simp⟩
          · split at h
            · simp at h; exact ⟨0, by rw [← h]; simp⟩
            · split at h
              · simp at h; exact ⟨1, by rw [← h]; simp [seterror_args]⟩
              · obtain ⟨k, hk⟩ := ih _ _ _ h
                exact ⟨k + 1, by rw [hk]; simp [seterror_args]⟩

/-- C20 (counterexample): Get with retry-on-error and the queue 1.3.6.1.2.1.1.2.0,
1.3. The one request sent carries 1.3.6.1.2.1.1.2.0 as its first binding; the agent
answers with an error response of error-index 1 whose first binding is named 9.9. The
binding handed to `snmp_object_seterror` is the response's binding 9.9, not the first
binding of the request. -/
theorem retry_hands_over_response_binding :
    (snmptool_get (strict_collab lp64)
        (queue_ctx SNMP_PDU_GET true [object_of [1, 3, 6, 1, 2, 1, 1, 2, 0], object_of [1, 3]])
        [(0, error_response [9, 9] 2 1)]).map
      (fun r => (r.2.sent.map (fun q => (binding_at q 0).oid), r.2.retried.map (fun e => e.1.oid)))
      = some ([[1, 3, 6, 1, 2, 1, 1, 2, 0]], [[9, 9]]) := by
  decide

/-- C20 (amended): in every run of the loops of `snmptool_get` and `snmptool_set` the
calls of Retry-by-Elimination are made, in order, for the first `k` answers of the
agent (for some `k`), and the binding handed over after an error response with
error-index i is the i-th binding of that response PDU, `resp.bindings[i - 1]`,
together with the response's error-status. -/
theorem retry_targets_response_binding (B : Build) (C : Collab) (script : List (Int × snmp_pdu))
    (req : snmp_pdu) (st st1 : run_state) :
    (snmptool_get_loop C script req st = some st1 →
        ∃ k, st1.retried = st.retried ++ (script.take k).map (fun p => seterror_args p.2)) ∧
      (snmptool_set_loop B C script req st = some st1 →
        ∃ k, st1.retried = st.retried ++ (script.take k).map (fun p => seterror_args p.2)) :=
  ⟨get_loop_retried C script req st st1, set_loop_retried B C script req st st1⟩

/-- C20 (witness): Get with retry-on-error and the queue 1.3.6.1.2.1.1.2.0, 1.3; the
agent first answers with an error response for 1.3 (error-index 2) and then with a
clean response. Retry-by-Elimination is invoked once, with the second binding of the
error response. -/
theorem retry_targets_response_binding_witness :
    ∃ st1 : run_state,
      snmptool_get_loop (strict_collab lp64)
          [(0, ⟨SNMP_V2c, SNMP_PDU_RESPONSE, 0, 2, 2, 2,
              [⟨[1, 3, 6, 1, 2, 1, 1, 2, 0], SNMP_SYNTAX_NULL, zero_values⟩,
                ⟨[1, 3], SNMP_SYNTAX_NULL, zero_values⟩]⟩),
            (0, response_of [1, 3, 6, 1, 2, 1, 1, 2, 0])]
          (snmp_pdu_create (eval_ctx SNMP_PDU_GET) SNMP_PDU_GET)
          (start_state (queue_ctx SNMP_PDU_GET true
            [object_of [1, 3, 6, 1, 2, 1, 1, 2, 0], object_of [1, 3]]) []) = some st1 ∧
        st1.retried = [(⟨[1, 3], SNMP_SYNTAX_NULL, zero_values⟩, 2)] ∧
        st1.sent.length = 2 ∧
        ∃ k, st1.retried = [] ++
          (List.take k [(0, ⟨SNMP_V2c, SNMP_PDU_RESPONSE, 0, 2, 2, 2,
              [⟨[1, 3, 6, 1, 2, 1, 1, 2, 0], SNMP_SYNTAX_NULL, zero_values⟩,
                ⟨[1, 3], SNMP_SYNTAX_NULL, zero_values⟩]⟩),
            ((0 : Int), response_of [1, 3, 6, 1, 2, 1, 1, 2, 0])]).map
            (fun p => seterror_args p.2) := by
  have hrun : ∃ st1 : run_state,
      snmptool_get_loop (strict_collab lp64)
          [(0, ⟨SNMP_V2c, SNMP_PDU_RESPONSE, 0, 2, 2, 2,
              [⟨[1, 3, 6, 1, 2, 1, 1, 2, 0], SNMP_SYNTAX_NULL, zero_values⟩,
                ⟨[1, 3], SNMP_SYNTAX_NULL, zero_values⟩]⟩),
            (0, response_of [1, 3, 6, 1, 2, 1, 1, 2, 0])]
          (snmp_pdu_create (eval_ctx SNMP_PDU_GET) SNMP_PDU_GET)
          (start_state (queue_ctx SNMP_PDU_GET true
            [object_of [1, 3, 6, 1, 2, 1, 1, 2, 0], object_of [1, 3]]) []) = some st1 ∧
        st1.retried = [(⟨[1, 3], SNMP_SYNTAX_NULL, zero_values⟩, 2)] ∧
        st1.sent.length = 2 := by
    refine ⟨_, rfl, ?_, ?_⟩ <;> decide
  obtain ⟨st1, h1, h2, h3⟩ := hrun
  exact ⟨st1, h1, h2, h3,
    (retry_targets_response_binding lp64 (strict_collab lp64) _ _ _ st1).1 h1⟩

/-! ## C21: Retry-by-Elimination and the number of exchanges -/

/-- A call of Retry-by-Elimination that marks an object with a positive status takes
exactly one object out of those the admission hooks still place. -/
theorem seterror_positive_decreases (oid : asn_oid) (status : Int) (h : 0 < status) :
    ∀ l l1 : List snmp_object, seterror_list oid status l = some l1 →
      admitted_count l1 + 1 = admitted_count l := by
  intro l
  induction l with
  | nil => intro l1 h1; simp [seterror_list] at h1
  | cons obj rest ih =>
    intro l1 h1
    unfold seterror_list at h1
    split at h1
    · rename_i hc
      simp only [Option.some.injEq] at h1
      subst h1
      have h0 : ¬ (0 < obj.error) := by omega
      simp [admitted_count, List.countP_cons, h, hc.1]
    · cases hr : seterror_list oid status rest with
      | none => simp [hr] at h1
      | some l2 =>
        simp only [hr, Option.map_some', Option.some.injEq] at h1
        subst h1
        have := ih l2 hr
        simp only [admitted_count, List.countP_cons] at this ⊢
        omega

/-- C21 (the code at the failing input): Get and Set with retry-on-error and a queue
of one object, 1.3. The agent answers every request with a response that fails the
consistency check (it carries two bindings) and whose error status is 0. Each call of
Retry-by-Elimination lets the loop continue and leaves the object among those the
admission hooks place (they skip an object only when its marker is above 0), so the
same request is sent again: four requests are sent for a queue of one object, as many
as the agent has answers plus one, and Retry-by-Elimination is invoked three times. -/
theorem retry_keeps_object_on_zero_status :
    (snmptool_get (count_collab lp64) (queue_ctx SNMP_PDU_GET true [object_of [1, 3]])
        [(0, two_binding_response [1, 3] [1, 4]), (0, two_binding_response [1, 3] [1, 4]),
          (0, two_binding_response [1, 3] [1, 4])]).map
      (fun r => (r.2.sent.length, r.2.retried.map (fun e => (e.1.oid, e.2)),
        admitted_count r.2.ctx.snmp_objectlist))
      = some (4, [([1, 3], 0), ([1, 3], 0), ([1, 3], 0)], 1) ∧
    (snmptool_set lp64 (count_collab lp64) (set_ctx 0 true [integer_object [1, 3] 5])
        [(0, two_binding_response [1, 3] [1, 4]), (0, two_binding_response [1, 3] [1, 4]),
          (0, two_binding_response [1, 3] [1, 4])]).map
      (fun r => (r.2.sent.length, r.2.retried.map (fun e => (e.1.oid, e.2)),
        admitted_count r.2.ctx.snmp_objectlist))
      = some (4, [([1, 3], 0), ([1, 3], 0), ([1, 3], 0)], 1) :=
  ⟨by decide, by decide⟩

/-! ## C22: the consistency check in Set and in Get -/

/-- C22 (the code at the failing input): `snmptool_get` calls
`snmp_pdu_check(&resp, &req)`, `snmptool_set` calls `snmp_pdu_check(&req, &resp)`. With
a check that reads its arguments in the roles the header declares (request first,
response second) the same error response, status 2 for the binding 1.3, is classified
as clean by Get, which prints it as a normal response, and as failed by Set, which
prints it as an error response. -/
theorem set_check_roles_differ_from_get :
    (snmptool_get (declared_collab lp64) (queue_ctx SNMP_PDU_GET false [object_of [1, 3]])
        [(0, error_response [1, 3] 2 1)]).map (fun r => r.2.emitted)
      = some [Emitted.resp (error_response [1, 3] 2 1)] ∧
    (snmptool_set lp64 (declared_collab lp64) (set_ctx 0 false [integer_object [1, 3] 5])
        [(0, error_response [1, 3] 2 1)]).map (fun r => r.2.emitted)
      = some [Emitted.err_resp (error_response [1, 3] 2 1)] :=
  ⟨by decide, by decide⟩

/-! ## C23: what the leaf fallback of Walk prints -/

set_option maxRecDepth 10000 in
/-- C23 (the code at the failing input): Walk of the root 1.3 against an agent whose
first GetNext answer, 1.4, lies outside the subtree, so that nothing is printed by the
GetNext loop and the fallback Get is sent. A clean answer to the fallback Get is handed
to `snmp_output_err_resp`, and an answer that fails the check (error status 2) is
handed to `snmp_output_resp`: the two printers are exchanged. -/
theorem walk_fallback_output_swapped :
    (snmptool_walk (strict_collab lp64) (queue_ctx SNMP_PDU_GETNEXT false [object_of [1, 3]])
        [(0, response_of [1, 4]), (0, response_of [1, 3])]).map (fun r => r.2.emitted)
      = some [Emitted.err_resp (response_of [1, 3])] ∧
    (snmptool_walk (strict_collab lp64) (queue_ctx SNMP_PDU_GETNEXT false [object_of [1, 3]])
        [(0, response_of [1, 4]), (0, error_response [1, 3] 2 1)]).map (fun r => r.2.emitted)
      = some [Emitted.resp (error_response [1, 3] 2 1)] :=
  ⟨by decide, by decide⟩

/-! ## C24: Walk stays inside the subtree -/

/-- In the GetNext loop every response handed to `snmp_output_resp` has the root as a
prefix of its first-binding OID. -/
theorem walk_loop_emits_in_subtree (C : Collab) (ctx : snmp_toolinfo) (root : asn_oid)
    (script : List (Int × snmp_pdu)) :
    ∀ (req : snmp_pdu) (outputs : Int) (out : List Emitted) (r : snmp_pdu),
      Emitted.resp r ∈ (snmptool_walk_loop C ctx root script req outputs out).emitted →
      Emitted.resp r ∈ out ∨ in_subtree root r = true := by
  induction script with
  | nil => intro req outputs out r h; left; simpa [snmptool_walk_loop] using h
  | cons p rest ih =>
    intro req outputs out r h
    obtain ⟨rc, resp⟩ := p
    unfold snmptool_walk_loop at h
    split at h
    · left; exact h
    · split at h
      · left; simpa using h
      · split at h
        · left; exact h
        · rename_i hsub
          have hin : in_subtree root resp = true := by
            simpa [in_subtree, first_oid] using hsub
          split at h
          · simp only [List.mem_append, List.mem_singleton, Emitted.resp.injEq] at h
            rcases h with h | h
            · left; exact h
            · right; rw [h]; exact hin
          · rcases ih _ _ _ r h with h1 | h1
            · simp only [List.mem_append, List.mem_singleton, Emitted.resp.injEq] at h1
              rcases h1 with h1 | h1
              · left; exact h1
              · right; rw [h1]; exact hin
            · right; exact h1

set_option maxRecDepth 10000 in
/-- C24 (the code at the failing input): Walk of the root 1.3. The first GetNext
answer, 1.4, ends the loop with nothing printed; the answer to the fallback Get is an
error response for the name 9.9. The fallback hands it to `snmp_output_resp`, the
printer of normal responses, although 1.3 is not a prefix of 9.9. -/
theorem walk_fallback_emits_outside_root :
    (snmptool_walk (strict_collab lp64) (queue_ctx SNMP_PDU_GETNEXT false [object_of [1, 3]])
        [(0, response_of [1, 4]), (0, error_response [9, 9] 2 1)]).map (fun r => r.2.emitted)
      = some [Emitted.resp (error_response [9, 9] 2 1)] ∧
    in_subtree [1, 3] (error_response [9, 9] 2 1) = false :=
  ⟨by decide, by decide⟩

/-! ## C25: the GetNext loop comes to an end -/

theorem oid_bounded_iff (B : Build) (o : asn_oid) :
    oid_bounded B o = true ↔ o.length ≤ B.ASN_MAXOIDLEN ∧ ∀ x ∈ o, x ≤ ASN_MAXID := by
  simp [oid_bounded]

theorem oid_rank_lt (n : Nat) :
    ∀ o : asn_oid, o.length ≤ n → (∀ x ∈ o, x ≤ ASN_MAXID) →
      oid_rank n o < (ASN_MAXID + 2) ^ n := by
  induction n with
  | zero => intro o _ _; simp [oid_rank]
  | succ n ih =>
    intro o hl hb
    cases o with
    | nil => simp [oid_rank]
    | cons x xs =>
      have h1 := ih xs (by simpa using hl) (fun y hy => hb y (List.mem_cons_of_mem _ hy))
      have hx : x ≤ ASN_MAXID := hb x (List.mem_cons_self _ _)
      have h2 : (x + 2) * (ASN_MAXID + 2) ^ n ≤ (ASN_MAXID + 2) * (ASN_MAXID + 2) ^ n :=
        Nat.mul_le_mul_right _ (by omega)
      have h3 : (ASN_MAXID + 2) ^ (n + 1) = (ASN_MAXID + 2) * (ASN_MAXID + 2) ^ n := by
        rw [pow_succ, Nat.mul_comm]
      have h4 : (x + 2) * (ASN_MAXID + 2) ^ n
          = (x + 1) * (ASN_MAXID + 2) ^ n + (ASN_MAXID + 2) ^ n := by ring
      simp only [oid_rank]
      omega

theorem oid_rank_mono (n : Nat) :
    ∀ a c : asn_oid, a.length ≤ n → c.length ≤ n → (∀ x ∈ a, x ≤ ASN_MAXID) →
      oid_lt a c = true → oid_rank n a < oid_rank n c := by
  induction n with
  | zero =>
    intro a c ha hc _ h
    have hc0 : c = [] := List.length_eq_zero.mp (by omega)
    subst hc0
    cases a <;> simp [oid_lt] at h
  | succ n ih =>
    intro a c ha hc hb h
    cases c with
    | nil => cases a <;> simp [oid_lt] at h
    | cons y ys =>
      cases a with
      | nil =>
        simp only [oid_rank]
        have hp : 0 < (ASN_MAXID + 2) ^ n := Nat.pow_pos (by omega)
        have : (ASN_MAXID + 2) ^ n ≤ (y + 1) * (ASN_MAXID + 2) ^ n :=
          Nat.le_mul_of_pos_left _ (by omega)
        omega
      | cons x xs =>
        have hxs : xs.length ≤ n := by simpa using ha
        have hys : ys.length ≤ n := by simpa using hc
        have hbx : ∀ z ∈ xs, z ≤ ASN_MAXID := fun z hz => hb z (List.mem_cons_of_mem _ hz)
        simp only [oid_lt, Bool.or_eq_true, Bool.and_eq_true, decide_eq_true_eq] at h
        simp only [oid_rank]
        rcases h with h | ⟨h1, h2⟩
        · have h1 := oid_rank_lt n xs hxs hbx
          have h2 : (x + 2) * (ASN_MAXID + 2) ^ n ≤ (y + 1) * (ASN_MAXID + 2) ^ n :=
            Nat.mul_le_mul_right _ (by omega)
          have h4 : (x + 2) * (ASN_MAXID + 2) ^ n
              = (x + 1) * (ASN_MAXID + 2) ^ n + (ASN_MAXID + 2) ^ n := by ring
          omega
        · subst h1
          have := ih xs ys hxs hys hbx h2
          omega

theorem increasing_rank (B : Build) :
    ∀ (rs : List snmp_pdu) (r0 : snmp_pdu), increasing (r0 :: rs) = true →
      (∀ r ∈ r0 :: rs, oid_bounded B (first_oid r) = true) →
      oid_rank B.ASN_MAXOIDLEN (first_oid r0) + (r0 :: rs).length
        ≤ (ASN_MAXID + 2) ^ B.ASN_MAXOIDLEN := by
  intro rs
  induction rs with
  | nil =>
    intro r0 _ hb
    have h0 := (oid_bounded_iff B _).mp (hb r0 (List.mem_cons_self _ _))
    have := oid_rank_lt B.ASN_MAXOIDLEN (first_oid r0) h0.1 h0.2
    simp only [List.length_cons, List.length_nil]
    omega
  | cons s rest ih =>
    intro r0 hi hb
    simp only [increasing, Bool.and_eq_true] at hi
    have h0 := (oid_bounded_iff B _).mp (hb r0 (List.mem_cons_self _ _))
    have hs := (oid_bounded_iff B _).mp (hb s (List.mem_cons_of_mem _ (List.mem_cons_self _ _)))
    have h1 := oid_rank_mono B.ASN_MAXOIDLEN _ _ h0.1 hs.1 h0.2 hi.1
    have h2 := ih s hi.2 (fun r hr => hb r (List.mem_cons_of_mem _ hr))
    simp only [List.length_cons] at h2 ⊢
    omega

theorem increasing_length (B : Build) (rs : List snmp_pdu) (hi : increasing rs = true)
    (hb : ∀ r ∈ rs, oid_bounded B (first_oid r) = true) :
    rs.length ≤ (ASN_MAXID + 2) ^ B.ASN_MAXOIDLEN := by
  cases rs with
  | nil => simp
  | cons r0 rest =>
    have := increasing_rank B rest r0 hi hb
    omega

/-- One iteration of the GetNext loop run against an agent. -/
theorem walk_run_succ {σ : Type} (C : Collab) (ctx : snmp_toolinfo)
    (root : asn_oid)
    (agent : σ → snmp_pdu → (Int × snmp_pdu) × σ) (fuel : Nat) (s : σ) (req : snmp_pdu)
    (outputs : Int) (out : List Emitted) (rcv : List snmp_pdu) (k : Nat) :
    snmptool_walk_run C ctx root agent (fuel + 1) s req outputs out rcv k
      = if (agent s req).1.1 < 0 then ⟨true, req, outputs, out, rcv, k + 1, (agent s req).2⟩
        else if C.snmp_pdu_check (agent s req).1.2 req ≠ SNMP_CODE_OK then
          ⟨true, req, -1, out ++ [Emitted.err_resp (agent s req).1.2],
            rcv ++ [(agent s req).1.2], k + 1, (agent s req).2⟩
        else if ¬ asn_is_suboid root (binding (agent s req).1.2 0).oid then
          ⟨true, req, outputs, out, rcv ++ [(agent s req).1.2], k + 1, (agent s req).2⟩
        else if C.snmp_output_resp (agent s req).1.2 ≠ 0 then
          ⟨true, req, -1, out ++ [Emitted.resp (agent s req).1.2], rcv ++ [(agent s req).1.2],
            k + 1, (agent s req).2⟩
        else
          snmptool_walk_run C ctx root agent fuel (agent s req).2
            (snmpwalk_nextpdu_create ctx SNMP_PDU_GETNEXT (binding (agent s req).1.2 0).oid)
            (to_int32 (outputs + 1)) (out ++ [Emitted.resp (agent s req).1.2])
            (rcv ++ [(agent s req).1.2]) (k + 1) := rfl

/-- As long as the loop has not been left, every iteration has received one
response. -/
theorem walk_run_received_length {σ : Type} (C : Collab) (ctx : snmp_toolinfo)
    (root : asn_oid)
    (agent : σ → snmp_pdu → (Int × snmp_pdu) × σ) (n : Nat) :
    ∀ (s : σ) (req : snmp_pdu) (outputs : Int) (out : List Emitted) (rcv : List snmp_pdu)
      (k : Nat),
      (snmptool_walk_run C ctx root agent n s req outputs out rcv k).left = false →
      (snmptool_walk_run C ctx root agent n s req outputs out rcv k).received.length
        = rcv.length + n := by
  induction n with
  | zero => intro s req outputs out rcv k _; rfl
  | succ n ih =>
    intro s req outputs out rcv k h
    unfold snmptool_walk_run at h ⊢
    split at h
    · simp at h
    · split at h
      · simp at h
      · split at h
        · simp at h
        · split at h
          · simp at h
          · rename_i h1 h2 h3 h4
            rw [if_neg h1, if_neg h2, if_neg h3, if_neg h4]
            rw [ih _ _ _ _ _ _ h]
            simp only [List.length_append, List.length_singleton]
            omega

/-- Every iteration calls `snmp_dialog` at most once. -/
theorem walk_run_exchanges {σ : Type} (C : Collab) (ctx : snmp_toolinfo)
    (root : asn_oid)
    (agent : σ → snmp_pdu → (Int × snmp_pdu) × σ) (n : Nat) :
    ∀ (s : σ) (req : snmp_pdu) (outputs : Int) (out : List Emitted) (rcv : List snmp_pdu)
      (k : Nat),
      (snmptool_walk_run C ctx root agent n s req outputs out rcv k).exchanges ≤ k + n := by
  induction n with
  | zero => intro s req outputs out rcv k; exact le_refl _
  | succ n ih =>
    intro s req outputs out rcv k
    unfold snmptool_walk_run
    split
    · simp only; omega
    · split
      · simp only; omega
      · split
        · simp only; omega
        · split
          · simp only; omega
          · have := ih (agent s req).2
              (snmpwalk_nextpdu_create ctx SNMP_PDU_GETNEXT (binding (agent s req).1.2 0).oid)
              (to_int32 (outputs + 1)) (out ++ [Emitted.resp (agent s req).1.2])
              (rcv ++ [(agent s req).1.2]) (k + 1)
            omega

/-- Once the loop has been left, allowing one more iteration changes nothing. -/
theorem walk_run_stable {σ : Type} (C : Collab) (ctx : snmp_toolinfo)
    (root : asn_oid)
    (agent : σ → snmp_pdu → (Int × snmp_pdu) × σ) (n : Nat) :
    ∀ (s : σ) (req : snmp_pdu) (outputs : Int) (out : List Emitted) (rcv : List snmp_pdu)
      (k : Nat),
      (snmptool_walk_run C ctx root agent n s req outputs out rcv k).left = true →
      snmptool_walk_run C ctx root agent (n + 1) s req outputs out rcv k
        = snmptool_walk_run C ctx root agent n s req outputs out rcv k := by
  induction n with
  | zero => intro s req outputs out rcv k h; simp [snmptool_walk_run] at h
  | succ n ih =>
    intro s req outputs out rcv k h
    have e1 := walk_run_succ C ctx root agent (n + 1) s req outputs out rcv k
    have e0 := walk_run_succ C ctx root agent n s req outputs out rcv k
    rw [e0] at h
    rw [e1, e0]
    by_cases h1 : (agent s req).1.1 < 0
    · simp only [if_pos h1]
    · by_cases h2 : C.snmp_pdu_check (agent s req).1.2 req ≠ SNMP_CODE_OK
      · simp only [if_neg h1, if_pos h2]
      · by_cases h3 : ¬ asn_is_suboid root (binding (agent s req).1.2 0).oid
        · simp only [if_neg h1, if_neg h2, if_pos h3]
        · by_cases h4 : C.snmp_output_resp (agent s req).1.2 ≠ 0
          · simp only [if_neg h1, if_neg h2, if_neg h3, if_pos h4]
          · simp only [if_neg h1, if_neg h2, if_neg h3, if_neg h4] at h ⊢
            exact ih _ _ _ _ _ _ h

theorem walk_run_stable_le {σ : Type} (C : Collab) (ctx : snmp_toolinfo)
    (root : asn_oid)
    (agent : σ → snmp_pdu → (Int × snmp_pdu) × σ) (n : Nat) (s : σ) (req : snmp_pdu)
    (outputs : Int) (out : List Emitted) (rcv : List snmp_pdu) (k : Nat)
    (h : (snmptool_walk_run C ctx root agent n s req outputs out rcv k).left = true) :
    ∀ m, n ≤ m →
      snmptool_walk_run C ctx root agent m s req outputs out rcv k
        = snmptool_walk_run C ctx root agent n s req outputs out rcv k := by
  intro m hm
  induction m, hm using Nat.le_induction with
  | base => rfl
  | succ m _ ihm =>
    rw [walk_run_stable C ctx root agent m s req outputs out rcv k (by rw [ihm]; exact h), ihm]

/-- What holds of the runs of up to `N` iterations holds of every run, when the loop
is left within `N` iterations. -/
theorem walk_run_forall {σ : Type} (C : Collab) (ctx : snmp_toolinfo)
    (root : asn_oid)
    (agent : σ → snmp_pdu → (Int × snmp_pdu) × σ) (s : σ) (req : snmp_pdu)
    (outputs : Int) (out : List Emitted) (rcv : List snmp_pdu) (k : Nat)
    (P : walk_run σ → Prop) (N : Nat)
    (hleft : (snmptool_walk_run C ctx root agent N s req outputs out rcv k).left = true)
    (hP : ∀ n, n ≤ N → P (snmptool_walk_run C ctx root agent n s req outputs out rcv k)) :
    ∀ n, P (snmptool_walk_run C ctx root agent n s req outputs out rcv k) := by
  intro n
  by_cases h : n ≤ N
  · exact hP n h
  · rw [walk_run_stable_le C ctx root agent N s req outputs out rcv k hleft n (by omega)]
    exact hP N (le_refl _)

theorem walk_run_left_of_increasing {σ : Type} (B : Build) (C : Collab) (ctx : snmp_toolinfo)
    (root : asn_oid) (agent : σ → snmp_pdu → (Int × snmp_pdu) × σ) (s : σ) (req : snmp_pdu)
    (outputs : Int) (out : List Emitted)
    (hinc : ∀ n, increasing
      (snmptool_walk_run C ctx root agent n s req outputs out [] 0).received = true)
    (hbd : ∀ n, ∀ r ∈ (snmptool_walk_run C ctx root agent n s req outputs out [] 0).received,
      oid_bounded B (first_oid r) = true) :
    (snmptool_walk_run C ctx root agent ((ASN_MAXID + 2) ^ B.ASN_MAXOIDLEN + 1) s req outputs
      out [] 0).left = true := by
  by_contra h
  have hf : (snmptool_walk_run C ctx root agent ((ASN_MAXID + 2) ^ B.ASN_MAXOIDLEN + 1) s req
      outputs out [] 0).left = false := by simpa using h
  have hl := walk_run_received_length C ctx root agent _ s req outputs out [] 0 hf
  have hb := increasing_length B _ (hinc ((ASN_MAXID + 2) ^ B.ASN_MAXOIDLEN + 1))
    (hbd ((ASN_MAXID + 2) ^ B.ASN_MAXOIDLEN + 1))
  rw [hl] at hb
  simp only [List.length_nil] at hb
  omega

/-- The request `snmpwalk_nextpdu_create` builds asks for the OID it was given. -/
theorem first_oid_nextpdu (ctx : snmp_toolinfo) (op : Nat) (var : asn_oid) :
    first_oid (snmpwalk_nextpdu_create ctx op var) = var := rfl

theorem increasing_concat : ∀ (rs : List snmp_pdu) (x : snmp_pdu), increasing rs = true →
    (∀ r, rs.getLast? = some r → oid_lt (first_oid r) (first_oid x) = true) →
    increasing (rs ++ [x]) = true := by
  intro rs
  induction rs with
  | nil => intro x _ _; rfl
  | cons a rest ih =>
    intro x hi hl
    cases rest with
    | nil =>
      simp only [List.cons_append, List.nil_append, increasing, Bool.and_true]
      exact hl a rfl
    | cons b rest2 =>
      simp only [increasing, Bool.and_eq_true] at hi
      have h2 := ih x hi.2 (fun r hr => hl r (by
        rw [List.getLast?_cons_cons]; exact hr))
      simp only [List.cons_append, increasing, Bool.and_eq_true] at h2 ⊢
      exact ⟨hi.1, h2⟩

/-- Against an agent that answers every request with an OID after the requested one,
of at most `ASN_MAXOIDLEN` sub-identifiers of 32 bits, the responses the loop receives
are strictly increasing: each request of the loop asks for the OID of the response
before it. -/
theorem walk_run_trace {σ : Type} (B : Build) (C : Collab) (ctx : snmp_toolinfo)
    (root : asn_oid)
    (agent : σ → snmp_pdu → (Int × snmp_pdu) × σ)
    (hagent : ∀ s q, 0 ≤ (agent s q).1.1 →
      oid_lt (first_oid q) (first_oid (agent s q).1.2) = true ∧
        oid_bounded B (first_oid (agent s q).1.2) = true) :
    ∀ (n : Nat) (s : σ) (req : snmp_pdu) (outputs : Int) (out : List Emitted)
      (rcv : List snmp_pdu) (k : Nat), increasing rcv = true →
      (∀ r, rcv.getLast? = some r → first_oid r = first_oid req) →
      (∀ r ∈ rcv, oid_bounded B (first_oid r) = true) →
      increasing (snmptool_walk_run C ctx root agent n s req outputs out rcv k).received = true ∧
        ∀ r ∈ (snmptool_walk_run C ctx root agent n s req outputs out rcv k).received,
          oid_bounded B (first_oid r) = true := by
  intro n
  induction n with
  | zero => intro s req outputs out rcv k hi _ hb; exact ⟨hi, hb⟩
  | succ n ih =>
    intro s req outputs out rcv k hi hl hb
    rw [walk_run_succ]
    by_cases h1 : (agent s req).1.1 < 0
    · simp only [if_pos h1]; exact ⟨hi, hb⟩
    · have hc := hagent s req (by omega)
      have hi2 : increasing (rcv ++ [(agent s req).1.2]) = true :=
        increasing_concat rcv _ hi (fun r hr => by rw [hl r hr]; exact hc.1)
      have hb2 : ∀ r ∈ rcv ++ [(agent s req).1.2], oid_bounded B (first_oid r) = true := by
        intro r hr
        rcases List.mem_append.mp hr with h | h
        · exact hb r h
        · rw [List.mem_singleton.mp h]; exact hc.2
      simp only [if_neg h1]
      by_cases h2 : C.snmp_pdu_check (agent s req).1.2 req ≠ SNMP_CODE_OK
      · simp only [if_pos h2]; exact ⟨hi2, hb2⟩
      · simp only [if_neg h2]
        by_cases h3 : ¬ asn_is_suboid root (binding (agent s req).1.2 0).oid
        · simp only [if_pos h3]; exact ⟨hi2, hb2⟩
        · simp only [if_neg h3]
          by_cases h4 : C.snmp_output_resp (agent s req).1.2 ≠ 0
          · simp only [if_pos h4]; exact ⟨hi2, hb2⟩
          · simp only [if_neg h4]
            exact ih _ _ _ _ _ _ hi2 (fun r hr => by
              rw [List.getLast?_concat] at hr
              rw [first_oid_nextpdu]
              cases hr
              rfl) hb2

/-- Against an agent that answers every request with an OID after the requested one,
of at most `ASN_MAXOIDLEN` sub-identifiers of 32 bits, the GetNext loop is left within
`(ASN_MAXID + 2) ^ ASN_MAXOIDLEN + 1` iterations. -/
theorem walk_run_getnext_agent {σ : Type} (B : Build) (C : Collab) (ctx : snmp_toolinfo)
    (root : asn_oid)
    (agent : σ → snmp_pdu → (Int × snmp_pdu) × σ) (s : σ) (req : snmp_pdu) (outputs : Int)
    (out : List Emitted)
    (hagent : ∀ s q, 0 ≤ (agent s q).1.1 →
      oid_lt (first_oid q) (first_oid (agent s q).1.2) = true ∧
        oid_bounded B (first_oid (agent s q).1.2) = true) :
    (snmptool_walk_run C ctx root agent ((ASN_MAXID + 2) ^ B.ASN_MAXOIDLEN + 1) s req outputs
      out [] 0).left = true :=
  walk_run_left_of_increasing B C ctx root agent s req outputs out
    (fun n => (walk_run_trace B C ctx root agent hagent n s req outputs out [] 0 rfl
      (fun _ h => by simp at h) (fun _ h => by simp at h)).1)
    (fun n => (walk_run_trace B C ctx root agent hagent n s req outputs out [] 0 rfl
      (fun _ h => by simp at h) (fun _ h => by simp at h)).2)

/-- Against the agent that answers from a list of outcomes, the loop run for more
iterations than the list is long is left, and it leaves the request, the counter, the
output and the remaining outcomes as `snmptool_walk_loop` does. -/
theorem walk_run_script (C : Collab) (ctx : snmp_toolinfo) (root : asn_oid) :
    ∀ (script : List (Int × snmp_pdu)) (fuel : Nat) (req : snmp_pdu) (outputs : Int)
      (out : List Emitted) (rcv : List snmp_pdu) (k : Nat), script.length < fuel →
      (snmptool_walk_run C ctx root script_agent fuel script req outputs out rcv k).left = true ∧
      (snmptool_walk_run C ctx root script_agent fuel script req outputs out rcv k).req
        = (snmptool_walk_loop C ctx root script req outputs out).req ∧
      (snmptool_walk_run C ctx root script_agent fuel script req outputs out rcv k).outputs
        = (snmptool_walk_loop C ctx root script req outputs out).outputs ∧
      (snmptool_walk_run C ctx root script_agent fuel script req outputs out rcv k).emitted
        = (snmptool_walk_loop C ctx root script req outputs out).emitted ∧
      (snmptool_walk_run C ctx root script_agent fuel script req outputs out rcv k).state
        = (snmptool_walk_loop C ctx root script req outputs out).agent := by
  intro script
  induction script with
  | nil =>
    intro fuel req outputs out rcv k hf
    cases fuel with
    | zero => simp at hf
    | succ n => simp [snmptool_walk_run, script_agent, snmptool_walk_loop]
  | cons p rest ih =>
    intro fuel req outputs out rcv k hf
    cases fuel with
    | zero => simp at hf
    | succ n =>
      obtain ⟨rc, resp⟩ := p
      have hn : rest.length < n := by simpa using hf
      rw [walk_run_succ]
      simp only [script_agent, snmptool_walk_loop]
      by_cases h1 : rc < 0
      · simp only [if_pos h1, and_self]
      · simp only [if_neg h1]
        by_cases h2 : C.snmp_pdu_check resp req ≠ SNMP_CODE_OK
        · simp only [if_pos h2, and_self]
        · simp only [if_neg h2]
          by_cases h3 : ¬ asn_is_suboid root (binding resp 0).oid
          · simp only [if_pos h3, and_self]
          · simp only [if_neg h3]
            by_cases h4 : C.snmp_output_resp resp ≠ 0
            · simp only [if_pos h4, and_self]
            · simp only [if_neg h4]
              exact ih n _ _ _ _ _ hn

/-- C25: for every root, every request and every agent, where an agent is a state
machine that answers each request it is sent, as often as it is asked: if the
responses the GetNext loop of `snmptool_walk` receives carry lexicographically strictly
increasing first-binding OIDs, each of at most `ASN_MAXOIDLEN` sub-identifiers of 32
bits, then the loop is left within `(ASN_MAXID + 2) ^ ASN_MAXOIDLEN + 1` iterations, a
bound that does not depend on the agent: run for that many iterations the loop has
been left, it has called `snmp_dialog` at most that often, and allowing more
iterations changes nothing. Every iteration that does not leave the loop receives one
more response (`walk_run_received_length`), and there are at most
`(ASN_MAXID + 2) ^ ASN_MAXOIDLEN` strictly increasing OIDs of that size
(`increasing_length`). The hypothesis holds for every agent that answers each request
with an OID after the requested one, because the loop asks for the OID it received
last (`walk_run_getnext_agent`). -/
theorem walk_run_terminates {σ : Type} (B : Build) (C : Collab) (ctx : snmp_toolinfo)
    (root : asn_oid)
    (agent : σ → snmp_pdu → (Int × snmp_pdu) × σ) (s : σ) (req : snmp_pdu) (outputs : Int)
    (out : List Emitted)
    (hinc : ∀ n, increasing
      (snmptool_walk_run C ctx root agent n s req outputs out [] 0).received = true)
    (hbd : ∀ n, (snmptool_walk_run C ctx root agent n s req outputs out [] 0).received.all
      (fun r => oid_bounded B (first_oid r)) = true) :
    (snmptool_walk_run C ctx root agent ((ASN_MAXID + 2) ^ B.ASN_MAXOIDLEN + 1) s req outputs
        out [] 0).left = true ∧
      (snmptool_walk_run C ctx root agent ((ASN_MAXID + 2) ^ B.ASN_MAXOIDLEN + 1) s req outputs
        out [] 0).exchanges ≤ (ASN_MAXID + 2) ^ B.ASN_MAXOIDLEN + 1 ∧
      ∀ m, (ASN_MAXID + 2) ^ B.ASN_MAXOIDLEN + 1 ≤ m →
        snmptool_walk_run C ctx root agent m s req outputs out [] 0
          = snmptool_walk_run C ctx root agent ((ASN_MAXID + 2) ^ B.ASN_MAXOIDLEN + 1) s req
              outputs out [] 0 := by
  have hleft := walk_run_left_of_increasing B C ctx root agent s req outputs out hinc
    (fun n r hr => (List.all_eq_true.mp (hbd n)) r hr)
  refine ⟨hleft, ?_, walk_run_stable_le C ctx root agent _ s req outputs out [] 0 hleft⟩
  have := walk_run_exchanges C ctx root agent ((ASN_MAXID + 2) ^ B.ASN_MAXOIDLEN + 1) s req
    outputs out [] 0
  omega

set_option maxRecDepth 20000 in
/-- C25 (witness): the walk of 1.3 against an agent with the table 1.3.1, 1.3.2, 1.4,
which answers as often as it is asked, is left after three exchanges, with the
response 1.4 outside the subtree. -/
theorem walk_run_terminates_witness :
    (snmptool_walk_run (strict_collab lp64) (eval_ctx SNMP_PDU_GETNEXT) [1, 3]
        (mib_agent [[1, 3, 1], [1, 3, 2], [1, 4]])
        ((ASN_MAXID + 2) ^ lp64.ASN_MAXOIDLEN + 1) ()
        (snmpwalk_nextpdu_create (eval_ctx SNMP_PDU_GETNEXT) SNMP_PDU_GETNEXT [1, 3]) 0 []
        [] 0).left = true ∧
      (snmptool_walk_run (strict_collab lp64) (eval_ctx SNMP_PDU_GETNEXT) [1, 3]
        (mib_agent [[1, 3, 1], [1, 3, 2], [1, 4]]) 3 ()
        (snmpwalk_nextpdu_create (eval_ctx SNMP_PDU_GETNEXT) SNMP_PDU_GETNEXT [1, 3]) 0 []
        [] 0).received.map first_oid = [[1, 3, 1], [1, 3, 2], [1, 4]] :=
  ⟨(walk_run_terminates lp64 (strict_collab lp64) (eval_ctx SNMP_PDU_GETNEXT) [1, 3]
      (mib_agent [[1, 3, 1], [1, 3, 2], [1, 4]]) ()
      (snmpwalk_nextpdu_create (eval_ctx SNMP_PDU_GETNEXT) SNMP_PDU_GETNEXT [1, 3]) 0 []
      (walk_run_forall _ _ _ _ _ _ _ _ _ _ (fun r => increasing r.received = true) 3
        (by decide) (by decide))
      (walk_run_forall _ _ _ _ _ _ _ _ _ _
        (fun r => r.received.all (fun x => oid_bounded lp64 (first_oid x)) = true) 3
        (by decide) (by decide))).1,
    by decide⟩

/-! ## C26: a clean Set response -/

/-- C26: in any round of the loop of `snmptool_set`, when the dialog succeeds and the
response is classified as clean (the check as Set calls it returns `SNMP_CODE_OK`),
the run ends there: the response is handed to `snmp_output_resp` once if the output
mode is not quiet and nothing is printed if it is quiet; in both cases the request of
this round is the last one sent, the remaining answers of the agent are not asked for,
and the queue and the list of Retry-by-Elimination calls are unchanged. -/
theorem quiet_set (B : Build) (C : Collab) (req resp : snmp_pdu) (st : run_state)
    (a : Int × snmp_pdu) (rest : List (Int × snmp_pdu))
    (ha : set_assemble B st.ctx req = some a) (hpos : 0 < a.1)
    (hclean : C.snmp_pdu_check a.2 resp = SNMP_CODE_OK) :
    snmptool_set_loop B C ((0, resp) :: rest) req st
      = some { st with
          sent := st.sent ++ [a.2]
          emitted := if st.ctx.output = B.OUTPUT_QUIET then st.emitted
            else st.emitted ++ [Emitted.resp resp]
          agent := rest } := by
  unfold snmptool_set_loop
  have h1 : ¬ a.1 ≤ 0 := by omega
  by_cases hq : st.ctx.output = B.OUTPUT_QUIET <;> simp [ha, h1, hclean, hq]

/-- C26 (witness): Set of 1.3 to 5 against an agent that answers with a clean
response, in quiet mode (nothing printed) and in the default mode (the response
printed once); one request sent, the second answer not asked for. -/
theorem quiet_set_witness :
    snmptool_set_loop lp64 (strict_collab lp64) [(0, response_of [1, 3]), (0, response_of [1, 3])]
        (snmp_pdu_create (set_ctx 3 true [integer_object [1, 3] 5]) SNMP_PDU_SET)
        (start_state (set_ctx 3 true [integer_object [1, 3] 5]) [])
      = some ⟨set_ctx 3 true [integer_object [1, 3] 5],
          [{ snmp_pdu_create (set_ctx 3 true [integer_object [1, 3] 5]) SNMP_PDU_SET with
              nbindings := 1
              bindings := (integer_object [1, 3] 5).val :: List.replicate 99 zero_value }],
          [], [], [(0, response_of [1, 3])]⟩ ∧
    snmptool_set_loop lp64 (strict_collab lp64) [(0, response_of [1, 3]), (0, response_of [1, 3])]
        (snmp_pdu_create (set_ctx 0 true [integer_object [1, 3] 5]) SNMP_PDU_SET)
        (start_state (set_ctx 0 true [integer_object [1, 3] 5]) [])
      = some ⟨set_ctx 0 true [integer_object [1, 3] 5],
          [{ snmp_pdu_create (set_ctx 0 true [integer_object [1, 3] 5]) SNMP_PDU_SET with
              nbindings := 1
              bindings := (integer_object [1, 3] 5).val :: List.replicate 99 zero_value }],
          [Emitted.resp (response_of [1, 3])], [], [(0, response_of [1, 3])]⟩ :=
  ⟨quiet_set lp64 (strict_collab lp64) _ (response_of [1, 3]) _
      (1, { snmp_pdu_create (set_ctx 3 true [integer_object [1, 3] 5]) SNMP_PDU_SET with
              nbindings := 1
              bindings := (integer_object [1, 3] 5).val :: List.replicate 99 zero_value })
      [(0, response_of [1, 3])] (by decide) (by decide) (by decide),
    quiet_set lp64 (strict_collab lp64) _ (response_of [1, 3]) _
      (1, { snmp_pdu_create (set_ctx 0 true [integer_object [1, 3] 5]) SNMP_PDU_SET with
              nbindings := 1
              bindings := (integer_object [1, 3] 5).val :: List.replicate 99 zero_value })
      [(0, response_of [1, 3])] (by decide) (by decide) (by decide)⟩

/-! ## C27: the default root of Walk -/

theorem main_seed_walk (ctx : snmp_toolinfo) :
    main_seed program_e.BSNMPWALK { ctx with snmp_objectlist := [] } 0
      = some (1, { ctx with
          snmp_objectlist := [⟨0, none, { zero_value with oid := [1, 3, 6, 1, 2, 1] }⟩] }) := rfl

theorem main_of_seed (B : Build) (L : Limits) (C : Collab) (S : SetCollab) (program : program_e)
    (ctx : snmp_toolinfo) (read_community sec_name : List Char) (tokens : List (List Char))
    (open_rc discover_rc : Int) (agent : List (Int × snmp_pdu)) (rc : Int) (ctx1 : snmp_toolinfo)
    (h : main_seed program ctx tokens.length = some (rc, ctx1)) :
    main B L C S program ctx read_community sec_name tokens open_rc discover_rc agent
      = if rc < 0 then some ⟨1, [], false, none⟩
        else if ctx1.version ≠ SNMP_V3 ∧ peek read_community = NUL then
          some ⟨1, [], false, none⟩
        else if ctx1.version = SNMP_V3 ∧ peek sec_name = NUL then some ⟨1, [], false, none⟩
        else if program = program_e.BSNMPGET ∧ ctx1.version = SNMP_V1 ∧
            ctx1.pdu_type = SNMP_PDU_GETBULK then some ⟨1, [], false, none⟩
        else
          match main_parse_tokens B L C S program tokens.reverse ctx1 [] with
          | none => none
          | some p =>
            if p.1 < 0 then some ⟨1, p.2.2, false, none⟩
            else main_session B C program p.2.1 p.2.2 open_rc discover_rc agent := by
  unfold main
  rw [h]

theorem main_session_eq (B : Build) (C : Collab) (program : program_e) (ctx : snmp_toolinfo)
    (parsed : List (List Char)) (open_rc discover_rc : Int) (agent : List (Int × snmp_pdu)) :
    main_session B C program ctx parsed open_rc discover_rc agent
      = if open_rc ≠ 0 ∨ (ctx.version = SNMP_V3 ∧ discover_rc ≠ 0) then
          some ⟨1, parsed, true, none⟩
        else (main_driver B C program ctx agent).map (fun r => ⟨r.1, parsed, true, some r.2⟩) := by
  unfold main_session
  generalize main_driver B C program ctx agent = w
  by_cases h1 : open_rc ≠ 0
  · rw [if_pos h1, if_pos (Or.inl h1)]
  · by_cases h2 : ctx.version = SNMP_V3 ∧ discover_rc ≠ 0
    · rw [if_neg h1, if_pos h2, if_pos (Or.inr h2)]
    · rw [if_neg h1, if_neg h2, if_neg (by tauto)]
      cases w <;> rfl

theorem main_parse_tokens_nil (B : Build) (L : Limits) (C : Collab) (S : SetCollab)
    (program : program_e) (ctx : snmp_toolinfo) :
    main_parse_tokens B L C S program [] ctx [] = some (1, ctx, []) := rfl

theorem main_of_parse (B : Build) (L : Limits) (C : Collab) (S : SetCollab) (program : program_e)
    (ctx : snmp_toolinfo) (read_community sec_name : List Char) (tokens : List (List Char))
    (open_rc discover_rc : Int) (agent : List (Int × snmp_pdu)) (rc prc : Int)
    (ctx1 ctx2 : snmp_toolinfo) (parsed : List (List Char))
    (h : main_seed program ctx tokens.length = some (rc, ctx1))
    (hp : main_parse_tokens B L C S program tokens.reverse ctx1 [] = some (prc, ctx2, parsed)) :
    main B L C S program ctx read_community sec_name tokens open_rc discover_rc agent
      = if rc < 0 then some ⟨1, [], false, none⟩
        else if ctx1.version ≠ SNMP_V3 ∧ peek read_community = NUL then
          some ⟨1, [], false, none⟩
        else if ctx1.version = SNMP_V3 ∧ peek sec_name = NUL then some ⟨1, [], false, none⟩
        else if program = program_e.BSNMPGET ∧ ctx1.version = SNMP_V1 ∧
            ctx1.pdu_type = SNMP_PDU_GETBULK then some ⟨1, [], false, none⟩
        else if prc < 0 then some ⟨1, parsed, false, none⟩
        else main_session B C program ctx2 parsed open_rc discover_rc agent := by
  rw [main_of_seed B L C S program ctx read_community sec_name tokens open_rc discover_rc agent
    rc ctx1 h, hp]

/-- C27: `snmpwalk_add_default` applied to an object with an empty OID yields the OID
1.3.6.1.2.1 and returns 1. When Walk is started without OID arguments on an empty
queue, `main` either exits with status 1 before the driver runs (no community or
security name, session or engine discovery failed), or it runs `snmptool_walk`, whose
first step is the assembly, on the queue that holds exactly one pending object with
the OID 1.3.6.1.2.1. -/
theorem walk_default_root (B : Build) (L : Limits) (C : Collab) (S : SetCollab)
    (ctx : snmp_toolinfo) (obj : snmp_object) (string : Option (List Char))
    (read_community sec_name : List Char) (open_rc discover_rc : Int)
    (agent : List (Int × snmp_pdu)) :
    snmpwalk_add_default ctx { obj with val := { obj.val with oid := [] } } string
        = (1, { obj with val := { obj.val with oid := [1, 3, 6, 1, 2, 1] } }) ∧
      main B L C S program_e.BSNMPWALK { ctx with snmp_objectlist := [] } read_community sec_name
          [] open_rc discover_rc agent
        = (if (ctx.version ≠ SNMP_V3 ∧ peek read_community = NUL) ∨
              (ctx.version = SNMP_V3 ∧ peek sec_name = NUL) then some ⟨1, [], false, none⟩
            else if open_rc ≠ 0 ∨ (ctx.version = SNMP_V3 ∧ discover_rc ≠ 0) then
              some ⟨1, [], true, none⟩
            else
              (snmptool_walk C
                { ctx with
                  snmp_objectlist := [⟨0, none, { zero_value with oid := [1, 3, 6, 1, 2, 1] }⟩] }
                agent).map (fun r => ⟨r.1, [], true, some r.2⟩)) := by
  refine ⟨rfl, ?_⟩
  rw [main_of_parse B L C S program_e.BSNMPWALK _ read_community sec_name [] open_rc discover_rc
    agent 1 1 _ _ [] (main_seed_walk ctx) (main_parse_tokens_nil B L C S _ _),
    main_session_eq]
  have h0 : ¬ ((1 : Int) < 0) := by omega
  have h3 : ¬ (program_e.BSNMPWALK = program_e.BSNMPGET ∧ ctx.version = SNMP_V1 ∧
      ctx.pdu_type = SNMP_PDU_GETBULK) := by
    intro h; exact absurd h.1 (by decide)
  rw [if_neg h0]
  by_cases h1 : ctx.version ≠ SNMP_V3 ∧ peek read_community = NUL
  · rw [if_pos h1, if_pos (Or.inl h1)]
  · by_cases h2 : ctx.version = SNMP_V3 ∧ peek sec_name = NUL
    · rw [if_neg h1, if_pos h2, if_pos (Or.inr h2)]
    · have h12 : ¬ ((ctx.version ≠ SNMP_V3 ∧ peek read_community = NUL) ∨
          (ctx.version = SNMP_V3 ∧ peek sec_name = NUL)) := by tauto
      rw [if_neg h1, if_neg h2, if_neg h3, if_neg h0, if_neg h12]
      rfl

/-! ## C28: GetBulk under version 1 -/

/-- C28: for the program Get with client version 1 and configured PDU type GetBulk,
`main` exits with status 1 and has by then handed no OID token to the parse function,
not called `snmp_open` and not started the driver, whatever the command line, the
collaborators and the agent are. -/
theorem getbulk_v1_rejected (B : Build) (L : Limits) (C : Collab) (S : SetCollab)
    (ctx : snmp_toolinfo) (read_community sec_name : List Char) (tokens : List (List Char))
    (open_rc discover_rc : Int) (agent : List (Int × snmp_pdu))
    (hv : ctx.version = SNMP_V1) (hp : ctx.pdu_type = SNMP_PDU_GETBULK) :
    main B L C S program_e.BSNMPGET ctx read_community sec_name tokens open_rc discover_rc agent
      = some ⟨1, [], false, none⟩ := by
  have h31 : ¬ (SNMP_V1 = SNMP_V3) := by decide
  by_cases h0 : tokens.length = 0
  · have hs : main_seed program_e.BSNMPGET ctx tokens.length = some (-1, ctx) := by
      unfold main_seed; rw [if_pos h0]
    rw [main_of_seed B L C S program_e.BSNMPGET ctx read_community sec_name tokens open_rc
      discover_rc agent (-1) ctx hs, if_pos (show (-1 : Int) < 0 by omega)]
  · have hs : main_seed program_e.BSNMPGET ctx tokens.length = some (1, ctx) := by
      unfold main_seed; rw [if_neg h0]
    rw [main_of_seed B L C S program_e.BSNMPGET ctx read_community sec_name tokens open_rc
      discover_rc agent 1 ctx hs, if_neg (show ¬ (1 : Int) < 0 by omega)]
    by_cases h1 : ctx.version ≠ SNMP_V3 ∧ peek read_community = NUL
    · rw [if_pos h1]
    · have h2 : ¬ (ctx.version = SNMP_V3 ∧ peek sec_name = NUL) := by
        rw [hv]; intro h; exact h31 h.1
      rw [if_neg h1, if_neg h2, if_pos ⟨rfl, hv, hp⟩]

/-- C28 (witness): `bsnmpget -v 1 -p getbulk` with community `public` and the token
`sysDescr.0`. -/
theorem getbulk_v1_rejected_witness :
    main lp64 bsnmp_limits (eval_collab lp64 0) eval_set_collab program_e.BSNMPGET
        ⟨false, false, false, 0, SNMP_PDU_GETBULK, 1, 0, SNMP_V1, []⟩ "public".toList []
        ["sysDescr.0".toList] 0 0 [(0, response_of [1, 3, 6, 1, 2, 1, 1, 1, 0])]
      = some ⟨1, [], false, none⟩ :=
  getbulk_v1_rejected lp64 bsnmp_limits (eval_collab lp64 0) eval_set_collab
    ⟨false, false, false, 0, SNMP_PDU_GETBULK, 1, 0, SNMP_V1, []⟩ "public".toList []
    ["sysDescr.0".toList] 0 0 [(0, response_of [1, 3, 6, 1, 2, 1, 1, 1, 0])] (by decide) (by decide)

/-! ## C29: the boundaries of the symbolic run -/

/-- C29 (the code at the failing input): the token `.sysDescr.1`. The scan skips the
dot and reads the run `sysDescr` of 8 characters, but the name and the suffix are then
taken from the start of the token: the name handed to resolution is `.sysDesc` and the
text parsed as suffix is `r.1`, so that a schema that knows `sysDescr` does not resolve
the token, while it resolves `sysDescr.1`. -/
theorem parse_stroid_leading_dot_shifts_run :
    name_run 0 ("sysDescr.1".toList) = 8 ∧
    snmptools_parse_stroid lp64 (probe_collab lp64) (eval_ctx SNMP_PDU_GETNEXT) empty_object
        ".sysDescr.1".toList
      = (some "r.1".toList, { empty_object with info := some ⟨".sysDesc".toList, 0, [], 0⟩ }) ∧
    snmptools_parse_stroid lp64 (eval_collab lp64 0) (eval_ctx SNMP_PDU_GETNEXT) empty_object
        ".sysDescr.1".toList = (none, empty_object) ∧
    snmptools_parse_stroid lp64 (eval_collab lp64 0) (eval_ctx SNMP_PDU_GETNEXT) empty_object
        "sysDescr.1".toList
      = (some [], { empty_object with
          info := some sysDescr_info
          val := { zero_value with oid := [1, 3, 6, 1, 2, 1, 1, 1, 1]
                                   syntax_ := SNMP_SYNTAX_OCTETSTRING } }) :=
  ⟨by decide, by decide, by decide, by decide⟩

/-! ## C30: failures before resolution -/

/-- For a token that does not begin with a dot: `snmptools_parse_stroid` fails and
leaves the object as it is when the run is empty, when it has `MAXSTR` characters or
more, or when the sub-OID parser rejects the text after the run, whatever name
resolution would answer; and it fails when the name does not resolve. -/
theorem parse_stroid_fails_early (B : Build) (C : Collab) (ctx : snmp_toolinfo)
    (obj : snmp_object) (argv : List Char) (hdot : peek argv ≠ '.') :
    ((name_run 0 argv = 0 ∨ B.MAXSTR ≤ name_run 0 argv ∨
        C.snmp_parse_suboid (argv.drop (name_run 0 argv)) [] = none) →
      snmptools_parse_stroid B C ctx obj argv = (none, obj)) ∧
    ((C.snmp_lookup_oidall obj (strlcpy argv (name_run 0 argv))).1 < 0 →
      (snmptools_parse_stroid B C ctx obj argv).1 = none) := by
  constructor
  · intro h
    unfold snmptools_parse_stroid
    simp only [hdot, if_false]
    split
    · rfl
    · rename_i h1
      split
      · rfl
      · rename_i heq
        rcases h with h | h | h
        · exact absurd (Or.inl (by omega)) h1
        · exact absurd (Or.inr h) h1
        · rw [h] at heq; cases heq
  · intro h
    unfold snmptools_parse_stroid
    simp only [hdot, if_false]
    split
    · rfl
    · split
      · rfl
      · rfl

set_option maxRecDepth 100000 in
/-- C30 (the code at the failing input): the token `.a.1.1. ... .1` with 129
sub-identifiers. The run is `a`; the text after it has one sub-identifier more than an
OID can hold and is rejected by the sub-OID parser. The code hands the parser the text
from the second character of the token on, `a.1. ... .1`, which the parser accepts as
an empty suffix, and then consults name resolution with the name `.`: with a resolution
that accepts every name the call does not fail and the object is modified. -/
theorem parse_stroid_leading_dot_skips_suffix_check :
    name_run 0 ((dotted_token 129).drop 1) = 1 ∧
    (probe_collab lp64).snmp_parse_suboid ((dotted_token 129).drop 2) [] = none ∧
    (snmptools_parse_stroid lp64 (probe_collab lp64) (eval_ctx SNMP_PDU_GETNEXT) empty_object
        (dotted_token 129)).1 = some ((dotted_token 129).drop 1) ∧
    (snmptools_parse_stroid lp64 (probe_collab lp64) (eval_ctx SNMP_PDU_GETNEXT) empty_object
        (dotted_token 129)).2 = { empty_object with info := some ⟨".".toList, 0, [], 0⟩ } :=
  ⟨by decide, by decide, by decide, by decide⟩

/-! ## C31: when the retry loops go on -/

/-- The assembly leaves the operation kind of the PDU as it is, for every admission
hook that does. -/
theorem add_bindings_loop_pdu_type (ctx : snmp_toolinfo)
    (vfunc : Option (snmp_toolinfo → snmp_pdu → snmp_object → Option Int))
    (afunc : snmp_pdu → snmp_object → Int × snmp_pdu) (max : Int)
    (hp : ∀ pdu obj, (afunc pdu obj).2.pdu_type = pdu.pdu_type) (l : List snmp_object) :
    ∀ (pdu : snmp_pdu) (n : Int) (r : Int × snmp_pdu),
      add_bindings_loop ctx vfunc afunc max l pdu n = some r → r.2.pdu_type = pdu.pdu_type := by
  induction l with
  | nil =>
    intro pdu n r h
    simp only [add_bindings_loop, Option.some.injEq] at h
    rw [← h]
  | cons obj rest ih =>
    intro pdu n r h
    unfold add_bindings_loop at h
    split at h
    · simp at h
    · simp only [Option.some.injEq] at h; rw [← h]
    · split at h
      · simp only [Option.some.injEq] at h; rw [← h]; exact hp pdu obj
      · split at h
        · split at h
          · simp only [Option.some.injEq] at h; rw [← h]; exact hp pdu obj
          · rw [ih _ _ _ h]; exact hp pdu obj
        · rw [ih _ _ _ h]; exact hp pdu obj

theorem add_vbind_pdu_type (pdu : snmp_pdu) (obj : snmp_object) :
    (snmptool_add_vbind pdu obj).2.pdu_type = pdu.pdu_type := by
  unfold snmptool_add_vbind
  split <;> rfl

theorem set_add_vbind_pdu_type (B : Build) (pdu : snmp_pdu) (obj : snmp_object) :
    (snmpset_add_vbind B pdu obj).2.pdu_type = pdu.pdu_type := by
  unfold snmpset_add_vbind
  split
  · rfl
  · split
    · rfl
    · simp only
      split <;> rfl

theorem get_assemble_pdu_type (ctx : snmp_toolinfo) (req : snmp_pdu) (a : Int × snmp_pdu)
    (h : get_assemble ctx req = some a) : (get_request ctx a.2).pdu_type = req.pdu_type := by
  have h1 := add_bindings_loop_pdu_type ctx (some get_validator) snmptool_add_vbind
    SNMP_MAX_BINDINGS add_vbind_pdu_type ctx.snmp_objectlist req 0 a h
  unfold get_request snmpget_fix_getbulk
  split
  · simp only
    split <;> split <;> exact h1
  · exact h1

theorem set_assemble_pdu_type (B : Build) (ctx : snmp_toolinfo) (req : snmp_pdu)
    (a : Int × snmp_pdu) (h : set_assemble B ctx req = some a) : a.2.pdu_type = req.pdu_type :=
  add_bindings_loop_pdu_type ctx (some (snmpset_verify_vbind B)) (snmpset_add_vbind B)
    SNMP_MAX_BINDINGS (set_add_vbind_pdu_type B) ctx.snmp_objectlist req 0 a h

/-- One round of the loop of `snmptool_get` from any state: if Retry-by-Elimination
is invoked or a second request is sent, the first dialog did not return -1, its
response failed the check, retry-on-error is set and the configured PDU type is not
GetBulk; a second request needs a positive result of Retry-by-Elimination as well. -/
theorem get_loop_continuation (C : Collab) (script : List (Int × snmp_pdu)) (req : snmp_pdu)
    (st st1 : run_state) (h : snmptool_get_loop C script req st = some st1)
    (hmore : st1.retried ≠ st.retried ∨ st.sent.length + 1 < st1.sent.length) :
    ∃ rc resp rest a, script = (rc, resp) :: rest ∧ get_assemble st.ctx req = some a ∧
      0 < a.1 ∧ rc ≠ -1 ∧
      C.snmp_pdu_check resp (get_request st.ctx a.2) ≠ SNMP_CODE_OK ∧
      st.ctx.retry = true ∧ st.ctx.pdu_type ≠ SNMP_PDU_GETBULK ∧
      (st.sent.length + 1 < st1.sent.length →
        0 < (snmp_object_seterror st.ctx (seterror_args resp).1 (seterror_args resp).2).1) := by
  unfold snmptool_get_loop at h
  split at h
  · simp at h
  · rename_i a ha
    split at h
    · simp only [Option.some.injEq] at h; subst h; simp at hmore
    · rename_i hpos
      split at h
      · simp only [Option.some.injEq] at h; subst h; simp at hmore
      · rename_i rc resp rest
        split at h
        · simp only [Option.some.injEq] at h; subst h; simp at hmore
        · rename_i hrc
          split at h
          · simp only [Option.some.injEq] at h; subst h; simp at hmore
          · rename_i hcheck
            split at h
            · simp only [Option.some.injEq] at h; subst h; simp at hmore
            · rename_i hretry
              have hr : st.ctx.retry = true := by
                cases hb : st.ctx.retry
                · exact absurd (Or.inr hb) hretry
                · rfl
              have hg : st.ctx.pdu_type ≠ SNMP_PDU_GETBULK := fun hg => hretry (Or.inl hg)
              split at h
              · simp only [Option.some.injEq] at h; subst h
                refine ⟨rc, resp, rest, a, rfl, ha, by omega, hrc, hcheck, hr, hg, ?_⟩
                intro hl; simp at hl
              · rename_i hcount
                exact ⟨rc, resp, rest, a, rfl, ha, by omega, hrc, hcheck, hr, hg,
                  fun _ => by
                    have : ¬ (snmp_object_seterror st.ctx (seterror_args resp).1
                        (seterror_args resp).2).1 ≤ 0 := hcount
                    omega⟩

/-- One round of the loop of `snmptool_set` from any state, as for Get; the dialog
succeeds when it returns 0, and the request keeps the operation kind of the PDU it
was assembled in. -/
theorem set_loop_continuation (B : Build) (C : Collab) (script : List (Int × snmp_pdu))
    (req : snmp_pdu) (st st1 : run_state) (h : snmptool_set_loop B C script req st = some st1)
    (hmore : st1.retried ≠ st.retried ∨ st.sent.length + 1 < st1.sent.length) :
    ∃ rc resp rest a, script = (rc, resp) :: rest ∧ set_assemble B st.ctx req = some a ∧
      0 < a.1 ∧ rc = 0 ∧ C.snmp_pdu_check a.2 resp ≠ SNMP_CODE_OK ∧
      st.ctx.retry = true ∧ a.2.pdu_type = req.pdu_type ∧
      (st.sent.length + 1 < st1.sent.length →
        0 < (snmp_object_seterror st.ctx (seterror_args resp).1 (seterror_args resp).2).1) := by
  unfold snmptool_set_loop at h
  split at h
  · simp at h
  · rename_i a ha
    have hty := set_assemble_pdu_type B st.ctx req a ha
    split at h
    · simp only [Option.some.injEq] at h; subst h; simp at hmore
    · rename_i hpos
      split at h
      · simp only [Option.some.injEq] at h; subst h; simp at hmore
      · rename_i rc resp rest
        split at h
        · simp only [Option.some.injEq] at h; subst h; simp at hmore
        · rename_i hrc
          have hrc0 : rc = 0 := by
            by_contra hne; exact hrc hne
          split at h
          · simp only [Option.some.injEq] at h; subst h
            split at hmore <;> simp at hmore
          · rename_i hcheck
            split at h
            · simp only [Option.some.injEq] at h; subst h; simp at hmore
            · rename_i hretry
              have hr : st.ctx.retry = true := by
                cases hb : st.ctx.retry
                · exact absurd hb hretry
                · rfl
              split at h
              · simp only [Option.some.injEq] at h; subst h
                refine ⟨rc, resp, rest, a, rfl, ha, by omega, hrc0, hcheck, hr, hty, ?_⟩
                intro hl; simp at hl
              · rename_i hcount
                exact ⟨rc, resp, rest, a, rfl, ha, by omega, hrc0, hcheck, hr, hty,
                  fun _ => by
                    have : ¬ (snmp_object_seterror st.ctx (seterror_args resp).1
                        (seterror_args resp).2).1 ≤ 0 := hcount
                    omega⟩

/-- C31: in the loops of `snmptool_get` and `snmptool_set`, started in any state (so
in every round), Retry-by-Elimination is invoked or a further request is sent after
the request of this round only if the dialog of this round succeeded (Get: it did not
return -1; Set: it returned 0), the response failed the consistency check and
retry-on-error is set; for Get the configured PDU type is not GetBulk, for Set the
request has the kind of the PDU it was assembled in (`snmptool_set` only creates Set
PDUs). A further request is sent only if moreover Retry-by-Elimination returned a
positive count. Hence a failed dialog is followed neither by Retry-by-Elimination nor
by another request, and a GetBulk error is not retried. -/
theorem retry_loop_continuation (B : Build) (C : Collab) (script : List (Int × snmp_pdu))
    (req : snmp_pdu) (st st1 : run_state) :
    (snmptool_get_loop C script req st = some st1 →
        (st1.retried ≠ st.retried ∨ st.sent.length + 1 < st1.sent.length) →
        ∃ rc resp rest a, script = (rc, resp) :: rest ∧ get_assemble st.ctx req = some a ∧
          0 < a.1 ∧ rc ≠ -1 ∧
          C.snmp_pdu_check resp (get_request st.ctx a.2) ≠ SNMP_CODE_OK ∧
          st.ctx.retry = true ∧ st.ctx.pdu_type ≠ SNMP_PDU_GETBULK ∧
          (st.sent.length + 1 < st1.sent.length →
            0 < (snmp_object_seterror st.ctx (seterror_args resp).1
              (seterror_args resp).2).1)) ∧
      (snmptool_set_loop B C script req st = some st1 →
        (st1.retried ≠ st.retried ∨ st.sent.length + 1 < st1.sent.length) →
        ∃ rc resp rest a, script = (rc, resp) :: rest ∧ set_assemble B st.ctx req = some a ∧
          0 < a.1 ∧ rc = 0 ∧ C.snmp_pdu_check a.2 resp ≠ SNMP_CODE_OK ∧
          st.ctx.retry = true ∧ a.2.pdu_type = req.pdu_type ∧
          (st.sent.length + 1 < st1.sent.length →
            0 < (snmp_object_seterror st.ctx (seterror_args resp).1
              (seterror_args resp).2).1)) :=
  ⟨get_loop_continuation C script req st st1, set_loop_continuation B C script req st st1⟩

/-- C31 (witness): Get with retry-on-error and the queue 1.3.6.1.2.1.1.2.0, 1.3; the
agent answers with an error response for 1.3 and then with a clean response: two
requests are sent. -/
theorem retry_loop_continuation_witness :
    ∃ st1 : run_state,
      snmptool_get_loop (strict_collab lp64)
          [(0, error_response [1, 3] 2 1), (0, response_of [1, 3, 6, 1, 2, 1, 1, 2, 0])]
          (snmp_pdu_create (eval_ctx SNMP_PDU_GET) SNMP_PDU_GET)
          (start_state (queue_ctx SNMP_PDU_GET true
            [object_of [1, 3, 6, 1, 2, 1, 1, 2, 0], object_of [1, 3]]) []) = some st1 ∧
        st1.sent.length = 2 ∧
        ∃ rc resp rest a,
          [((0 : Int), error_response [1, 3] 2 1),
              (0, response_of [1, 3, 6, 1, 2, 1, 1, 2, 0])] = (rc, resp) :: rest ∧
            get_assemble (start_state (queue_ctx SNMP_PDU_GET true
                [object_of [1, 3, 6, 1, 2, 1, 1, 2, 0], object_of [1, 3]]) []).ctx
              (snmp_pdu_create (eval_ctx SNMP_PDU_GET) SNMP_PDU_GET) = some a ∧
            0 < a.1 ∧ rc ≠ -1 ∧
            (strict_collab lp64).snmp_pdu_check resp
              (get_request (start_state (queue_ctx SNMP_PDU_GET true
                [object_of [1, 3, 6, 1, 2, 1, 1, 2, 0], object_of [1, 3]]) []).ctx a.2)
                ≠ SNMP_CODE_OK ∧
            (start_state (queue_ctx SNMP_PDU_GET true
                [object_of [1, 3, 6, 1, 2, 1, 1, 2, 0], object_of [1, 3]]) []).ctx.retry = true ∧
            (start_state (queue_ctx SNMP_PDU_GET true
                [object_of [1, 3, 6, 1, 2, 1, 1, 2, 0], object_of [1, 3]]) []).ctx.pdu_type
                ≠ SNMP_PDU_GETBULK ∧
            ((start_state (queue_ctx SNMP_PDU_GET true
                [object_of [1, 3, 6, 1, 2, 1, 1, 2, 0], object_of [1, 3]]) []).sent.length + 1
                < st1.sent.length →
              0 < (snmp_object_seterror (start_state (queue_ctx SNMP_PDU_GET true
                  [object_of [1, 3, 6, 1, 2, 1, 1, 2, 0], object_of [1, 3]]) []).ctx
                (seterror_args resp).1 (seterror_args resp).2).1) := by
  have hrun : ∃ st1 : run_state,
      snmptool_get_loop (strict_collab lp64)
          [(0, error_response [1, 3] 2 1), (0, response_of [1, 3, 6, 1, 2, 1, 1, 2, 0])]
          (snmp_pdu_create (eval_ctx SNMP_PDU_GET) SNMP_PDU_GET)
          (start_state (queue_ctx SNMP_PDU_GET true
            [object_of [1, 3, 6, 1, 2, 1, 1, 2, 0], object_of [1, 3]]) []) = some st1 ∧
        st1.sent.length = 2 := ⟨_, rfl, by decide⟩
  obtain ⟨st1, h1, h2⟩ := hrun
  exact ⟨st1, h1, h2,
    (retry_loop_continuation lp64 (strict_collab lp64) _ _ _ st1).1 h1
      (Or.inr (by rw [h2]; decide))⟩

/-! ## C32: marked objects -/

/-- C32 (counterexample): an object whose error marker is -1, a non-zero value, is
not excluded: `snmptool_add_vbind` and `snmpset_add_vbind` return 1 and place it in
the first binding of a fresh PDU. -/
theorem marked_object_not_excluded_when_negative :
    (snmptool_add_vbind (snmp_pdu_create (eval_ctx SNMP_PDU_GET) SNMP_PDU_GET)
        { object_of [1, 3] with error := -1 }).1 = 1 ∧
    (binding (snmptool_add_vbind (snmp_pdu_create (eval_ctx SNMP_PDU_GET) SNMP_PDU_GET)
        { object_of [1, 3] with error := -1 }).2 0).oid = [1, 3] ∧
    (snmpset_add_vbind lp64 (snmp_pdu_create (eval_ctx SNMP_PDU_SET) SNMP_PDU_SET)
        { integer_object [1, 3] 5 with error := -1 }).1 = 1 ∧
    binding (snmpset_add_vbind lp64 (snmp_pdu_create (eval_ctx SNMP_PDU_SET) SNMP_PDU_SET)
        { integer_object [1, 3] 5 with error := -1 }).2 0 = (integer_object [1, 3] 5).val :=
  ⟨by decide, by decide, by decide, by decide⟩

/-- C32 (amended): for every PDU and every pending object whose error marker is
above 0, `snmptool_add_vbind` returns 0 and leaves the PDU unchanged, and so does
`snmpset_add_vbind` on a PDU within capacity (at most `SNMP_MAX_BINDINGS`
bindings). -/
theorem marked_object_excluded (B : Build) (pdu : snmp_pdu) (obj : snmp_object)
    (h : 0 < obj.error) :
    snmptool_add_vbind pdu obj = (0, pdu) ∧
      (pdu.nbindings ≤ SNMP_MAX_BINDINGS → snmpset_add_vbind B pdu obj = (0, pdu)) := by
  constructor
  · unfold snmptool_add_vbind; rw [if_pos h]
  · intro hc
    unfold snmpset_add_vbind
    rw [if_neg (Nat.not_lt.mpr hc), if_pos h]

/-- C32 (witness): an object marked with the reason code 2 and a fresh PDU. -/
theorem marked_object_excluded_witness :
    snmptool_add_vbind (snmp_pdu_create (eval_ctx SNMP_PDU_GET) SNMP_PDU_GET)
        { object_of [1, 3] with error := 2 }
      = (0, snmp_pdu_create (eval_ctx SNMP_PDU_GET) SNMP_PDU_GET) ∧
    snmpset_add_vbind lp64 (snmp_pdu_create (eval_ctx SNMP_PDU_SET) SNMP_PDU_SET)
        { integer_object [1, 3] 5 with error := 2 }
      = (0, snmp_pdu_create (eval_ctx SNMP_PDU_SET) SNMP_PDU_SET) :=
  ⟨(marked_object_excluded lp64 _ { object_of [1, 3] with error := 2 } (by decide)).1,
    (marked_object_excluded lp64 (snmp_pdu_create (eval_ctx SNMP_PDU_SET) SNMP_PDU_SET)
      { integer_object [1, 3] 5 with error := 2 } (by decide)).2 (by decide)⟩

/-! ## C33: what admission writes -/

theorem binding_slot_write (pdu : snmp_pdu) (n : Nat) (v : snmp_value) (k : Nat)
    (hn : n < pdu.bindings.length) :
    binding { pdu with bindings := slot_write pdu.bindings n v, nbindings := k } n = v ∧
      ∀ i, i ≠ n →
        binding { pdu with bindings := slot_write pdu.bindings n v, nbindings := k } i
          = binding pdu i := by
  unfold slot_write binding
  simp only [hn, if_true]
  constructor
  · simp [List.getD_eq_getElem?_getD, hn]
  · intro i hi
    simp [List.getD_eq_getElem?_getD, List.getElem?_set_ne (Ne.symm hi)]

/-- Into a fresh slot `snmpset_add_value` copies the tag and the payload of a value
with a payload-carrying syntax (an OctetString within `ASN_MAXOCTETSTRING`, an address
of four bytes). -/
theorem add_value_fresh (B : Build) (src : snmp_value) (hp : carries_payload src.syntax_ = true)
    (ho : src.syntax_ = SNMP_SYNTAX_OCTETSTRING →
      src.v.octetstring.length ≤ B.ASN_MAXOCTETSTRING)
    (hi : src.syntax_ = SNMP_SYNTAX_IPADDRESS → src.v.ipaddress.length = 4) :
    snmpset_add_value B zero_value src
      = (0, ⟨[], src.syntax_, payload_of src.syntax_ src.v⟩) := by
  obtain ⟨oid, s, v⟩ := src
  cases s with
  | SNMP_SYNTAX_NULL => simp [carries_payload] at hp
  | SNMP_SYNTAX_INTEGER => rfl
  | SNMP_SYNTAX_OCTETSTRING =>
    have h1 : ¬ (B.ASN_MAXOCTETSTRING < v.octetstring.length) := Nat.not_lt.mpr (ho rfl)
    simp only [snmpset_add_value, add_octstring_syntax, h1, if_false, payload_of]
    rfl
  | SNMP_SYNTAX_OID => rfl
  | SNMP_SYNTAX_IPADDRESS =>
    match v, hi rfl with
    | ⟨_, _, _, [a, b, c, d], _, _⟩, _ => rfl
  | SNMP_SYNTAX_COUNTER => rfl
  | SNMP_SYNTAX_GAUGE => rfl
  | SNMP_SYNTAX_TIMETICKS => rfl
  | SNMP_SYNTAX_COUNTER64 => rfl
  | SNMP_SYNTAX_NOSUCHOBJECT => simp [carries_payload] at hp
  | SNMP_SYNTAX_NOSUCHINSTANCE => simp [carries_payload] at hp
  | SNMP_SYNTAX_ENDOFMIBVIEW => simp [carries_payload] at hp

/-- For NULL and the three exception markers `snmpset_add_value` returns -1 and
leaves the destination as it is. -/
theorem add_value_rejects (B : Build) (dst src : snmp_value)
    (hp : carries_payload src.syntax_ = false) :
    snmpset_add_value B dst src = (-1, dst) := by
  obtain ⟨oid, s, v⟩ := src
  cases s <;> first | rfl | (simp [carries_payload] at hp)

theorem add_vbind_eq (pdu : snmp_pdu) (obj : snmp_object) (herr : obj.error = 0)
    (hlt : pdu.nbindings < SNMP_MAX_BINDINGS) (hslot : binding pdu pdu.nbindings = zero_value) :
    snmptool_add_vbind pdu obj
      = (((pdu.nbindings + 1 : Nat) : Int),
          { pdu with
            bindings := slot_write pdu.bindings pdu.nbindings { zero_value with oid := obj.val.oid }
            nbindings := pdu.nbindings + 1 }) := by
  have hn' : pdu.nbindings < 100 := hlt
  have h0 : ¬ (0 < obj.error) := by omega
  have hu : to_uint32 (pdu.nbindings + 1) = pdu.nbindings + 1 := to_uint32_id _ (by omega)
  have hi : to_int32 ((pdu.nbindings + 1 : Nat) : Int) = ((pdu.nbindings + 1 : Nat) : Int) :=
    to_int32_nat _ (by omega)
  simp only [snmptool_add_vbind, h0, if_false, hu, hslot, hi]
  rfl

theorem set_add_vbind_eq (B : Build) (pdu : snmp_pdu) (obj : snmp_object) (herr : obj.error = 0)
    (hlt : pdu.nbindings < SNMP_MAX_BINDINGS) (hslot : binding pdu pdu.nbindings = zero_value)
    (hp : carries_payload obj.val.syntax_ = true)
    (ho : obj.val.syntax_ = SNMP_SYNTAX_OCTETSTRING →
      obj.val.v.octetstring.length ≤ B.ASN_MAXOCTETSTRING)
    (hi : obj.val.syntax_ = SNMP_SYNTAX_IPADDRESS → obj.val.v.ipaddress.length = 4) :
    snmpset_add_vbind B pdu obj
      = (((pdu.nbindings + 1 : Nat) : Int),
          { pdu with
            bindings := slot_write pdu.bindings pdu.nbindings
              ⟨obj.val.oid, obj.val.syntax_, payload_of obj.val.syntax_ obj.val.v⟩
            nbindings := pdu.nbindings + 1 }) := by
  have hn' : pdu.nbindings < 100 := hlt
  have hc : ¬ (SNMP_MAX_BINDINGS < pdu.nbindings) := by
    have : SNMP_MAX_BINDINGS = 100 := rfl
    omega
  have h0 : ¬ (0 < obj.error) := by omega
  have hu : to_uint32 (pdu.nbindings + 1) = pdu.nbindings + 1 := to_uint32_id _ (by omega)
  have hi' : to_int32 ((pdu.nbindings + 1 : Nat) : Int) = ((pdu.nbindings + 1 : Nat) : Int) :=
    to_int32_nat _ (by omega)
  have hv := add_value_fresh B obj.val hp ho hi
  simp only [snmpset_add_vbind, hc, h0, if_false, hu, hslot, hi', hv]
  rfl

/-- Admission within the limits: for every PDU with its `SNMP_MAX_BINDINGS` slots, n <
`SNMP_MAX_BINDINGS` bindings and slot n empty, and every pending object with unset
error marker, `snmptool_add_vbind` returns n+1, sets the binding count to n+1, sets
the OID of binding n to the OID of the object and leaves every other binding
unchanged. `snmpset_add_vbind` does the same and places the tag and the payload of the
object in binding n when the syntax of the object carries a payload (an OctetString
within `ASN_MAXOCTETSTRING`, an address of four bytes); for NULL and the three
exception markers it returns -1 and leaves the PDU unchanged. -/
theorem admission_postcondition (B : Build) (pdu : snmp_pdu) (obj : snmp_object)
    (hlen : pdu.bindings.length = SNMP_MAX_BINDINGS) (hlt : pdu.nbindings < SNMP_MAX_BINDINGS)
    (hslot : binding pdu pdu.nbindings = zero_value) (herr : obj.error = 0) :
    ((snmptool_add_vbind pdu obj).1 = ((pdu.nbindings + 1 : Nat) : Int) ∧
        (snmptool_add_vbind pdu obj).2.nbindings = pdu.nbindings + 1 ∧
        binding (snmptool_add_vbind pdu obj).2 pdu.nbindings
          = { zero_value with oid := obj.val.oid } ∧
        ∀ i, i ≠ pdu.nbindings →
          binding (snmptool_add_vbind pdu obj).2 i = binding pdu i) ∧
      (carries_payload obj.val.syntax_ = true →
        (obj.val.syntax_ = SNMP_SYNTAX_OCTETSTRING →
          obj.val.v.octetstring.length ≤ B.ASN_MAXOCTETSTRING) →
        (obj.val.syntax_ = SNMP_SYNTAX_IPADDRESS → obj.val.v.ipaddress.length = 4) →
        (snmpset_add_vbind B pdu obj).1 = ((pdu.nbindings + 1 : Nat) : Int) ∧
          (snmpset_add_vbind B pdu obj).2.nbindings = pdu.nbindings + 1 ∧
          binding (snmpset_add_vbind B pdu obj).2 pdu.nbindings
            = ⟨obj.val.oid, obj.val.syntax_, payload_of obj.val.syntax_ obj.val.v⟩ ∧
          ∀ i, i ≠ pdu.nbindings →
            binding (snmpset_add_vbind B pdu obj).2 i = binding pdu i) ∧
      (carries_payload obj.val.syntax_ = false → snmpset_add_vbind B pdu obj = (-1, pdu)) := by
  have hn : pdu.nbindings < pdu.bindings.length := by rw [hlen]; exact hlt
  refine ⟨?_, ?_, ?_⟩
  · rw [add_vbind_eq pdu obj herr hlt hslot]
    have hb := binding_slot_write pdu pdu.nbindings { zero_value with oid := obj.val.oid }
      (pdu.nbindings + 1) hn
    exact ⟨rfl, rfl, hb.1, hb.2⟩
  · intro hp ho hi
    rw [set_add_vbind_eq B pdu obj herr hlt hslot hp ho hi]
    have hb := binding_slot_write pdu pdu.nbindings
      ⟨obj.val.oid, obj.val.syntax_, payload_of obj.val.syntax_ obj.val.v⟩
      (pdu.nbindings + 1) hn
    exact ⟨rfl, rfl, hb.1, hb.2⟩
  · intro hp
    have hc : ¬ (SNMP_MAX_BINDINGS < pdu.nbindings) := by
      have : SNMP_MAX_BINDINGS = 100 := rfl
      have hn' : pdu.nbindings < 100 := hlt
      omega
    have h0 : ¬ (0 < obj.error) := by omega
    have hv := add_value_rejects B (binding pdu pdu.nbindings) obj.val hp
    simp only [snmpset_add_vbind, hc, h0, if_false, hv]
    rfl

/-- Admission of the object 1.3 and of the Integer32 object 1.3 = 5 on a fresh PDU. -/
theorem admission_postcondition_witness :
    (snmptool_add_vbind (snmp_pdu_create (eval_ctx SNMP_PDU_GET) SNMP_PDU_GET)
        (object_of [1, 3])).1 = 1 ∧
      binding (snmptool_add_vbind (snmp_pdu_create (eval_ctx SNMP_PDU_GET) SNMP_PDU_GET)
        (object_of [1, 3])).2 0 = { zero_value with oid := [1, 3] } ∧
      (snmpset_add_vbind lp64 (snmp_pdu_create (eval_ctx SNMP_PDU_SET) SNMP_PDU_SET)
        (integer_object [1, 3] 5)).1 = 1 ∧
      binding (snmpset_add_vbind lp64 (snmp_pdu_create (eval_ctx SNMP_PDU_SET) SNMP_PDU_SET)
        (integer_object [1, 3] 5)).2 0
        = ⟨[1, 3], SNMP_SYNTAX_INTEGER, { zero_values with integer := 5 }⟩ :=
  ⟨(admission_postcondition lp64 (snmp_pdu_create (eval_ctx SNMP_PDU_GET) SNMP_PDU_GET)
      (object_of [1, 3]) (by decide) (by decide) (by decide) (by decide)).1.1,
    (admission_postcondition lp64 (snmp_pdu_create (eval_ctx SNMP_PDU_GET) SNMP_PDU_GET)
      (object_of [1, 3]) (by decide) (by decide) (by decide) (by decide)).1.2.2.1,
    ((admission_postcondition lp64 (snmp_pdu_create (eval_ctx SNMP_PDU_SET) SNMP_PDU_SET)
      (integer_object [1, 3] 5) (by decide) (by decide) (by decide) (by decide)).2.1
        (by decide) (by decide) (by decide)).1,
    ((admission_postcondition lp64 (snmp_pdu_create (eval_ctx SNMP_PDU_SET) SNMP_PDU_SET)
      (integer_object [1, 3] 5) (by decide) (by decide) (by decide) (by decide)).2.1
        (by decide) (by decide) (by decide)).2.2.1⟩

/-- For an OctetString longer than `ASN_MAXOCTETSTRING`, `snmpset_add_value` returns 0
and leaves the destination as it is: the failure of `add_octstring_syntax` is not
looked at. -/
theorem add_value_long_octets (B : Build) (dst src : snmp_value)
    (hs : src.syntax_ = SNMP_SYNTAX_OCTETSTRING)
    (hl : B.ASN_MAXOCTETSTRING < src.v.octetstring.length) :
    snmpset_add_value B dst src = (0, dst) := by
  obtain ⟨oid, s, v⟩ := src
  simp only at hs hl
  subst hs
  simp only [snmpset_add_value, add_octstring_syntax, hl, if_true]

theorem octets_value_length (n : Nat) : (octets_value n).v.octetstring.length = n :=
  List.length_replicate _ _

/-- For an unmarked object whose value is an OctetString longer than
`ASN_MAXOCTETSTRING`, `snmpset_add_vbind` on a PDU with fewer than `SNMP_MAX_BINDINGS`
bindings counts a binding and writes the OID, and leaves the tag and the payload of
the slot as they were. -/
theorem set_add_vbind_long_octets (B : Build) (pdu : snmp_pdu) (obj : snmp_object)
    (herr : obj.error = 0) (hlt : pdu.nbindings < SNMP_MAX_BINDINGS)
    (hs : obj.val.syntax_ = SNMP_SYNTAX_OCTETSTRING)
    (hl : B.ASN_MAXOCTETSTRING < obj.val.v.octetstring.length) :
    snmpset_add_vbind B pdu obj
      = (((pdu.nbindings + 1 : Nat) : Int),
          { pdu with
            bindings := slot_write pdu.bindings pdu.nbindings
              { binding pdu pdu.nbindings with
                oid := asn_append_oid (binding pdu pdu.nbindings).oid obj.val.oid }
            nbindings := pdu.nbindings + 1 }) := by
  have hn' : pdu.nbindings < 100 := hlt
  have hc : ¬ (SNMP_MAX_BINDINGS < pdu.nbindings) := by
    have : SNMP_MAX_BINDINGS = 100 := rfl
    omega
  have h0 : ¬ (0 < obj.error) := by omega
  have hu : to_uint32 (pdu.nbindings + 1) = pdu.nbindings + 1 := to_uint32_id _ (by omega)
  have hi : to_int32 ((pdu.nbindings + 1 : Nat) : Int) = ((pdu.nbindings + 1 : Nat) : Int) :=
    to_int32_nat _ (by omega)
  have hv := add_value_long_octets B (binding pdu pdu.nbindings) obj.val hs hl
  simp only [snmpset_add_vbind, hc, h0, if_false, hu, hi, hv]
  rfl

/-- C33 (the code at the failing input): for the unmarked pending object `sysDescr.0`
whose value is an OctetString of 65536 octets, one more than `ASN_MAXOCTETSTRING`,
`snmpset_add_vbind` on a freshly created PDU returns 1 and sets the binding count to
1, but binding 0 holds the OID only: its tag stays NULL and none of the octets of the
object is in it. -/
theorem set_admission_drops_long_octets :
    (⟨0, some sysDescr_info,
        { octets_value 65536 with oid := [1, 3, 6, 1, 2, 1, 1, 1, 0] }⟩ : snmp_object).error
        = 0 ∧
      (⟨0, some sysDescr_info,
        { octets_value 65536 with oid := [1, 3, 6, 1, 2, 1, 1, 1, 0] }⟩ : snmp_object).val.syntax_
        = SNMP_SYNTAX_OCTETSTRING ∧
      (⟨0, some sysDescr_info,
        { octets_value 65536 with
          oid := [1, 3, 6, 1, 2, 1, 1, 1, 0] }⟩ : snmp_object).val.v.octetstring.length
        = lp64.ASN_MAXOCTETSTRING + 1 ∧
      (snmpset_add_vbind lp64 (snmp_pdu_create (eval_ctx SNMP_PDU_SET) SNMP_PDU_SET)
        ⟨0, some sysDescr_info,
          { octets_value 65536 with oid := [1, 3, 6, 1, 2, 1, 1, 1, 0] }⟩).1 = 1 ∧
      (snmpset_add_vbind lp64 (snmp_pdu_create (eval_ctx SNMP_PDU_SET) SNMP_PDU_SET)
        ⟨0, some sysDescr_info,
          { octets_value 65536 with oid := [1, 3, 6, 1, 2, 1, 1, 1, 0] }⟩).2.nbindings = 1 ∧
      binding (snmpset_add_vbind lp64 (snmp_pdu_create (eval_ctx SNMP_PDU_SET) SNMP_PDU_SET)
        ⟨0, some sysDescr_info,
          { octets_value 65536 with oid := [1, 3, 6, 1, 2, 1, 1, 1, 0] }⟩).2 0
        = { zero_value with oid := [1, 3, 6, 1, 2, 1, 1, 1, 0] } := by
  have h := set_add_vbind_long_octets lp64 (snmp_pdu_create (eval_ctx SNMP_PDU_SET) SNMP_PDU_SET)
    ⟨0, some sysDescr_info, { octets_value 65536 with oid := [1, 3, 6, 1, 2, 1, 1, 1, 0] }⟩
    rfl (by decide) rfl
    (by
      show lp64.ASN_MAXOCTETSTRING < (octets_value 65536).v.octetstring.length
      rw [octets_value_length]; decide)
  refine ⟨rfl, rfl, octets_value_length 65536, ?_, ?_, ?_⟩
  · rw [h]; rfl
  · rw [h]; rfl
  · rw [h]; rfl

/-! ## C34: the value copy of Set -/

/-- C34 (the code at the failing input): for an OctetString of 65536 octets, one more
than `ASN_MAXOCTETSTRING`, `snmpset_add_value` reports success (0) on a fresh
destination and leaves it untouched: the tag stays NULL and no octet is copied. An
OctetString of 3 octets is copied with its tag. -/
theorem add_value_drops_long_octets :
    (octets_value 65536).syntax_ = SNMP_SYNTAX_OCTETSTRING ∧
    (octets_value 65536).v.octetstring.length = lp64.ASN_MAXOCTETSTRING + 1 ∧
    snmpset_add_value lp64 zero_value (octets_value 65536) = (0, zero_value) ∧
    snmpset_add_value lp64 zero_value (octets_value 3) = (0, octets_value 3) :=
  ⟨rfl, octets_value_length 65536,
    add_value_long_octets lp64 zero_value (octets_value 65536) rfl
      (by rw [octets_value_length]; decide), by decide⟩

/-! ## C35: the tag after a parse -/

theorem parse_ip_loop_tag (B : Build) (n : Nat) :
    ∀ (i : Nat) (value : snmp_value) (str : List Char),
      (parse_ip_loop B n i value str).1 = -1 ∨
        ((parse_ip_loop B n i value str).1 = 0 ∧
          (parse_ip_loop B n i value str).2.syntax_ = SNMP_SYNTAX_IPADDRESS) := by
  induction n with
  | zero => intro i value str; right; exact ⟨rfl, rfl⟩
  | succ n ih =>
    intro i value str
    unfold parse_ip_loop
    simp only
    split
    · left; rfl
    · split
      · right; exact ⟨rfl, rfl⟩
      · exact ih _ _ _

theorem parse_oid_numeric_loop_tag (B : Build) (fuel : Nat) :
    ∀ (value : snmp_value) (val : List Char),
      (parse_oid_numeric_loop B fuel value val).1 = -1 ∨
        ((parse_oid_numeric_loop B fuel value val).1 = 0 ∧
          (parse_oid_numeric_loop B fuel value val).2.syntax_ = SNMP_SYNTAX_OID) := by
  induction fuel with
  | zero => intro value val; left; rfl
  | succ n ih =>
    intro value val
    unfold parse_oid_numeric_loop
    simp only
    split
    · left; rfl
    · split
      · left; rfl
      · split
        · left; rfl
        · split
          · exact ih _ _
          · right; exact ⟨rfl, rfl⟩

theorem parse_uint_outcome (B : Build) (value : snmp_value) (val : List Char) :
    parse_uint B value val = (-1, value) ∨
      parse_uint B value val
        = (0, { value with
            v := { value.v with uint32 := to_uint32 (strtoul B val).value.toNat } }) := by
  unfold parse_uint
  simp only
  split
  · left; rfl
  · right; rfl

/-- C35: for every syntax, value and token, if `parse_syntax_val` succeeds (returns 0
or more) for a syntax other than OctetString, whose parse is the collaborator's, the
syntax tag of the value equals the requested syntax; and for `SNMP_SYNTAX_NULL` and
the three exception markers it returns -1 and leaves the value unchanged. -/
theorem parsed_tag_is_requested (B : Build) (C : Collab) (value : snmp_value) ( s : snmp_syntax)
    (val : List Char) :
    (s ≠ SNMP_SYNTAX_OCTETSTRING → 0 ≤ (parse_syntax_val B C value s val).1 →
        (parse_syntax_val B C value s val).2.syntax_ = s) ∧
      (carries_payload s = false → parse_syntax_val B C value s val = (-1, value)) := by
  constructor
  · intro hs h
    cases s with
    | SNMP_SYNTAX_NULL => simp [parse_syntax_val] at h
    | SNMP_SYNTAX_INTEGER =>
      simp only [parse_syntax_val, parse_int] at h ⊢
      split at h
      · simp at h
      · rw [if_neg (by assumption)]
    | SNMP_SYNTAX_OCTETSTRING => exact absurd rfl hs
    | SNMP_SYNTAX_OID =>
      simp only [parse_syntax_val, parse_oid_numeric] at h ⊢
      rcases parse_oid_numeric_loop_tag B (val.length + 1) value val with h1 | h1
      · rw [h1] at h; simp at h
      · exact h1.2
    | SNMP_SYNTAX_IPADDRESS =>
      simp only [parse_syntax_val, parse_ip] at h ⊢
      rcases parse_ip_loop_tag B 4 0 value val with h1 | h1
      · rw [h1] at h; simp at h
      · exact h1.2
    | SNMP_SYNTAX_COUNTER =>
      simp only [parse_syntax_val, parse_counter] at h ⊢
      split at h
      · simp at h
      · rw [if_neg (by assumption)]
    | SNMP_SYNTAX_GAUGE =>
      simp only [parse_syntax_val, parse_gauge] at h ⊢
      split at h
      · simp at h
      · rw [if_neg (by assumption)]
    | SNMP_SYNTAX_TIMETICKS =>
      simp only [parse_syntax_val, parse_ticks] at h ⊢
      split at h
      · simp at h
      · rw [if_neg (by assumption)]
    | SNMP_SYNTAX_COUNTER64 =>
      simp only [parse_syntax_val, parse_uint64] at h ⊢
      split at h
      · simp at h
      · rw [if_neg (by assumption)]
    | SNMP_SYNTAX_NOSUCHOBJECT => simp [parse_syntax_val] at h
    | SNMP_SYNTAX_NOSUCHINSTANCE => simp [parse_syntax_val] at h
    | SNMP_SYNTAX_ENDOFMIBVIEW => simp [parse_syntax_val] at h
  · intro hp
    cases s <;> first | rfl | (simp [carries_payload] at hp)

/-- C35 (witness): the token `42` parsed as Gauge32, and as the exception marker
noSuchObject. -/
theorem parsed_tag_is_requested_witness :
    (parse_syntax_val lp64 (eval_collab lp64 0) zero_value SNMP_SYNTAX_GAUGE "42".toList).2.syntax_
        = SNMP_SYNTAX_GAUGE ∧
      parse_syntax_val lp64 (eval_collab lp64 0) zero_value SNMP_SYNTAX_NOSUCHOBJECT "42".toList
        = (-1, zero_value) :=
  ⟨(parsed_tag_is_requested lp64 (eval_collab lp64 0) zero_value SNMP_SYNTAX_GAUGE
      "42".toList).1 (by decide) (by decide),
    (parsed_tag_is_requested lp64 (eval_collab lp64 0) zero_value SNMP_SYNTAX_NOSUCHOBJECT
      "42".toList).2 (by decide)⟩

/-! ## C36: one unsigned routine -/

/-- C36: for every build, value and token, `parse_counter`, `parse_gauge` and
`parse_ticks` either all return -1 and leave the value unchanged, or all return 0 and
store the same unsigned 32-bit payload; the three results then differ in nothing but
the syntax tag (Counter32, Gauge32, TimeTicks). -/
theorem one_unsigned_routine (B : Build) (value : snmp_value) (val : List Char) :
    (parse_counter B value val = (-1, value) ∧ parse_gauge B value val = (-1, value) ∧
        parse_ticks B value val = (-1, value)) ∨
      ∃ n : Nat, n < 2 ^ 32 ∧
        parse_counter B value val
          = (0, { value with syntax_ := SNMP_SYNTAX_COUNTER, v := { value.v with uint32 := n } }) ∧
        parse_gauge B value val
          = (0, { value with syntax_ := SNMP_SYNTAX_GAUGE, v := { value.v with uint32 := n } }) ∧
        parse_ticks B value val
          = (0, { value with syntax_ := SNMP_SYNTAX_TIMETICKS
                             v := { value.v with uint32 := n } }) := by
  rcases parse_uint_outcome B value val with h | h
  · left
    simp [parse_counter, parse_gauge, parse_ticks, h]
  · right
    refine ⟨to_uint32 (strtoul B val).value.toNat, ?_, ?_, ?_, ?_⟩
    · unfold to_uint32; exact Nat.mod_lt _ (by positivity)
    · simp [parse_counter, h]
    · simp [parse_gauge, h]
    · simp [parse_ticks, h]

/-! ## C37: negative integers in the schema-driven path -/

/-- C37 (the code at the failing input): the token `-5`. `parse_int` stores -5.
`parse_int_string` tests only `isdigit(val[0])`, takes the token for an enumeration
name, and for an object with the enumeration table `up = 1, down = 2` returns 1 with
the payload -1 (the failure code of the lookup); without a descriptor it returns -1.
`parse_syntax_strval` hands the token of an Integer32 object to `parse_int_string` and
gives the same result. -/
theorem parse_int_string_misreads_negative :
    parse_int lp64 enum_object.val "-5".toList
      = (0, { enum_object.val with v := { zero_values with integer := -5 } }) ∧
    parse_int_string lp64 enum_object "-5".toList
      = (1, { enum_object with
          val := { enum_object.val with v := { zero_values with integer := -1 } } }) ∧
    parse_int_string lp64 { enum_object with info := none } "-5".toList
      = (-1, { enum_object with info := none }) ∧
    parse_syntax_strval lp64 bsnmp_limits (eval_collab lp64 0) eval_set_collab
        (eval_ctx SNMP_PDU_SET) "-5".toList enum_object
      = some (1, { enum_object with
          val := { enum_object.val with v := { zero_values with integer := -1 } } }) :=
  ⟨by decide, by decide, by decide, by decide⟩

/-! ## C38: when Walk falls back to a Get -/

/-- The counter `outputs` of the GetNext loop, started at `k`: it is still `k` when
the loop has handed nothing to the printers, and it is -1 or above `k` when it has. -/
theorem walk_loop_counter (C : Collab) (ctx : snmp_toolinfo) (root : asn_oid)
    (script : List (Int × snmp_pdu)) :
    ∀ (req : snmp_pdu) (k : Int) (out : List Emitted), 0 ≤ k →
      k + script.length < 2 ^ 31 →
      ((snmptool_walk_loop C ctx root script req k out).outputs = k ∧
          (snmptool_walk_loop C ctx root script req k out).emitted = out) ∨
        (((snmptool_walk_loop C ctx root script req k out).outputs = -1 ∨
            k < (snmptool_walk_loop C ctx root script req k out).outputs) ∧
          out.length < (snmptool_walk_loop C ctx root script req k out).emitted.length) := by
  induction script with
  | nil => intro req k out _ _; left; exact ⟨rfl, rfl⟩
  | cons p rest ih =>
    intro req k out hk hlen
    obtain ⟨rc, resp⟩ := p
    simp only [List.length_cons, Nat.cast_add, Nat.cast_one] at hlen
    unfold snmptool_walk_loop
    split
    · left; exact ⟨rfl, rfl⟩
    · split
      · right; exact ⟨Or.inl rfl, by simp⟩
      · split
        · left; exact ⟨rfl, rfl⟩
        · split
          · right; exact ⟨Or.inl rfl, by simp⟩
          · have hw : to_int32 (k + 1) = k + 1 := by unfold to_int32; omega
            rw [hw]
            rcases ih (snmpwalk_nextpdu_create ctx SNMP_PDU_GETNEXT (binding resp 0).oid)
              (k + 1) (out ++ [Emitted.resp resp]) (by omega) (by omega) with h | h
            · right
              refine ⟨Or.inr (by rw [h.1]; omega), ?_⟩
              rw [h.2]; simp
            · right
              refine ⟨h.1.elim Or.inl (fun h1 => Or.inr (by omega)), ?_⟩
              have := h.2
              simp only [List.length_append, List.length_singleton] at this
              omega

theorem walk_loop_outputs_zero (C : Collab) (ctx : snmp_toolinfo) (root : asn_oid)
    (script : List (Int × snmp_pdu)) (req : snmp_pdu) (out : List Emitted)
    (hlen : script.length < 2 ^ 31) :
    (snmptool_walk_loop C ctx root script req 0 out).outputs = 0 ↔
      (snmptool_walk_loop C ctx root script req 0 out).emitted = out := by
  rcases walk_loop_counter C ctx root script req 0 out (le_refl _) (by omega) with h | h
  · exact ⟨fun _ => h.2, fun _ => h.1⟩
  · constructor
    · intro h0
      rcases h.1 with h1 | h1 <;> omega
    · intro h0
      have := h.2
      rw [h0] at this
      omega

/-- C38: in every round of `snmptool_walk` (any state, an assembly that placed the
root, fewer than 2^31 answers of the agent left, so that the 32-bit counter `outputs`
does not overflow) the fallback is run exactly when the GetNext loop of the round has
handed nothing to the printers, neither a response nor an error response; otherwise
the round ends without it. The fallback sends one request, the plain Get on the
root. -/
theorem walk_fallback_condition (C : Collab) (fuel : Nat) (req : snmp_pdu) (st : run_state)
    (a : Int × snmp_pdu)
    (ha : snmp_pdu_add_bindings st.ctx none snmptool_add_vbind req 1 = some a) (hpos : 0 < a.1)
    (hlen : st.agent.length < 2 ^ 31) :
    snmptool_walk_rounds C (fuel + 1) req st
        = walk_round_end C fuel (asn_append_oid [] (binding a.2 0).oid)
            (if (snmptool_walk_loop C st.ctx (asn_append_oid [] (binding a.2 0).oid) st.agent a.2
                  0 st.emitted).emitted = st.emitted then
              walk_fallback C
                { st with
                  emitted := (snmptool_walk_loop C st.ctx (asn_append_oid [] (binding a.2 0).oid)
                    st.agent a.2 0 st.emitted).emitted
                  agent := (snmptool_walk_loop C st.ctx (asn_append_oid [] (binding a.2 0).oid)
                    st.agent a.2 0 st.emitted).agent }
                (asn_append_oid [] (binding a.2 0).oid)
            else
              { st with
                emitted := (snmptool_walk_loop C st.ctx (asn_append_oid [] (binding a.2 0).oid)
                  st.agent a.2 0 st.emitted).emitted
                agent := (snmptool_walk_loop C st.ctx (asn_append_oid [] (binding a.2 0).oid)
                  st.agent a.2 0 st.emitted).agent }) ∧
      ∀ (st1 : run_state) (root : asn_oid),
        (walk_fallback C st1 root).sent
          = st1.sent ++ [snmpwalk_nextpdu_create st1.ctx SNMP_PDU_GET root] := by
  constructor
  · have hz := walk_loop_outputs_zero C st.ctx (asn_append_oid [] (binding a.2 0).oid) st.agent
      a.2 st.emitted hlen
    have h1 : ¬ a.1 ≤ 0 := by omega
    unfold snmptool_walk_rounds walk_round_end
    simp only [ha, h1, if_false]
    by_cases he : (snmptool_walk_loop C st.ctx (asn_append_oid [] (binding a.2 0).oid) st.agent
        a.2 0 st.emitted).emitted = st.emitted
    · rw [if_pos (hz.mpr he), if_pos he]
    · rw [if_neg (fun h => he (hz.mp h)), if_neg he]
  · intro st1 root
    unfold walk_fallback
    split
    · rfl
    · split
      · split <;> rfl
      · rfl

set_option maxRecDepth 10000 in
/-- C38 (witness): Walk of the root 1.3. When the first answer, 1.4, lies outside the
subtree, the fallback Get is the one request recorded; when the first answer is
1.3.1, no fallback Get is sent. -/
theorem walk_fallback_condition_witness :
    (snmptool_walk_rounds (strict_collab lp64) (1 + 1)
        (snmp_pdu_create (queue_ctx SNMP_PDU_GETNEXT false [object_of [1, 3]]) SNMP_PDU_GETNEXT)
        (start_state (queue_ctx SNMP_PDU_GETNEXT false [object_of [1, 3]])
          [(0, response_of [1, 4]), (0, response_of [1, 3])])).map
      (fun r => r.2.sent.length) = some 1 ∧
    (snmptool_walk_rounds (strict_collab lp64) (1 + 1)
        (snmp_pdu_create (queue_ctx SNMP_PDU_GETNEXT false [object_of [1, 3]]) SNMP_PDU_GETNEXT)
        (start_state (queue_ctx SNMP_PDU_GETNEXT false [object_of [1, 3]])
          [(0, response_of [1, 3, 1]), (0, response_of [1, 4])])).map
      (fun r => r.2.sent.length) = some 0 := by
  constructor
  · rw [(walk_fallback_condition (strict_collab lp64) 1
      (snmp_pdu_create (queue_ctx SNMP_PDU_GETNEXT false [object_of [1, 3]]) SNMP_PDU_GETNEXT)
      (start_state (queue_ctx SNMP_PDU_GETNEXT false [object_of [1, 3]])
        [(0, response_of [1, 4]), (0, response_of [1, 3])])
      (1, snmpwalk_nextpdu_create (queue_ctx SNMP_PDU_GETNEXT false [object_of [1, 3]])
        SNMP_PDU_GETNEXT [1, 3]) (by decide) (by decide) (by decide)).1]
    decide
  · rw [(walk_fallback_condition (strict_collab lp64) 1
      (snmp_pdu_create (queue_ctx SNMP_PDU_GETNEXT false [object_of [1, 3]]) SNMP_PDU_GETNEXT)
      (start_state (queue_ctx SNMP_PDU_GETNEXT false [object_of [1, 3]])
        [(0, response_of [1, 3, 1]), (0, response_of [1, 4])])
      (1, snmpwalk_nextpdu_create (queue_ctx SNMP_PDU_GETNEXT false [object_of [1, 3]])
        SNMP_PDU_GETNEXT [1, 3]) (by decide) (by decide) (by decide)).1]
    decide

/-! ## C39: the error index handed to Retry-by-Elimination -/

/-- C39 (the code at the failing input): Get and Set with retry-on-error, answered by
an error response (status 5) for 1.3 whose error index is 0, or 200. Retry-by-
Elimination is invoked all the same, with `resp.bindings[-1]` and with
`resp.bindings[199]`: positions before and behind the array of `SNMP_MAX_BINDINGS`
bindings (the model reads zeroes there). -/
theorem retry_reads_outside_bindings :
    (snmptool_get (strict_collab lp64) (queue_ctx SNMP_PDU_GET true [object_of [1, 3]])
        [(0, error_response [1, 3] 5 0)]).map
      (fun r => (r.2.retried, to_int32 ((error_response [1, 3] 5 0).error_index - 1)))
      = some ([(zero_value, 5)], -1) ∧
    (snmptool_get (strict_collab lp64) (queue_ctx SNMP_PDU_GET true [object_of [1, 3]])
        [(0, error_response [1, 3] 5 200)]).map
      (fun r => (r.2.retried, to_int32 ((error_response [1, 3] 5 200).error_index - 1)))
      = some ([(zero_value, 5)], 199) ∧
    (snmptool_set lp64 (strict_collab lp64) (set_ctx 0 true [integer_object [1, 3] 5])
        [(0, error_response [1, 3] 5 0)]).map
      (fun r => (r.2.retried, to_int32 ((error_response [1, 3] 5 0).error_index - 1)))
      = some ([(zero_value, 5)], -1) :=
  ⟨by decide, by decide, by decide⟩

/-! ## C40: the operation kind of the requests of Get -/

theorem get_loop_sent_extends (C : Collab) (script : List (Int × snmp_pdu)) :
    ∀ (req : snmp_pdu) (st st1 : run_state), snmptool_get_loop C script req st = some st1 →
      ∃ tail, st1.sent = st.sent ++ tail := by
  induction script with
  | nil =>
    intro req st st1 h
    unfold snmptool_get_loop at h
    split at h
    · simp at h
    · split at h
      · simp at h; exact ⟨[], by rw [← h]; simp⟩
      · simp at h; exact ⟨_, by rw [← h]⟩
  | cons p rest ih =>
    intro req st st1 h
    obtain ⟨rc, resp⟩ := p
    unfold snmptool_get_loop at h
    split at h
    · simp at h
    · split at h
      · simp at h; exact ⟨[], by rw [← h]; simp⟩
      · simp only at h
        split at h
        · simp at h; exact ⟨_, by rw [← h]⟩
        · split at h
          · simp at h; exact ⟨_, by rw [← h]⟩
          · split at h
            · simp at h; exact ⟨_, by rw [← h]⟩
            · split at h
              · simp at h; exact ⟨_, by rw [← h]⟩
              · obtain ⟨tail, ht⟩ := ih _ _ _ h
                exact ⟨_, by rw [ht, List.append_assoc]⟩

theorem get_loop_first_sent (C : Collab) (script : List (Int × snmp_pdu)) (req : snmp_pdu)
    (st st1 : run_state) (h : snmptool_get_loop C script req st = some st1) :
    st1.sent = st.sent ∨
      ∃ a tail, get_assemble st.ctx req = some a ∧
        st1.sent = st.sent ++ get_request st.ctx a.2 :: tail := by
  unfold snmptool_get_loop at h
  split at h
  · simp at h
  · rename_i a ha
    split at h
    · simp at h; left; rw [← h]
    · split at h
      · simp at h; right; exact ⟨a, [], ha, by rw [← h]⟩
      · split at h
        · simp at h; right; exact ⟨a, [], ha, by rw [← h]⟩
        · split at h
          · simp at h; right; exact ⟨a, [], ha, by rw [← h]⟩
          · split at h
            · simp at h; right; exact ⟨a, [], ha, by rw [← h]⟩
            · split at h
              · simp at h; right; exact ⟨a, [], ha, by rw [← h]⟩
              · obtain ⟨tail, ht⟩ := get_loop_sent_extends C _ _ _ _ h
                right
                exact ⟨a, tail, ha, by rw [ht]; simp⟩

/-- Whatever the configured PDU type is, the first request `snmptool_get` sends is a
PDU of kind Get. -/
theorem get_first_request_kind (C : Collab) (ctx : snmp_toolinfo)
    (agent : List (Int × snmp_pdu)) (r : Int × run_state) (q : snmp_pdu)
    (h : snmptool_get C ctx agent = some r) (hq : r.2.sent.head? = some q) :
    q.pdu_type = SNMP_PDU_GET := by
  unfold snmptool_get at h
  cases hl : snmptool_get_loop C agent (snmp_pdu_create ctx SNMP_PDU_GET) (start_state ctx agent) with
  | none => simp [hl] at h
  | some st1 =>
    simp only [hl, Option.map_some', Option.some.injEq] at h
    subst h
    rcases get_loop_first_sent C _ _ _ _ hl with h1 | ⟨a, tail, ha, h1⟩
    · simp only at hq
      rw [h1] at hq
      simp [start_state] at hq
    · simp only at hq
      rw [h1] at hq
      simp only [start_state, List.nil_append, List.head?_cons, Option.some.injEq] at hq
      rw [← hq]
      exact get_assemble_pdu_type _ _ a ha

/-- C40 (the code at the failing input): Get of 1.3 with the PDU type GetNext
configured sends a request of kind Get; with GetBulk configured (max-repetitions 10)
it sends a request of kind Get whose error-index field holds the 10; with GetNext
configured and a first answer that is an error response, the first request is of kind
Get and only the retry is of kind GetNext. -/
theorem get_first_request_is_get :
    (snmptool_get (strict_collab lp64) (queue_ctx SNMP_PDU_GETNEXT true [object_of [1, 3]])
        [(0, response_of [1, 3, 1])]).map
      (fun r => r.2.sent.map (fun q => q.pdu_type)) = some [SNMP_PDU_GET] ∧
    (snmptool_get (strict_collab lp64)
        { queue_ctx SNMP_PDU_GETBULK true [object_of [1, 3]] with maxrep := 10, nonrep := 0 }
        [(0, response_of [1, 3, 1])]).map
      (fun r => r.2.sent.map (fun q => (q.pdu_type, q.error_status, q.error_index)))
      = some [(SNMP_PDU_GET, 0, 10)] ∧
    (snmptool_get (strict_collab lp64)
        (queue_ctx SNMP_PDU_GETNEXT true [object_of [1, 3], object_of [1, 4]])
        [(0, error_response [1, 3] 2 1), (0, response_of [1, 4, 1])]).map
      (fun r => r.2.sent.map (fun q => q.pdu_type)) = some [SNMP_PDU_GET, SNMP_PDU_GETNEXT] :=
  ⟨by decide, by decide, by decide⟩

end Bsnmp
